import Mathlib

/-!
# Smart_LED MQTT codec: a shallow embedding and its properties

The definitions below embed `components/mqtt_protocl_lib` (the packet codec in
`mqtt_parser.c`, the constants of `mqtt_protocol.h` and `mqtt_parser.h`, the client functions
of `mqtt_client_api.c`, the vector of `mqtt_util.c`) and the session loop
`process_broker_messages` of `main/src/smart_led_mqtt.c`.

Conventions of the embedding

* A byte is a `Nat` below 256; `uint16_t` and `uint32_t` values are `Nat`s, C `int`
  values are `Int`s.  Narrowing conversions are written out (`% 256`, `% 65536`,
  `% 2 ^ 32`) at the places where the C code narrows.
* A buffer passed to the decoder is a pair of a memory block `mem : List Nat` and the
  `buf_size` argument.  The two are independent, exactly as in C: the decoder is handed
  a pointer and a length.  A read at an index outside `mem` yields `0`.
* The reading cursor (`uint8_t **buf` together with `int *accumulated_size`) is the
  structure `Cursor`.  Its field `reads` records, in order, every index of the memory
  block that the decoder dereferences.
* A `char *` is an `Option (List Nat)`: `none` is the null pointer, `some m` points at
  the block `m`.  Strings produced by `unpack_str` carry their terminating zero byte.
* `int`, `size_t` and `uint32_t` are 32 bits wide (the ESP32 target of the repository).
* `malloc` and `realloc` succeed.
* What the client functions do to their surroundings is recorded in a `World`: the buffers
  passed to `send`, in order, and the callbacks invoked, in order.  A function pointer is a
  number.  Whether a call of `send` fails is an input.
-/

namespace SmartLED

/-! ## Constants (`mqtt_protocol.h`, `mqtt_parser.h`) -/

def CONNECT_TYPE : Nat := 0x10
def CONNACK_TYPE : Nat := 0x20
def PUBLISH_TYPE : Nat := 0x30
def PUBACK_TYPE : Nat := 0x40
def SUBSCRIBE_TYPE : Nat := 0x80
def SUBACK_TYPE : Nat := 0x90
def UNSUBSCRIBE_TYPE : Nat := 0xA0
def DISCONNECT_TYPE : Nat := 0xE0

def CONNACK_PACKET_SIZE : Nat := 4

def TYPE_MASK : Nat := 0xF0
def FLAG_MASK : Nat := 0x0F

def PUBLISH_QOS_FLAG_MASK : Nat := 6
def PUBLISH_QOS_0 : Nat := 0
def PUBLISH_QOS_1 : Nat := 2

def QOS_0 : Int := 0
def QOS_1 : Int := 1
def QOS_2 : Int := 2

def SUB_UNSUB_FLAGS : Nat := 0x02
def SUBACK_FAIL : Nat := 0x80
def DISCONNECT_FLAGS : Nat := 0x00

def CLEAN_SESSION_FLAG : Nat := 2
def WILL_FLAG : Nat := 4

def MQTT_CONNECT : Int := 1
def MQTT_CONNACK : Int := 2
def MQTT_PUBLISH : Int := 3
def MQTT_PUBACK : Int := 4
def MQTT_SUBSCRIBE : Int := 8
def MQTT_SUBACK : Int := 9
def MQTT_UNSUBSCRIBE : Int := 10
def MQTT_DISCONNECT : Int := 14

def OK : Int := 0
def GENERIC_ERR : Int := -1
def INCORRECT_FLAGS : Int := -2
def MALFORMED_PACKET : Int := -3
def FAILED_MEM_ALLOC : Int := -4
def INVALID_PACKET_TYPE : Int := -5
def OUT_OF_BOUNDS : Int := -6
def QOS_LEVEL_NOT_SUPPORTED : Int := -7
def PACKET_ID_NOT_ALLOWED : Int := -8

/-! ## Reading cursor -/

/-- The decoder position: `pos` is the offset of `*buf` from the start of the memory
block, `acc` is `accumulated_size`, `reads` lists the indices dereferenced so far. -/
structure Cursor where
  pos : Nat
  acc : Int
  reads : List Nat
deriving DecidableEq, Repr

/-- The cursor at the start of a buffer. -/
def Cursor.start : Cursor := { pos := 0, acc := 0, reads := [] }

/-- The byte stored at index `i` of a memory block. -/
def readByte (mem : List Nat) (i : Nat) : Nat := mem.getD i 0

/-- The `n` bytes stored from index `pos` on (the source of a `memcpy`). -/
def memRead (mem : List Nat) (pos n : Nat) : List Nat :=
  (List.range n).map (fun k => readByte mem (pos + k))

/-! ## Remaining Length (`mqtt_parser.c`, lines 15-50) -/

/-- The `do ... while` loop of `decode_remaining_length`.  The first argument bounds the
number of iterations; the exit test on `multiplier` fires in the fifth iteration at the
latest, so that five iterations are always enough (`decode_loop_fuel`). -/
def decode_remaining_length_loop (mem : List Nat) : Nat → Nat → Nat → Cursor → Nat × Cursor
  | 0, _, _, c => (0xFFFFFFFF, c)
  | fuel + 1, multiplier, value, c =>
    let encoded_byte := readByte mem c.pos
    let c1 : Cursor := { pos := c.pos + 1, acc := c.acc + 1, reads := c.reads ++ [c.pos] }
    let value1 := (value + (encoded_byte &&& 127) * multiplier) % 2 ^ 32
    if multiplier > 128 * 128 * 128 then (0xFFFFFFFF, c1)
    else
      let multiplier1 := (multiplier * 128) % 2 ^ 32
      if (encoded_byte &&& 128) ≠ 0 then
        decode_remaining_length_loop mem fuel multiplier1 value1 c1
      else (value1, c1)

/-- C function `decode_remaining_length`: the decoded value and the advanced cursor. -/
def decode_remaining_length (mem : List Nat) (c : Cursor) : Nat × Cursor :=
  decode_remaining_length_loop mem 5 1 0 c

/-- The `do ... while` loop of `encode_remaining_length`; `out` holds the bytes written so
far (`remaining_len_size` is its length). -/
def encode_remaining_length_loop : Nat → Nat → List Nat → List Nat
  | 0, _, out => out
  | fuel + 1, remaining_length, out =>
    let encoded_byte := remaining_length % 128
    let remaining_length1 := remaining_length / 128
    let encoded_byte1 := if remaining_length1 > 0 then encoded_byte ||| 128 else encoded_byte
    let out1 := out ++ [encoded_byte1]
    if remaining_length1 > 0 ∧ out1.length < 4 then
      encode_remaining_length_loop fuel remaining_length1 out1
    else out1

/-- C function `encode_remaining_length`: the returned count and the bytes written to
`remaining_len_bytes`. -/
def encode_remaining_length (remaining_length : Nat) : Int × List Nat :=
  let out := encode_remaining_length_loop 4 remaining_length []
  ((out.length : Int), out)

/-! ## C integer conversions -/

/-- Conversion to `uint8_t`. -/
def u8 (x : Int) : Nat := (x % 256).toNat

/-- Conversion to `uint16_t`. -/
def u16 (x : Int) : Nat := (x % 65536).toNat

/-- Conversion of a 32-bit unsigned value (`size_t`, `uint32_t`) to `int`. -/
def to_int (n : Nat) : Int := ((n : Int) + 2 ^ 31) % 2 ^ 32 - 2 ^ 31

/-- The value of an `int` after conversion to the 32-bit unsigned type `size_t`. -/
def to_size (x : Int) : Int := x % 2 ^ 32

/-- C `a & mask` for an `int` `a` and a non-negative constant `mask` (two's complement). -/
def int_and (a : Int) (mask : Nat) : Int := ((((a % 2 ^ 32).toNat &&& mask : Nat)) : Int)

/-! ## Primitive readers (`mqtt_parser.c`, lines 53-89) -/

/-- C function `unpack_uint8`: the byte read (or `-1`) and the cursor. -/
def unpack_uint8 (mem : List Nat) (buf_len : Nat) (c : Cursor) : Int × Cursor :=
  if to_size (c.acc + 1) > (buf_len : Int) then (-1, c)
  else
    ((readByte mem c.pos : Int),
      { pos := c.pos + 1, acc := c.acc + 1, reads := c.reads ++ [c.pos] })

/-- C function `unpack_uint16`: the big-endian value read (or `-1`) and the cursor. -/
def unpack_uint16 (mem : List Nat) (buf_len : Nat) (c : Cursor) : Int × Cursor :=
  if to_size (c.acc + 2) > (buf_len : Int) then (-1, c)
  else
    (((readByte mem c.pos * 256 + readByte mem (c.pos + 1) : Nat) : Int),
      { pos := c.pos + 2, acc := c.acc + 2, reads := c.reads ++ [c.pos, c.pos + 1] })

/-- A `char *`: `none` is the null pointer. -/
abbrev CStr := Option (List Nat)

/-- C function `unpack_str`: the return code, the new value of `*str` and the cursor.  The
parameter `str_len` is a `uint16_t`. -/
def unpack_str (mem : List Nat) (str : CStr) (str_len : Nat) (buf_len : Nat) (c : Cursor) :
    Int × CStr × Cursor :=
  let n := str_len % 65536
  if c.acc + (n : Int) > to_int buf_len then (OUT_OF_BOUNDS, str, c)
  else
    (0, some (memRead mem c.pos n ++ [0]),
      { pos := c.pos + n, acc := c.acc + n, reads := c.reads ++ List.range' c.pos n })

/-! ## Packet structures (`mqtt_protocol.h`) -/

structure mqtt_header where
  remaining_length : Nat
  fixed_header : Nat
deriving DecidableEq, Repr

structure protocol_name_t where
  len : Nat
  name : CStr
deriving DecidableEq, Repr

structure connect_payload where
  client_id : CStr
  will_topic : CStr
  will_message : CStr
  client_id_len : Nat
  will_topic_len : Nat
  will_message_len : Nat
deriving DecidableEq, Repr

structure mqtt_connect where
  protocol_name : protocol_name_t
  keep_alive : Nat
  protocol_level : Nat
  connect_flags : Nat
  payload : connect_payload
deriving DecidableEq, Repr

structure mqtt_connack where
  session_present_flag : Nat
  return_code : Nat
deriving DecidableEq, Repr

structure subscribe_tuples where
  topic : CStr
  topic_len : Nat
  qos : Nat
  suback_status : Nat
deriving DecidableEq, Repr, Inhabited

structure mqtt_subscribe where
  pkt_id : Nat
  tuples_len : Nat
  tuples : List subscribe_tuples
deriving DecidableEq, Repr

structure unsubscribe_tuples where
  topic : CStr
  topic_len : Nat
deriving DecidableEq, Repr, Inhabited

structure mqtt_unsubscribe where
  pkt_id : Nat
  tuples_len : Nat
  tuples : List unsubscribe_tuples
deriving DecidableEq, Repr

structure mqtt_suback where
  pkt_id : Nat
  return_codes : List Nat
  rc_len : Nat
deriving DecidableEq, Repr

structure mqtt_publish where
  pkt_id : Nat
  topic_len : Nat
  payload_len : Nat
  topic : CStr
  payload : CStr
deriving DecidableEq, Repr

structure mqtt_ack where
  pkt_id : Nat
deriving DecidableEq, Repr

abbrev mqtt_puback := mqtt_ack

/-- The packet: the header and one field per member of the union `type`.  The members
are kept apart (the overlap of the union's storage is not modelled). -/
structure mqtt_packet where
  header : mqtt_header
  connect : mqtt_connect
  connack : mqtt_connack
  publish : mqtt_publish
  puback : mqtt_puback
  subscribe : mqtt_subscribe
  suback : mqtt_suback
  unsubscribe : mqtt_unsubscribe
deriving DecidableEq, Repr

/-- The packet `mqtt_packet packet = {0}` of `process_broker_messages`. -/
def mqtt_packet.zero : mqtt_packet :=
  { header := { remaining_length := 0, fixed_header := 0 }
    connect :=
      { protocol_name := { len := 0, name := none }
        keep_alive := 0
        protocol_level := 0
        connect_flags := 0
        payload :=
          { client_id := none, will_topic := none, will_message := none
            client_id_len := 0, will_topic_len := 0, will_message_len := 0 } }
    connack := { session_present_flag := 0, return_code := 0 }
    publish := { pkt_id := 0, topic_len := 0, payload_len := 0, topic := none, payload := none }
    puback := { pkt_id := 0 }
    subscribe := { pkt_id := 0, tuples_len := 0, tuples := [] }
    suback := { pkt_id := 0, return_codes := [], rc_len := 0 }
    unsubscribe := { pkt_id := 0, tuples_len := 0, tuples := [] } }

/-- The indeterminate contents of array elements obtained from `realloc`: `sub i` is what
element `i` of a SUBSCRIBE tuple array holds when the array is grown to include it,
`unsub i` likewise for UNSUBSCRIBE. -/
structure Uninit where
  sub : Nat → subscribe_tuples
  unsub : Nat → unsubscribe_tuples

/-- The result of a decoding function: return code, the structure written, the cursor. -/
structure Res (α : Type) where
  rc : Int
  val : α
  cur : Cursor

/-- The array after `a[i] = f a[i]`; an index outside the array (undefined behaviour in
C) leaves the array as it is. -/
def updAt {α : Type} (f : α → α) : List α → Nat → List α
  | [], _ => []
  | x :: xs, 0 => f x :: xs
  | x :: xs, i + 1 => x :: updAt f xs i

/-- The array after `realloc(a, (i + 1) * sizeof *a)`: the first `i + 1` elements are
kept, a missing element `i` is indeterminate (`fresh`). -/
def reallocAt {α : Type} (a : List α) (i : Nat) (fresh : α) : List α :=
  (a ++ [fresh]).take (i + 1)

/-! ## Decoders (`mqtt_parser.c`, lines 92-379) -/

/-- Field assignments on `mqtt_connect`. -/
def mqtt_connect.set_protocol_name_len (conn : mqtt_connect) (v : Nat) : mqtt_connect :=
  { conn with protocol_name := { conn.protocol_name with len := v } }

def mqtt_connect.set_protocol_name_name (conn : mqtt_connect) (v : CStr) : mqtt_connect :=
  { conn with protocol_name := { conn.protocol_name with name := v } }

def mqtt_connect.set_protocol_level (conn : mqtt_connect) (v : Nat) : mqtt_connect :=
  { conn with protocol_level := v }

def mqtt_connect.set_connect_flags (conn : mqtt_connect) (v : Nat) : mqtt_connect :=
  { conn with connect_flags := v }

def mqtt_connect.set_keep_alive (conn : mqtt_connect) (v : Nat) : mqtt_connect :=
  { conn with keep_alive := v }

def mqtt_connect.set_client_id_len (conn : mqtt_connect) (v : Nat) : mqtt_connect :=
  { conn with payload := { conn.payload with client_id_len := v } }

def mqtt_connect.set_client_id (conn : mqtt_connect) (v : CStr) : mqtt_connect :=
  { conn with payload := { conn.payload with client_id := v } }

def mqtt_connect.set_will_topic_len (conn : mqtt_connect) (v : Nat) : mqtt_connect :=
  { conn with payload := { conn.payload with will_topic_len := v } }

def mqtt_connect.set_will_topic (conn : mqtt_connect) (v : CStr) : mqtt_connect :=
  { conn with payload := { conn.payload with will_topic := v } }

def mqtt_connect.set_will_message_len (conn : mqtt_connect) (v : Nat) : mqtt_connect :=
  { conn with payload := { conn.payload with will_message_len := v } }

def mqtt_connect.set_will_message (conn : mqtt_connect) (v : CStr) : mqtt_connect :=
  { conn with payload := { conn.payload with will_message := v } }

/-- C function `unpack_connect`. -/
def unpack_connect (conn : mqtt_connect) (mem : List Nat) (buf_size : Nat) (c : Cursor) :
    Res mqtt_connect :=
  -- Protocol name length
  let r1 := unpack_uint16 mem buf_size c
  if r1.1 < 0 then ⟨OUT_OF_BOUNDS, conn, r1.2⟩ else
  let conn1 := conn.set_protocol_name_len (u16 r1.1)
  -- Protocol name
  let r2 := unpack_str mem conn1.protocol_name.name conn1.protocol_name.len buf_size r1.2
  let conn2 := conn1.set_protocol_name_name r2.2.1
  if r2.1 ≠ 0 then ⟨r2.1, conn2, r2.2.2⟩ else
  -- Protocol level
  let r3 := unpack_uint8 mem buf_size r2.2.2
  if r3.1 < 0 then ⟨OUT_OF_BOUNDS, conn2, r3.2⟩ else
  let conn3 := conn2.set_protocol_level (u8 r3.1)
  -- Connect flags
  let r4 := unpack_uint8 mem buf_size r3.2
  if int_and r4.1 1 = 1 then ⟨MALFORMED_PACKET, conn3, r4.2⟩ else
  if r4.1 < 0 then ⟨OUT_OF_BOUNDS, conn3, r4.2⟩ else
  let conn4 := conn3.set_connect_flags (u8 r4.1)
  -- Keep alive
  let r5 := unpack_uint16 mem buf_size r4.2
  if r5.1 < 0 then ⟨OUT_OF_BOUNDS, conn4, r5.2⟩ else
  let conn5 := conn4.set_keep_alive (u16 r5.1)
  -- Client ID
  let r6 := unpack_uint16 mem buf_size r5.2
  if r6.1 < 0 then ⟨OUT_OF_BOUNDS, conn5, r6.2⟩ else
  let conn6 := conn5.set_client_id_len (u16 r6.1)
  let r7 := unpack_str mem conn6.payload.client_id conn6.payload.client_id_len buf_size r6.2
  let conn7 := conn6.set_client_id r7.2.1
  if r7.1 ≠ 0 then ⟨r7.1, conn7, r7.2.2⟩ else
  -- Will
  if conn7.connect_flags &&& WILL_FLAG = WILL_FLAG then
    -- Will topic length
    let r8 := unpack_uint16 mem buf_size r7.2.2
    if r8.1 < 0 then ⟨OUT_OF_BOUNDS, conn7, r8.2⟩ else
    let conn8 := conn7.set_will_topic_len (u16 r8.1)
    -- Will topic name
    let r9 : Int × CStr × Cursor :=
      if conn8.payload.will_topic_len ≠ 0 then
        unpack_str mem conn8.payload.will_topic conn8.payload.will_topic_len buf_size r8.2
      else (0, conn8.payload.will_topic, r8.2)
    let conn9 := conn8.set_will_topic r9.2.1
    if r9.1 ≠ 0 then ⟨r9.1, conn9, r9.2.2⟩ else
    -- Will message length
    let r10 := unpack_uint16 mem buf_size r9.2.2
    if r10.1 < 0 then ⟨OUT_OF_BOUNDS, conn9, r10.2⟩ else
    let conn10 := conn9.set_will_message_len (u16 r10.1)
    -- Will message
    let r11 : Int × CStr × Cursor :=
      if conn10.payload.will_message_len ≠ 0 then
        unpack_str mem conn10.payload.will_message conn10.payload.will_message_len buf_size
          r10.2
      else (0, conn10.payload.will_message, r10.2)
    let conn11 := conn10.set_will_message r11.2.1
    if r11.1 ≠ 0 then ⟨r11.1, conn11, r11.2.2⟩ else
    ⟨MQTT_CONNECT, conn11, r11.2.2⟩
  else ⟨MQTT_CONNECT, conn7, r7.2.2⟩

/-- C function `unpack_connack`. -/
def unpack_connack (connack : mqtt_connack) (mem : List Nat) (buf_size : Nat) (c : Cursor) :
    Res mqtt_connack :=
  -- Connack flags
  let r1 := unpack_uint8 mem buf_size c
  if r1.1 < 0 then ⟨OUT_OF_BOUNDS, connack, r1.2⟩ else
  -- Only the LSB in connack flags may be set
  if int_and r1.1 254 ≠ 0 then ⟨MALFORMED_PACKET, connack, r1.2⟩ else
  let connack1 := { connack with session_present_flag := u8 r1.1 }
  -- Connack return code
  let r2 := unpack_uint8 mem buf_size r1.2
  if r2.1 < 0 then ⟨OUT_OF_BOUNDS, connack1, r2.2⟩ else
  ⟨MQTT_CONNACK, { connack1 with return_code := u8 r2.1 }, r2.2⟩

/-- The last part of `unpack_publish`, from the comment `// Payload` on;
`variable_header_size` is an `int`. -/
def unpack_publish_payload (publish : mqtt_publish) (header : mqtt_header) (mem : List Nat)
    (buf_size : Nat) (variable_header_size : Int) (c : Cursor) : Res mqtt_publish :=
  if variable_header_size > to_int header.remaining_length then
    ⟨MALFORMED_PACKET, publish, c⟩
  else
    let publish1 :=
      { publish with
          payload_len :=
            (((header.remaining_length : Int) - variable_header_size) % 2 ^ 32).toNat }
    let r := unpack_str mem publish1.payload publish1.payload_len buf_size c
    let publish2 := { publish1 with payload := r.2.1 }
    if r.1 ≠ 0 then ⟨r.1, publish2, r.2.2⟩ else
    ⟨MQTT_PUBLISH, publish2, r.2.2⟩

/-- C function `unpack_publish`; `variable_header_size` is an `int`. -/
def unpack_publish (publish : mqtt_publish) (header : mqtt_header) (mem : List Nat)
    (buf_size : Nat) (c : Cursor) : Res mqtt_publish :=
  let variable_header_size : Int := 0
  -- Topic length
  let r1 := unpack_uint16 mem buf_size c
  if r1.1 < 0 then ⟨OUT_OF_BOUNDS, publish, r1.2⟩ else
  let publish1 := { publish with topic_len := u16 r1.1 }
  let variable_header_size1 := variable_header_size + 2
  -- Topic name
  let r2 := unpack_str mem publish1.topic publish1.topic_len buf_size r1.2
  let publish2 := { publish1 with topic := r2.2.1 }
  if r2.1 ≠ 0 then ⟨r2.1, publish2, r2.2.2⟩ else
  let variable_header_size2 := variable_header_size1 + (publish2.topic_len : Int)
  -- Packet ID
  if header.fixed_header &&& PUBLISH_QOS_FLAG_MASK ≠ PUBLISH_QOS_0 then
    let r3 := unpack_uint16 mem buf_size r2.2.2
    if r3.1 = 0 then ⟨PACKET_ID_NOT_ALLOWED, publish2, r3.2⟩ else
    if r3.1 < 0 then ⟨OUT_OF_BOUNDS, publish2, r3.2⟩ else
    let publish3 := { publish2 with pkt_id := u16 r3.1 }
    let variable_header_size3 := variable_header_size2 + 2
    unpack_publish_payload publish3 header mem buf_size variable_header_size3 r3.2
  else
    unpack_publish_payload publish2 header mem buf_size variable_header_size2 r2.2.2

/-- The `while` loop of `unpack_subscribe`.  The first argument bounds the number of
iterations; `none` means that the loop has not finished within the bound.  The state is
the tuple array, the index `i` and the cursor. -/
def unpack_subscribe_loop (u : Uninit) (mem : List Nat) (buf_size : Nat)
    (subscribe_global_failure : Bool) :
    Nat → List subscribe_tuples → Nat → Cursor → Option (List subscribe_tuples × Nat × Cursor)
  | 0, _, _, _ => none
  | fuel + 1, tuples, i, c =>
    if c.acc < to_int buf_size then
      if subscribe_global_failure then
        unpack_subscribe_loop u mem buf_size subscribe_global_failure fuel
          (updAt (fun t => { t with suback_status := SUBACK_FAIL }) tuples i) i c
      else
        -- Topic len
        let tuples1 := reallocAt tuples i (u.sub i)
        let r1 := unpack_uint16 mem buf_size c
        if r1.1 ≤ 0 then
          unpack_subscribe_loop u mem buf_size subscribe_global_failure fuel
            (updAt (fun t => { t with suback_status := SUBACK_FAIL }) tuples1 i) i r1.2
        else
          let tuples2 := updAt (fun t => { t with topic_len := u16 r1.1 }) tuples1 i
          -- Topic name
          let r2 := unpack_str mem (tuples2.getD i default).topic (tuples2.getD i default).topic_len
            buf_size r1.2
          let tuples3 := updAt (fun t => { t with topic := r2.2.1 }) tuples2 i
          if r2.1 ≠ 0 then
            unpack_subscribe_loop u mem buf_size subscribe_global_failure fuel
              (updAt (fun t => { t with suback_status := SUBACK_FAIL }) tuples3 i) i r2.2.2
          else
            -- Topic qos
            let r3 := unpack_uint8 mem buf_size r2.2.2
            if r3.1 < 0 ∨ r3.1 > 1 then
              unpack_subscribe_loop u mem buf_size subscribe_global_failure fuel
                (updAt (fun t => { t with suback_status := SUBACK_FAIL }) tuples3 i) i r3.2
            else
              let tuples4 := updAt (fun t => { t with qos := u8 r3.1 }) tuples3 i
              -- Final return status for the individual subscription is its requested qos
              let tuples5 :=
                if (tuples4.getD i default).suback_status ≠ SUBACK_FAIL then
                  updAt (fun t => { t with suback_status := t.qos }) tuples4 i
                else tuples4
              unpack_subscribe_loop u mem buf_size subscribe_global_failure fuel tuples5
                (i + 1) r3.2
    else some (tuples, i, c)

/-- C function `unpack_subscribe`; `fuel` bounds the iterations of the tuple loop. -/
def unpack_subscribe (u : Uninit) (fuel : Nat) (subscribe : mqtt_subscribe) (mem : List Nat)
    (buf_size : Nat) (c : Cursor) : Option (Res mqtt_subscribe) :=
  -- Packet ID
  let r1 := unpack_uint16 mem buf_size c
  let subscribe_global_failure : Bool := decide (r1.1 ≤ 0)
  let subscribe1 := { subscribe with pkt_id := u16 r1.1 }
  -- Payload
  match unpack_subscribe_loop u mem buf_size subscribe_global_failure fuel subscribe1.tuples 0
      r1.2 with
  | none => none
  | some (tuples, i, c1) =>
    let subscribe2 := { subscribe1 with tuples := tuples, tuples_len := i % 65536 }
    if subscribe2.tuples_len = 0 then some ⟨MALFORMED_PACKET, subscribe2, c1⟩
    else some ⟨MQTT_SUBSCRIBE, subscribe2, c1⟩

/-- The `while` loop of `unpack_suback`, by the number `rc_len - i` of codes still to be
read; `codes` holds the elements of `return_codes` written so far. -/
def unpack_suback_loop (mem : List Nat) (buf_size : Nat) :
    Nat → List Nat → Cursor → Res (List Nat)
  | 0, codes, c => ⟨MQTT_SUBACK, codes, c⟩
  | k + 1, codes, c =>
    let r := unpack_uint8 mem buf_size c
    if r.1 < 0 then ⟨OUT_OF_BOUNDS, codes, r.2⟩ else
    if r.1 ≠ QOS_0 ∧ r.1 ≠ QOS_1 ∧ r.1 ≠ QOS_2 ∧ r.1 ≠ (SUBACK_FAIL : Int) then
      ⟨MALFORMED_PACKET, codes, r.2⟩
    else unpack_suback_loop mem buf_size k (codes ++ [u8 r.1]) r.2

/-- C function `unpack_suback`. -/
def unpack_suback (suback : mqtt_suback) (mem : List Nat) (buf_size : Nat) (c : Cursor) :
    Res mqtt_suback :=
  -- Packet ID
  let r1 := unpack_uint16 mem buf_size c
  if r1.1 < 0 then ⟨OUT_OF_BOUNDS, suback, r1.2⟩ else
  let suback1 := { suback with pkt_id := u16 r1.1 }
  -- Return codes
  let suback2 :=
    { suback1 with rc_len := u16 (((buf_size % 65536 : Nat) : Int) - ((u16 r1.2.acc : Nat) : Int)) }
  if suback2.rc_len = 0 then ⟨MALFORMED_PACKET, suback2, r1.2⟩ else
  let r2 := unpack_suback_loop mem buf_size suback2.rc_len [] r1.2
  ⟨r2.rc, { suback2 with return_codes := r2.val }, r2.cur⟩

/-- The `while` loop of `unpack_unsubscribe`.  The first argument bounds the number of
iterations; `none` means that the loop has not finished within the bound.  The result
is the return code taken inside the loop (`0` when the loop ends by its condition), the
tuple array, the index `i` and the cursor. -/
def unpack_unsubscribe_loop (u : Uninit) (mem : List Nat) (buf_size : Nat) :
    Nat → List unsubscribe_tuples → Nat → Cursor →
      Option (Int × List unsubscribe_tuples × Nat × Cursor)
  | 0, _, _, _ => none
  | fuel + 1, tuples, i, c =>
    if c.acc < to_int buf_size then
      let tuples1 := reallocAt tuples i (u.unsub i)
      -- Topic len
      let r1 := unpack_uint16 mem buf_size c
      if r1.1 < 0 then some (OUT_OF_BOUNDS, tuples1, i, r1.2) else
      if r1.1 = 0 then some (MALFORMED_PACKET, tuples1, i, r1.2) else
      let tuples2 := updAt (fun t => { t with topic_len := u16 r1.1 }) tuples1 i
      -- Topic name
      let r2 := unpack_str mem (tuples2.getD i default).topic (tuples2.getD i default).topic_len
        buf_size r1.2
      let tuples3 := updAt (fun t => { t with topic := r2.2.1 }) tuples2 i
      if r2.1 ≠ 0 then some (r2.1, tuples3, i, r2.2.2) else
      unpack_unsubscribe_loop u mem buf_size fuel tuples3 (i + 1) r2.2.2
    else some (0, tuples, i, c)

/-- C function `unpack_unsubscribe`; `fuel` bounds the iterations of the tuple loop. -/
def unpack_unsubscribe (u : Uninit) (fuel : Nat) (unsubscribe : mqtt_unsubscribe)
    (mem : List Nat) (buf_size : Nat) (c : Cursor) : Option (Res mqtt_unsubscribe) :=
  -- Packet ID
  let r1 := unpack_uint16 mem buf_size c
  if r1.1 = 0 then some ⟨PACKET_ID_NOT_ALLOWED, unsubscribe, r1.2⟩ else
  if r1.1 < 0 then some ⟨OUT_OF_BOUNDS, unsubscribe, r1.2⟩ else
  let unsubscribe1 := { unsubscribe with pkt_id := u16 r1.1 }
  -- Payload
  match unpack_unsubscribe_loop u mem buf_size fuel unsubscribe1.tuples 0 r1.2 with
  | none => none
  | some (rc, tuples, i, c1) =>
    if rc ≠ 0 then some ⟨rc, { unsubscribe1 with tuples := tuples }, c1⟩ else
    let unsubscribe2 := { unsubscribe1 with tuples := tuples, tuples_len := i % 65536 }
    if unsubscribe2.tuples_len = 0 then some ⟨MALFORMED_PACKET, unsubscribe2, c1⟩
    else some ⟨MQTT_UNSUBSCRIBE, unsubscribe2, c1⟩

/-- C function `unpack`: the dispatcher.  `fuel` bounds the iterations of the SUBSCRIBE and
UNSUBSCRIBE tuple loops; `none` means that such a loop has not finished within it. -/
def unpack (u : Uninit) (fuel : Nat) (packet : mqtt_packet) (mem : List Nat) (buf_size : Nat) :
    Option (Res mqtt_packet) :=
  let c0 := Cursor.start
  -- Extract the fixed header
  let packet1 :=
    { packet with header := { packet.header with fixed_header := readByte mem c0.pos } }
  let c1 : Cursor := { pos := c0.pos + 1, acc := c0.acc + 1, reads := c0.reads ++ [c0.pos] }
  let d := decode_remaining_length mem c1
  let packet2 := { packet1 with header := { packet1.header with remaining_length := d.1 } }
  let c2 := d.2
  let packet_type := packet2.header.fixed_header &&& TYPE_MASK
  if packet_type = CONNECT_TYPE then
    let r := unpack_connect packet2.connect mem buf_size c2
    some ⟨r.rc, { packet2 with connect := r.val }, r.cur⟩
  else if packet_type = CONNACK_TYPE then
    if packet2.header.fixed_header &&& FLAG_MASK ≠ 0 then some ⟨INCORRECT_FLAGS, packet2, c2⟩ else
    if packet2.header.remaining_length ≠ 2 then some ⟨MALFORMED_PACKET, packet2, c2⟩ else
    let r := unpack_connack packet2.connack mem buf_size c2
    some ⟨r.rc, { packet2 with connack := r.val }, r.cur⟩
  else if packet_type = PUBLISH_TYPE then
    let r := unpack_publish packet2.publish packet2.header mem buf_size c2
    some ⟨r.rc, { packet2 with publish := r.val }, r.cur⟩
  else if packet_type = PUBACK_TYPE then
    if packet2.header.remaining_length ≠ 2 then some ⟨MALFORMED_PACKET, packet2, c2⟩ else
    let r := unpack_uint16 mem buf_size c2
    if r.1 < 0 then some ⟨OUT_OF_BOUNDS, packet2, r.2⟩ else
    some ⟨MQTT_PUBACK, { packet2 with puback := { pkt_id := u16 r.1 } }, r.2⟩
  else if packet_type = SUBSCRIBE_TYPE then
    if packet2.header.fixed_header &&& FLAG_MASK ≠ SUB_UNSUB_FLAGS then
      some ⟨INCORRECT_FLAGS, packet2, c2⟩
    else
      match unpack_subscribe u fuel packet2.subscribe mem buf_size c2 with
      | none => none
      | some r => some ⟨r.rc, { packet2 with subscribe := r.val }, r.cur⟩
  else if packet_type = SUBACK_TYPE then
    let r := unpack_suback packet2.suback mem buf_size c2
    some ⟨r.rc, { packet2 with suback := r.val }, r.cur⟩
  else if packet_type = UNSUBSCRIBE_TYPE then
    if packet2.header.fixed_header &&& FLAG_MASK ≠ SUB_UNSUB_FLAGS then
      some ⟨INCORRECT_FLAGS, packet2, c2⟩
    else
      match unpack_unsubscribe u fuel packet2.unsubscribe mem buf_size c2 with
      | none => none
      | some r => some ⟨r.rc, { packet2 with unsubscribe := r.val }, r.cur⟩
  else if packet_type = DISCONNECT_TYPE then
    if packet2.header.fixed_header &&& FLAG_MASK ≠ DISCONNECT_FLAGS then
      some ⟨MALFORMED_PACKET, packet2, c2⟩
    else some ⟨MQTT_DISCONNECT, packet2, c2⟩
  else some ⟨GENERIC_ERR, packet2, c2⟩

/-! ## Encoders (`mqtt_parser.c`, lines 382-751) -/

/-- The result of a packing function. -/
structure packing_status where
  buf : Option (List Nat)
  buf_len : Nat
  return_code : Int
deriving DecidableEq, Repr

/-- The macro `CHECK(x, err, err_out)` with `err_out` the field `return_code`. -/
def CHECK (x : Prop) [Decidable x] (err : Int) (status : packing_status) : packing_status :=
  if x then { status with return_code := err } else status

/-- The call `CHECK(f(&status.buf, &status.buf_len, ...), err, status.return_code)` for a packing
primitive `f`, whose outcome `r` is its return value and the updated buffer. -/
def CHECK_call (r : Int × packing_status) (err : Int) : packing_status :=
  CHECK (r.1 ≠ 0) err r.2

/-- The block after `realloc(buf, n)`: `n` bytes, the old contents first; the bytes beyond
the old contents are indeterminate (the model shows them as `0`). -/
def realloc_bytes (buf : Option (List Nat)) (n : Nat) : List Nat :=
  ((buf.getD []) ++ List.replicate n 0).take n

/-- The block after `memcpy(block + off, bytes, bytes.length)`. -/
def memWrite (block : List Nat) (off : Nat) (bytes : List Nat) : List Nat :=
  block.take off ++ bytes ++ block.drop (off + bytes.length)

/-- The common body of `pack8`, `pack16`, `pack32` and `pack_str`: grow the buffer by
`bytes.length` and copy `bytes` to its end. -/
def pack_bytes (status : packing_status) (bytes : List Nat) : Int × packing_status :=
  let tmp := realloc_bytes status.buf (status.buf_len + bytes.length)
  (0, { status with
          buf := some (memWrite tmp status.buf_len bytes)
          buf_len := status.buf_len + bytes.length })

/-- C function `pack8`; `item` is a `uint8_t`. -/
def pack8 (status : packing_status) (item : Nat) : Int × packing_status :=
  pack_bytes status [item % 256]

/-- C function `pack16`; `item` is a `uint16_t`, written in network byte order. -/
def pack16 (status : packing_status) (item : Nat) : Int × packing_status :=
  pack_bytes status [item % 65536 / 256, item % 65536 % 256]

/-- C function `pack32`; `item` is a `uint32_t`, written in network byte order. -/
def pack32 (status : packing_status) (item : Nat) : Int × packing_status :=
  pack_bytes status
    [item % 2 ^ 32 / 2 ^ 24, item % 2 ^ 32 / 2 ^ 16 % 256, item % 2 ^ 32 / 2 ^ 8 % 256,
      item % 2 ^ 32 % 256]

/-- C function `pack_str`; `str_len` is a `uint16_t`.  The bytes are read from the block `str` points
at (a null `str` is read as an empty block). -/
def pack_str (status : packing_status) (str : CStr) (str_len : Nat) : Int × packing_status :=
  pack_bytes status (memRead (str.getD []) 0 (str_len % 65536))

/-- C function `finalize_packet`. -/
def finalize_packet (status : packing_status) (remaining_len : Nat) (header_byte : Nat) :
    packing_status :=
  -- Convert remaining_len from an integer to a variable length encoded buffer
  let enc := encode_remaining_length remaining_len
  let encoded_len := enc.1.toNat
  -- Allocate enough space for the entire packet buffer
  let block := realloc_bytes status.buf (1 + encoded_len + remaining_len)
  let status1 : packing_status :=
    { status with buf_len := 1 + encoded_len + remaining_len, buf := some block }
  let status2 := CHECK (status1.buf = none) FAILED_MEM_ALLOC status1
  if status2.return_code ≠ 0 then status2 else
  -- Shift buffer to the right to make space for the fixed header
  let block1 := memWrite block (1 + encoded_len) (memRead block 0 remaining_len)
  -- Push the fixed header at the start of the buffer
  let block2 := memWrite block1 0 [header_byte % 256]
  let block3 := memWrite block2 1 (enc.2.take encoded_len)
  { status2 with buf := some block3 }

/-- C function `pack_connect`. -/
def pack_connect (conn : mqtt_connect) : packing_status :=
  let status : packing_status := { buf := none, buf_len := 0, return_code := 0 }
  /- Sanity Checks -/
  let status := CHECK (conn.protocol_name.len = 0) MALFORMED_PACKET status
  let status := CHECK (conn.protocol_name.name = none) MALFORMED_PACKET status
  let status := CHECK (conn.payload.client_id_len = 0) MALFORMED_PACKET status
  let status := CHECK (conn.payload.client_id = none) MALFORMED_PACKET status
  if status.return_code ≠ 0 then status else
  /- Variable Header -/
  let status := CHECK_call (pack16 status conn.protocol_name.len) FAILED_MEM_ALLOC
  let status :=
    CHECK_call (pack_str status conn.protocol_name.name conn.protocol_name.len) FAILED_MEM_ALLOC
  let status := CHECK_call (pack8 status conn.protocol_level) FAILED_MEM_ALLOC
  let status := CHECK_call (pack8 status conn.connect_flags) FAILED_MEM_ALLOC
  let status := CHECK_call (pack16 status conn.keep_alive) FAILED_MEM_ALLOC
  /- Payload -/
  let status := CHECK_call (pack16 status conn.payload.client_id_len) FAILED_MEM_ALLOC
  let status :=
    CHECK_call (pack_str status conn.payload.client_id conn.payload.client_id_len)
      FAILED_MEM_ALLOC
  -- Pack will topic + will message if will flag is set
  let status :=
    if conn.connect_flags &&& WILL_FLAG = WILL_FLAG then
      let status := CHECK (conn.payload.will_topic_len = 0) MALFORMED_PACKET status
      let status := CHECK (conn.payload.will_topic = none) MALFORMED_PACKET status
      let status := CHECK (conn.payload.will_message_len = 0) MALFORMED_PACKET status
      let status := CHECK (conn.payload.will_message = none) MALFORMED_PACKET status
      let status := CHECK_call (pack16 status conn.payload.will_topic_len) FAILED_MEM_ALLOC
      let status :=
        CHECK_call (pack_str status conn.payload.will_topic conn.payload.will_topic_len)
          FAILED_MEM_ALLOC
      let status := CHECK_call (pack16 status conn.payload.will_message_len) FAILED_MEM_ALLOC
      CHECK_call (pack_str status conn.payload.will_message conn.payload.will_message_len)
        FAILED_MEM_ALLOC
    else status
  /- Add the fixed header at the start -/
  let header_byte := CONNECT_TYPE
  finalize_packet status status.buf_len header_byte

/-- C function `pack_connack`. -/
def pack_connack (connack : mqtt_connack) : packing_status :=
  let status : packing_status :=
    { buf := none, buf_len := CONNACK_PACKET_SIZE, return_code := 0 }
  let block := realloc_bytes none status.buf_len
  let block := memWrite block 0 [CONNACK_TYPE]
  let block := memWrite block 1 [0x02]
  let block := memWrite block 2 [connack.session_present_flag % 256]
  let block := memWrite block 3 [connack.return_code % 256]
  { status with buf := some block }

/-- C function `pack_publish`; `flags` is a `uint8_t`. -/
def pack_publish (pub : mqtt_publish) (flags : Nat) : packing_status :=
  let status : packing_status := { buf := none, buf_len := 0, return_code := 0 }
  /- Sanity checks -/
  let status := CHECK (pub.topic_len = 0) MALFORMED_PACKET status
  let status := CHECK (pub.topic = none) MALFORMED_PACKET status
  if status.return_code ≠ 0 then status else
  /- Variable Header -/
  -- Topic Name
  let status := CHECK_call (pack16 status pub.topic_len) FAILED_MEM_ALLOC
  let status := CHECK_call (pack_str status pub.topic pub.topic_len) FAILED_MEM_ALLOC
  -- Packet ID
  let status := CHECK_call (pack16 status pub.pkt_id) FAILED_MEM_ALLOC
  /- Payload -/
  let status :=
    if pub.payload_len > 0 then
      CHECK_call (pack_str status pub.payload pub.payload_len) FAILED_MEM_ALLOC
    else status
  /- Add the fixed header at the start -/
  let header_byte := (PUBLISH_TYPE ||| (flags % 256)) % 256
  finalize_packet status status.buf_len header_byte

/-- C function `pack_puback`. -/
def pack_puback (puback : mqtt_puback) : packing_status :=
  let status : packing_status := { buf := none, buf_len := 0, return_code := 0 }
  /- Sanity checks -/
  let status := CHECK (puback.pkt_id = 0) MALFORMED_PACKET status
  if status.return_code ≠ 0 then status else
  -- Pack packet ID
  let status := CHECK_call (pack16 status puback.pkt_id) FAILED_MEM_ALLOC
  /- Add the fixed header at the start -/
  let header_byte := PUBACK_TYPE
  finalize_packet status status.buf_len header_byte

/-- C function `pack_subscribe`.  Both loops run over `i = 0, ..., tuples_len - 1`; the sanity loop
reads `sub->tuples->...`, the element at index 0, in every iteration. -/
def pack_subscribe (sub : mqtt_subscribe) : packing_status :=
  let status : packing_status := { buf := none, buf_len := 0, return_code := 0 }
  /- Sanity checks -/
  let status := CHECK (sub.pkt_id = 0) MALFORMED_PACKET status
  let status := CHECK (sub.tuples_len = 0) MALFORMED_PACKET status
  let status :=
    (List.range sub.tuples_len).foldl
      (fun status _ =>
        let status := CHECK ((sub.tuples.getD 0 default).qos = 0) MALFORMED_PACKET status
        let status := CHECK ((sub.tuples.getD 0 default).topic = none) MALFORMED_PACKET status
        CHECK ((sub.tuples.getD 0 default).topic_len = 0) MALFORMED_PACKET status)
      status
  if status.return_code ≠ 0 then status else
  -- Pack packet ID
  let status := CHECK_call (pack16 status sub.pkt_id) FAILED_MEM_ALLOC
  -- Pack Topics
  let status :=
    (List.range sub.tuples_len).foldl
      (fun status i =>
        -- Topic Name
        let status :=
          CHECK_call (pack16 status (sub.tuples.getD i default).topic_len) FAILED_MEM_ALLOC
        let status :=
          CHECK_call
            (pack_str status (sub.tuples.getD i default).topic
              (sub.tuples.getD i default).topic_len)
            FAILED_MEM_ALLOC
        -- QOS
        CHECK_call (pack8 status (sub.tuples.getD i default).qos) FAILED_MEM_ALLOC)
      status
  /- Add the fixed header at the start -/
  let header_byte := SUBSCRIBE_TYPE ||| SUB_UNSUB_FLAGS
  finalize_packet status status.buf_len header_byte

/-- C function `pack_suback`. -/
def pack_suback (suback : mqtt_suback) : packing_status :=
  let status : packing_status := { buf := none, buf_len := 0, return_code := 0 }
  /- Sanity checks -/
  let status := CHECK (suback.pkt_id = 0) MALFORMED_PACKET status
  let status := CHECK (suback.rc_len = 0) MALFORMED_PACKET status
  if status.return_code ≠ 0 then status else
  -- Pack packet ID
  let status := CHECK_call (pack16 status suback.pkt_id) FAILED_MEM_ALLOC
  -- Pack return codes
  let status :=
    (List.range suback.rc_len).foldl
      (fun status i => CHECK_call (pack8 status (suback.return_codes.getD i 0)) FAILED_MEM_ALLOC)
      status
  /- Add the fixed header at the start -/
  let header_byte := SUBACK_TYPE
  finalize_packet status status.buf_len header_byte

/-- C function `pack_unsubscribe`; its argument is an `mqtt_subscribe`. -/
def pack_unsubscribe (unsub : mqtt_subscribe) : packing_status :=
  let status : packing_status := { buf := none, buf_len := 0, return_code := 0 }
  /- Sanity checks -/
  let status := CHECK (unsub.pkt_id = 0) MALFORMED_PACKET status
  let status := CHECK (unsub.tuples_len = 0) MALFORMED_PACKET status
  let status :=
    (List.range unsub.tuples_len).foldl
      (fun status _ =>
        let status := CHECK ((unsub.tuples.getD 0 default).qos = 0) MALFORMED_PACKET status
        let status := CHECK ((unsub.tuples.getD 0 default).topic = none) MALFORMED_PACKET status
        CHECK ((unsub.tuples.getD 0 default).topic_len = 0) MALFORMED_PACKET status)
      status
  if status.return_code ≠ 0 then status else
  -- Pack packet ID
  let status := CHECK_call (pack16 status unsub.pkt_id) FAILED_MEM_ALLOC
  -- Pack topics
  let status :=
    (List.range unsub.tuples_len).foldl
      (fun status i =>
        -- Topic Name
        let status :=
          CHECK_call (pack16 status (unsub.tuples.getD i default).topic_len) FAILED_MEM_ALLOC
        CHECK_call
          (pack_str status (unsub.tuples.getD i default).topic
            (unsub.tuples.getD i default).topic_len)
          FAILED_MEM_ALLOC)
      status
  /- Add the fixed header at the start -/
  let header_byte := UNSUBSCRIBE_TYPE ||| SUB_UNSUB_FLAGS
  finalize_packet status status.buf_len header_byte

/-- C function `pack_disconnect`. -/
def pack_disconnect : packing_status :=
  let status : packing_status := { buf := none, buf_len := 2, return_code := 0 }
  let block := realloc_bytes none status.buf_len
  let block := memWrite block 0 [DISCONNECT_TYPE]
  let block := memWrite block 1 [0x00]
  { status with buf := some block }

/-- C function `default_init_connect`; `client_id_len` is a `size_t` stored into a `uint16_t`.  The
protocol name is the string literal `"MQTT"` with its terminating zero byte. -/
def default_init_connect (client_id : CStr) (client_id_len : Nat) : mqtt_connect :=
  { protocol_name := { len := 4, name := some [77, 81, 84, 84, 0] }
    protocol_level := 4
    connect_flags := CLEAN_SESSION_FLAG
    keep_alive := 0
    payload :=
      { client_id := client_id
        client_id_len := client_id_len % 65536
        will_message_len := 0
        will_message := none
        will_topic_len := 0
        will_topic := none } }

/-! ## Vocabulary of the statements -/

/-- The cursor after `n` more bytes have been read one after the other. -/
def Cursor.advance (c : Cursor) (n : Nat) : Cursor :=
  { pos := c.pos + n, acc := c.acc + n, reads := c.reads ++ List.range' c.pos n }

/-- The buffer of `st` holds exactly the bytes `b`, and no error has been recorded. -/
def Holds (st : packing_status) (b : List Nat) : Prop :=
  st.buf.getD [] = b ∧ st.buf_len = b.length ∧ st.return_code = 0

/-- The cursor `c` stands in `mem` right before the bytes `rest`, which run to the end of
the block, and `accumulated_size` agrees with the position. -/
def At (mem : List Nat) (c : Cursor) (rest : List Nat) : Prop :=
  c.acc = (c.pos : Int) ∧ ∃ pre, mem = pre ++ rest ∧ c.pos = pre.length

/-- The packet after the first steps of `unpack`: the fixed header byte and the decoded
Remaining Length have been stored. -/
def hdrPacket (packet : mqtt_packet) (mem : List Nat) : mqtt_packet :=
  { packet with
      header :=
        { remaining_length :=
            (decode_remaining_length mem { pos := 1, acc := 1, reads := [0] }).1
          fixed_header := readByte mem 0 } }

/-- The cursor after the first steps of `unpack`: past the fixed header. -/
def hdrCursor (mem : List Nat) : Cursor :=
  (decode_remaining_length mem { pos := 1, acc := 1, reads := [0] }).2

/-- The first `len` bytes of the block a string pointer refers to (the contents of a
string field of length `len`); a null pointer has no bytes. -/
def strBytes (s : CStr) (len : Nat) : List Nat := memRead (s.getD []) 0 len

/-- The pointer is not null and the block it refers to has at least `len` bytes. -/
def readable (s : CStr) (len : Nat) : Prop := s ≠ none ∧ len ≤ (s.getD []).length

/-- The connect structs of the CONNECT round trip (C5): the fields fit their C types, protocol name and
client id are non-empty, bit 0 of the connect flags is clear, and will topic and will
message are non-empty when the will flag is set and empty when it is clear. -/
def ValidConnect (P : mqtt_connect) : Prop :=
  0 < P.protocol_name.len ∧ P.protocol_name.len < 65536 ∧
  readable P.protocol_name.name P.protocol_name.len ∧
  0 < P.payload.client_id_len ∧ P.payload.client_id_len < 65536 ∧
  readable P.payload.client_id P.payload.client_id_len ∧
  P.protocol_level < 256 ∧ P.connect_flags < 256 ∧ P.connect_flags % 2 = 0 ∧
  P.keep_alive < 65536 ∧
  (if P.connect_flags &&& WILL_FLAG = WILL_FLAG then
    0 < P.payload.will_topic_len ∧ P.payload.will_topic_len < 65536 ∧
    readable P.payload.will_topic P.payload.will_topic_len ∧
    0 < P.payload.will_message_len ∧ P.payload.will_message_len < 65536 ∧
    readable P.payload.will_message P.payload.will_message_len
  else P.payload.will_topic_len = 0 ∧ P.payload.will_message_len = 0)

/-- The will fields of a CONNECT packet on the wire. -/
def connect_will_wire (P : mqtt_connect) : List Nat :=
  if P.connect_flags &&& WILL_FLAG = WILL_FLAG then
    P.payload.will_topic_len / 256 :: P.payload.will_topic_len % 256 ::
      (strBytes P.payload.will_topic P.payload.will_topic_len ++
        P.payload.will_message_len / 256 :: P.payload.will_message_len % 256 ::
          (strBytes P.payload.will_message P.payload.will_message_len ++ []))
  else []

/-- The variable header and payload of a CONNECT packet on the wire. -/
def connect_wire (P : mqtt_connect) : List Nat :=
  P.protocol_name.len / 256 :: P.protocol_name.len % 256 ::
    (strBytes P.protocol_name.name P.protocol_name.len ++
      P.protocol_level :: P.connect_flags :: P.keep_alive / 256 :: P.keep_alive % 256 ::
        P.payload.client_id_len / 256 :: P.payload.client_id_len % 256 ::
          (strBytes P.payload.client_id P.payload.client_id_len ++ connect_will_wire P))

/-- The client id `"Subscriber"` of `mqtt_client_send_connect_packet`, with its
terminating zero byte. -/
def subscriberId : CStr := some [83, 117, 98, 115, 99, 114, 105, 98, 101, 114, 0]

/-- An `Uninit` whose fresh array elements are all zero. -/
def zeroUninit : Uninit :=
  { sub := fun _ => { topic := none, topic_len := 0, qos := 0, suback_status := 0 }
    unsub := fun _ => { topic := none, topic_len := 0 } }

/-- The tuples of the SUBSCRIBE round trip (C7): the topic is non-empty and readable, the topic
length fits a `uint16_t`, the requested QoS is 1. -/
def ValidTuple (t : subscribe_tuples) : Prop :=
  0 < t.topic_len ∧ t.topic_len < 65536 ∧ readable t.topic t.topic_len ∧ t.qos = 1

/-- The subscribe structs of the SUBSCRIBE round trip (C7): a non-zero 16-bit packet identifier, `tuples_len`
the number of elements of the tuple array, at least one tuple, every tuple valid. -/
def ValidSubscribe (P : mqtt_subscribe) : Prop :=
  P.pkt_id ≠ 0 ∧ P.pkt_id < 65536 ∧ P.tuples_len = P.tuples.length ∧ 0 < P.tuples_len ∧
  P.tuples_len < 65536 ∧ ∀ t, t ∈ P.tuples → ValidTuple t

/-- The tuples of a SUBSCRIBE packet on the wire. -/
def tuples_wire : List subscribe_tuples → List Nat
  | [] => []
  | t :: ts =>
    t.topic_len / 256 :: t.topic_len % 256 ::
      (strBytes t.topic t.topic_len ++ t.qos :: tuples_wire ts)

/-- The variable header and payload of a SUBSCRIBE packet on the wire. -/
def subscribe_wire (P : mqtt_subscribe) : List Nat :=
  P.pkt_id / 256 :: P.pkt_id % 256 :: tuples_wire P.tuples

/-- What the round trip compares of a tuple: topic length, topic contents, QoS. -/
def tupleKey (t : subscribe_tuples) : Nat × List Nat × Nat :=
  (t.topic_len, strBytes t.topic t.topic_len, t.qos)

/-- The subscription of `process_broker_messages`: topic `"home/chris/smart_led"`,
QoS 1. -/
def ledTuple : subscribe_tuples :=
  { topic := some [104, 111, 109, 101, 47, 99, 104, 114, 105, 115, 47, 115, 109, 97, 114,
      116, 95, 108, 101, 100, 0]
    topic_len := 20
    qos := 1
    suback_status := 0 }

/-- A topic of 65535 bytes. -/
def bigTopic : List Nat := List.replicate 65535 97

/-- A valid tuple with a topic of the largest length a `uint16_t` allows. -/
def bigTuple : subscribe_tuples :=
  { topic := some bigTopic, topic_len := 65535, qos := 1, suback_status := 0 }

/-- 4096 copies of `bigTuple`. -/
def bigTuples : List subscribe_tuples := List.replicate 4096 bigTuple

/-- A valid subscribe struct whose variable header and payload take
2 + 4096 * 65538 = 268443650 bytes, more than a Remaining Length can express. -/
def bigSubscribe : mqtt_subscribe :=
  { pkt_id := 1, tuples_len := 4096, tuples := bigTuples }

/-- A publish struct for QoS 0: topic `"a"`, payload `"x"`, no packet identifier. -/
def pubSmall : mqtt_publish :=
  { pkt_id := 0, topic_len := 1, payload_len := 1, topic := some [97, 0], payload := some [120, 0] }

/-- The same publish struct with packet identifier 7, for QoS 1. -/
def pubSmallId : mqtt_publish :=
  { pkt_id := 7, topic_len := 1, payload_len := 1, topic := some [97, 0], payload := some [120, 0] }

/-- What the PUBLISH round trip compares: return code, topic length and contents, payload
length and contents, packet identifier. -/
def publishView (r : Res mqtt_packet) : Int × Nat × List Nat × Nat × List Nat × Nat :=
  (r.rc, r.val.publish.topic_len, strBytes r.val.publish.topic r.val.publish.topic_len,
    r.val.publish.payload_len, strBytes r.val.publish.payload r.val.publish.payload_len,
    r.val.publish.pkt_id)

/-- Every index the decoder has dereferenced lies below `buf_size`. -/
def readsWithin (r : Option (Res mqtt_packet)) (buf_size : Nat) : Prop :=
  ∀ x, r = some x → ∀ i, i ∈ x.cur.reads → i < buf_size

/-- One iteration of the packing loop of `pack_subscribe`. -/
def packTuple (status : packing_status) (t : subscribe_tuples) : packing_status :=
  CHECK_call (pack8
    (CHECK_call (pack_str (CHECK_call (pack16 status t.topic_len) FAILED_MEM_ALLOC)
      t.topic t.topic_len) FAILED_MEM_ALLOC) t.qos) FAILED_MEM_ALLOC

/-- The big-endian 16-bit value stored at the indices `p` and `p + 1` of a memory block (what
`unpack_uint16` returns when it reads there). -/
def be16 (mem : List Nat) (p : Nat) : Nat := readByte mem p * 256 + readByte mem (p + 1)

/-- The bytes `pack_publish` writes after the fixed header: topic length, topic, packet
identifier, payload. -/
def publish_wire (P : mqtt_publish) : List Nat :=
  [P.topic_len / 256, P.topic_len % 256] ++ strBytes P.topic P.topic_len ++
    [P.pkt_id / 256, P.pkt_id % 256] ++ strBytes P.payload P.payload_len

/-- A connect struct with the will flag set and no will topic or will message: protocol name
`MQTT`, level 4, client id `a`. -/
def willNoTopic : mqtt_connect :=
  { protocol_name := { len := 4, name := some [77, 81, 84, 84, 0] }
    protocol_level := 4
    connect_flags := WILL_FLAG
    keep_alive := 0
    payload :=
      { client_id := some [97, 0]
        client_id_len := 1
        will_message_len := 0
        will_message := none
        will_topic_len := 0
        will_topic := none } }

/-- The subscription tuple of topic `a` with the requested QoS `qos`. -/
def tupleA (qos : Nat) : subscribe_tuples :=
  { topic := some [97, 0], topic_len := 1, qos := qos, suback_status := 0 }

/-- The subscription tuple of topic `b` with the requested QoS `qos`. -/
def tupleB (qos : Nat) : subscribe_tuples :=
  { topic := some [98, 0], topic_len := 1, qos := qos, suback_status := 0 }

/-- A subscription tuple without a topic (null pointer, length 0). -/
def tupleNoTopic : subscribe_tuples :=
  { topic := none, topic_len := 0, qos := 1, suback_status := 0 }

/-! ## Client glue (`mqtt_util.c`, `mqtt_client_api.c`, `smart_led_mqtt.c`) -/

def MAX_COMMAND_NUM : Nat := 10
def DEFAULT_BUFF_SIZE : Nat := 1024
def MQTT_PINGRESP : Int := 13

/-- C library function `strcmp` on the strings that two memory blocks hold: the bytes are
compared as `unsigned char`, up to and including the first zero byte.  The result is `-1`,
`0` or `1` (C fixes only its sign).  The end of a block is read as a zero byte. -/
def strcmp : List Nat → List Nat → Int
  | [], [] => 0
  | [], b :: _ => if b = 0 then 0 else -1
  | a :: _, [] => if a = 0 then 0 else 1
  | a :: s1, b :: s2 =>
    if a ≠ b then (if a < b then -1 else 1)
    else if a = 0 then 0
    else strcmp s1 s2

/-- An entry of a command table; the function pointer `callback` is a number that identifies
the function (`0` is the null pointer). -/
structure command_table where
  command_name : CStr
  callback : Nat
deriving DecidableEq, Repr, Inhabited

/-- An entry of the subscription registry; `commands` is the array of `MAX_COMMAND_NUM`
command tables. -/
structure app_subscription_entry where
  sub_properties : subscribe_tuples
  commands : List command_table
  command_count : Nat
deriving DecidableEq, Repr, Inhabited

/-- The `vector` of `mqtt_util.h` with elements of type `app_subscription_entry`: `data` holds
the elements stored so far (what lies between `size` and `capacity` is indeterminate and not
kept). -/
structure vector where
  data : List app_subscription_entry
  size : Nat
  capacity : Nat
  item_size : Nat
deriving DecidableEq, Repr

/-- C function `push`. -/
def push (arr : vector) (item : app_subscription_entry) : vector :=
  -- Allocate enough size for the array
  let arr1 :=
    if arr.capacity = arr.size then
      { arr with capacity := if arr.capacity = 0 then 4 else arr.capacity * 2 }
    else arr
  -- Copy the item to the address of element `size`
  { arr1 with data := arr1.data.take arr1.size ++ [item], size := arr1.size + 1 }

/-- The struct `app_subscription_entry fail_ret = {0}` of `match_topic`. -/
def fail_ret : app_subscription_entry :=
  { sub_properties := { topic := none, topic_len := 0, qos := 0, suback_status := 0 }
    commands := List.replicate MAX_COMMAND_NUM { command_name := none, callback := 0 }
    command_count := 0 }

/-- The `for` loop of `match_topic`, by the number `size - i` of elements still to be
examined.  A null pointer passed to `strcmp` (undefined in C) is read as an empty block. -/
def match_topic_loop (topic_filter : CStr) (subscription_list : vector) :
    Nat → Nat → app_subscription_entry
  | 0, _ => fail_ret
  | k + 1, i =>
    let sub_entry := subscription_list.data.getD i default
    if strcmp (sub_entry.sub_properties.topic.getD []) (topic_filter.getD []) = 0 then sub_entry
    else match_topic_loop topic_filter subscription_list k (i + 1)

/-- C function `match_topic`. -/
def match_topic (topic_filter : CStr) (subscription_list : vector) : app_subscription_entry :=
  match_topic_loop topic_filter subscription_list subscription_list.size 0

/-- What the client glue does to its surroundings.  `called` lists, in order, the callbacks
invoked so far; `sent` lists, in order, the buffers passed to `send` so far (the first `len`
bytes of each); `send_fails k` tells whether the call of `send` that follows `k` earlier
calls fails.  The socket descriptor `sock` is not kept: there is one socket. -/
structure World where
  send_fails : Nat → Bool
  sent : List (List Nat)
  called : List Nat

/-- The socket function `send(sock, buf, len, 0)`: the return value is `-1` when the call
fails and `len` otherwise. -/
def send (w : World) (buf : Option (List Nat)) (len : Nat) : Int × World :=
  (if w.send_fails w.sent.length then -1 else (len : Int),
    { w with sent := w.sent ++ [memRead (buf.getD []) 0 len] })

/-- C function `mqtt_client_handle_publish`: the return value and the world after the call.
A call through a null `callback` (undefined in C) is recorded like any other. -/
def mqtt_client_handle_publish (pub : mqtt_publish) (subscription_list : vector) (w : World) :
    Int × World :=
  let ret_sub_entry := match_topic pub.topic subscription_list
  -- If empty (topic must have a value)
  if ret_sub_entry.sub_properties.topic = none then (-1, w) else
  -- Match payload to allowed commands for the particular subscription
  let w1 :=
    (List.range ret_sub_entry.command_count).foldl
      (fun w i =>
        if strcmp (pub.payload.getD [])
            ((ret_sub_entry.commands.getD i default).command_name.getD []) = 0 then
          { w with called := w.called ++ [(ret_sub_entry.commands.getD i default).callback] }
        else w)
      w
  -- Pack and send puback to broker
  let puback : mqtt_puback := { pkt_id := pub.pkt_id }
  let packed := pack_puback puback
  if packed.return_code < 0 then (-1, w1) else
  let r := send w1 packed.buf packed.buf_len
  if r.1 = -1 then (-1, r.2) else
  (0, r.2)

/-- C function `mqtt_client_subscribe_to_topic`: the return value, the new value of
`*packet_id` (a `uint16_t`) and the world after the call. -/
def mqtt_client_subscribe_to_topic (subscription : subscribe_tuples) (packet_id : Nat)
    (w : World) : Int × Nat × World :=
  let sub : mqtt_subscribe := { pkt_id := packet_id, tuples := [subscription], tuples_len := 1 }
  let packet_id1 := (packet_id + 1) % 65536
  let packed := pack_subscribe sub
  if packed.return_code < 0 then (-1, packet_id1, w) else
  let r := send w packed.buf packed.buf_len
  if r.1 = -1 then (-1, packet_id1, r.2) else
  (0, packet_id1, r.2)

/-- The callback `turn_on_led`. -/
def turn_on_led : Nat := 1

/-- The callback `turn_off_led`. -/
def turn_off_led : Nat := 2

/-- The registry entry `sub_entry` of `process_broker_messages`: the subscription to
`"home/chris/smart_led"` with the commands `"on"` and `"off"`. -/
def ledEntry : app_subscription_entry :=
  { sub_properties := ledTuple
    commands :=
      [{ command_name := some [111, 110, 0], callback := turn_on_led },
       { command_name := some [111, 102, 102, 0], callback := turn_off_led }] ++
        List.replicate 8 { command_name := none, callback := 0 }
    command_count := 2 }

/-- The variables of `process_broker_messages` that live across iterations (`msg_number`,
`packet_id`), the file-level `subscription_list`, the world, and the list `handled` of the
publish structs with which `mqtt_client_handle_publish` has been invoked so far.  The `int`
`msg_number` is not bounded here (in C it overflows after `2 ^ 31 - 1` messages). -/
structure Session where
  msg_number : Int
  packet_id : Nat
  subscription_list : vector
  world : World
  handled : List mqtt_publish

/-- How an iteration of the loop of `process_broker_messages` ends: the loop goes on to the
next `read`, the task has deleted itself (`vTaskDelete(NULL)`), or `unpack` has not returned. -/
inductive Outcome where
  | next (s : Session)
  | deleted (s : Session)
  | stuck (s : Session)

/-- The session an outcome carries. -/
def Outcome.session : Outcome → Session
  | .next s => s
  | .deleted s => s
  | .stuck s => s

/-- The part of the loop body of `process_broker_messages` after the call of `unpack`:
`packet_type` is the value `unpack` returned, `packet` the packet it filled. -/
def process_packet (s : Session) (packet_type : Int) (packet : mqtt_packet) : Outcome :=
  if s.msg_number = 0 ∧ packet_type ≠ MQTT_CONNACK then .deleted s else
  if s.msg_number > 0 ∧ packet_type = MQTT_CONNACK then .deleted s else
  if packet_type = MQTT_CONNACK then
    let connack := packet.connack
    if connack.return_code ≠ 0 then .deleted s else
    -- Pack and send subscribe request
    let sub_properties := ledTuple
    -- Store app actions associated with the subscription
    let sub_entry := ledEntry
    let r := mqtt_client_subscribe_to_topic sub_properties s.packet_id s.world
    let s1 := { s with packet_id := r.2.1, world := r.2.2 }
    if r.1 ≠ 0 then .deleted s1 else
    .next { s1 with
      subscription_list := push s1.subscription_list sub_entry
      msg_number := s1.msg_number + 1 }
  else if packet_type = MQTT_PUBLISH then
    let pub := packet.publish
    let r := mqtt_client_handle_publish pub s.subscription_list s.world
    let s1 := { s with world := r.2, handled := s.handled ++ [pub] }
    if r.1 ≠ 0 then .deleted s1 else
    .next { s1 with msg_number := s1.msg_number + 1 }
  else if packet_type = MQTT_PUBACK then .next { s with msg_number := s.msg_number + 1 }
  else if packet_type = MQTT_SUBACK then .next { s with msg_number := s.msg_number + 1 }
  else if packet_type = MQTT_PINGRESP then .next { s with msg_number := s.msg_number + 1 }
  else .next { s with msg_number := s.msg_number + 1 }

/-- One iteration of the loop of `process_broker_messages`.  `mem` is the block of
`DEFAULT_BUFF_SIZE` bytes after `read` has filled its first `bytes_read` bytes, `bytes_read`
the value `read` returned; `fuel` bounds the tuple loops of `unpack`. -/
def process_iteration (u : Uninit) (fuel : Nat) (s : Session) (mem : List Nat)
    (bytes_read : Int) : Outcome :=
  if bytes_read ≤ 0 then .deleted s else
  -- Parse the message received
  match unpack u fuel mqtt_packet.zero mem bytes_read.toNat with
  | none => .stuck s
  | some r => process_packet s r.rc r.val

/-- C function `process_broker_messages` on the sequence of the results of `read`: the
outcome when the task ends or hangs, or `next` when the sequence is used up and the task
waits in `read`. -/
def process_broker_messages (u : Uninit) (fuel : Nat) :
    Session → List (List Nat × Int) → Outcome
  | s, [] => .next s
  | s, (mem, bytes_read) :: rest =>
    match process_iteration u fuel s mem bytes_read with
    | .next s1 => process_broker_messages u fuel s1 rest
    | o => o

/-- The state in which the loop of `process_broker_messages` starts: `msg_number = 0`,
`packet_id = 1`. -/
def Session.start (subscription_list : vector) (w : World) : Session :=
  { msg_number := 0, packet_id := 1, subscription_list := subscription_list, world := w,
    handled := [] }

/-- The file-level `subscription_list` before any `push`; `item_size` is
`sizeof(app_subscription_entry)` on the 32-bit target. -/
def emptyRegistry : vector := { data := [], size := 0, capacity := 0, item_size := 92 }

/-- A world in which no call of `send` fails and nothing has happened yet. -/
def quietWorld : World := { send_fails := fun _ => false, sent := [], called := [] }

/-- The string a memory block holds: the bytes before the first zero byte. -/
def cstr (m : List Nat) : List Nat := m.takeWhile (fun b => b ≠ 0)

/-- The string a `char *` points at (a null pointer is read as an empty block). -/
def strOf (s : CStr) : List Nat := cstr (s.getD [])

/-- The topic `"home/chris/smart_led"` with its terminating zero byte. -/
def ledTopic : CStr :=
  some [104, 111, 109, 101, 47, 99, 104, 114, 105, 115, 47, 115, 109, 97, 114, 116, 95, 108,
    101, 100, 0]

/-- A second registry entry: the topic `"home/#"` with the single command `"on"`, bound to
the callback number 7. -/
def hashEntry : app_subscription_entry :=
  { sub_properties :=
      { topic := some [104, 111, 109, 101, 47, 35, 0], topic_len := 6, qos := 1,
        suback_status := 0 }
    commands := [{ command_name := some [111, 110, 0], callback := 7 }] ++
      List.replicate 9 { command_name := none, callback := 0 }
    command_count := 1 }

/-- A CONNACK packet with return code 0. -/
def connackWire : List Nat := [0x20, 2, 0, 0]

/-- A PUBLISH packet with QoS 1 and packet identifier 5 to `"home/chris/smart_led"` with
payload `"on"`. -/
def publishOnWire : List Nat :=
  [0x32, 26, 0, 20, 104, 111, 109, 101, 47, 99, 104, 114, 105, 115, 47, 115, 109, 97, 114, 116,
    95, 108, 101, 100, 0, 5, 111, 110]

/-- An inbound publish struct as `unpack_publish` leaves it: topic `"home/chris/smart_led"`,
payload `"on"`, packet identifier `id`. -/
def pubOn (id : Nat) : mqtt_publish :=
  { pkt_id := id, topic_len := 20, payload_len := 2, topic := ledTopic
    payload := some [111, 110, 0] }

theorem or_128_of_lt : ∀ x, x < 128 → x ||| 128 = x + 128 := by decide

theorem add_128_and_127 : ∀ x, x < 128 → (x + 128) &&& 127 = x := by decide

theorem add_128_and_128 : ∀ x, x < 128 → (x + 128) &&& 128 = 128 := by decide

theorem and_127_of_lt : ∀ x, x < 128 → x &&& 127 = x := by decide

theorem and_128_of_lt : ∀ x, x < 128 → x &&& 128 = 0 := by decide

theorem and_127_le (x : Nat) : x &&& 127 ≤ 127 := Nat.and_le_right

/-! ## Remaining Length -/

/-- Closed form of the decoding loop started with `multiplier = 1`, `value = 0` and at
least five iterations allowed. -/
theorem decode_loop_closed (mem : List Nat) (c : Cursor) (n : Nat) :
    decode_remaining_length_loop mem (n + 5) 1 0 c =
      if readByte mem c.pos &&& 128 = 0 then (readByte mem c.pos &&& 127, c.advance 1)
      else if readByte mem (c.pos + 1) &&& 128 = 0 then
        ((readByte mem c.pos &&& 127) + (readByte mem (c.pos + 1) &&& 127) * 128, c.advance 2)
      else if readByte mem (c.pos + 2) &&& 128 = 0 then
        ((readByte mem c.pos &&& 127) + ((readByte mem (c.pos + 1) &&& 127) * 128
          + (readByte mem (c.pos + 2) &&& 127) * 16384), c.advance 3)
      else if readByte mem (c.pos + 3) &&& 128 = 0 then
        ((readByte mem c.pos &&& 127) + ((readByte mem (c.pos + 1) &&& 127) * 128
          + ((readByte mem (c.pos + 2) &&& 127) * 16384
          + (readByte mem (c.pos + 3) &&& 127) * 2097152)), c.advance 4)
      else (0xFFFFFFFF, c.advance 5) := by
  have h0 := and_127_le (readByte mem c.pos)
  have h1 := and_127_le (readByte mem (c.pos + 1))
  have h2 := and_127_le (readByte mem (c.pos + 2))
  have h3 := and_127_le (readByte mem (c.pos + 3))
  by_cases g0 : readByte mem c.pos &&& 128 = 0
  · simp [decode_remaining_length_loop, Cursor.advance, g0,
      Nat.mod_eq_of_lt (show readByte mem c.pos &&& 127 < 4294967296 by omega)]
  by_cases g1 : readByte mem (c.pos + 1) &&& 128 = 0
  · simp [decode_remaining_length_loop, Cursor.advance, g0, g1]
    exact ⟨by omega, by omega, rfl⟩
  by_cases g2 : readByte mem (c.pos + 2) &&& 128 = 0
  · simp [decode_remaining_length_loop, Cursor.advance, g0, g1, g2, Nat.add_assoc]
    exact ⟨by omega, by omega, rfl⟩
  by_cases g3 : readByte mem (c.pos + 3) &&& 128 = 0
  · simp [decode_remaining_length_loop, Cursor.advance, g0, g1, g2, g3, Nat.add_assoc]
    exact ⟨by omega, by omega, rfl⟩
  · simp [decode_remaining_length_loop, Cursor.advance, g0, g1, g2, g3, Nat.add_assoc]
    exact ⟨by omega, rfl⟩

/-- Five iterations are enough: allowing more does not change the result. -/
theorem decode_loop_fuel (mem : List Nat) (c : Cursor) (n : Nat) :
    decode_remaining_length_loop mem (n + 5) 1 0 c = decode_remaining_length mem c := by
  rw [decode_loop_closed, decode_remaining_length, ← decode_loop_closed mem c 0]

/-- Closed form of `decode_remaining_length` in terms of the bytes under the cursor. -/
theorem decode_remaining_length_eq (mem : List Nat) (c : Cursor) :
    decode_remaining_length mem c =
      if readByte mem c.pos &&& 128 = 0 then (readByte mem c.pos &&& 127, c.advance 1)
      else if readByte mem (c.pos + 1) &&& 128 = 0 then
        ((readByte mem c.pos &&& 127) + (readByte mem (c.pos + 1) &&& 127) * 128, c.advance 2)
      else if readByte mem (c.pos + 2) &&& 128 = 0 then
        ((readByte mem c.pos &&& 127) + ((readByte mem (c.pos + 1) &&& 127) * 128
          + (readByte mem (c.pos + 2) &&& 127) * 16384), c.advance 3)
      else if readByte mem (c.pos + 3) &&& 128 = 0 then
        ((readByte mem c.pos &&& 127) + ((readByte mem (c.pos + 1) &&& 127) * 128
          + ((readByte mem (c.pos + 2) &&& 127) * 16384
          + (readByte mem (c.pos + 3) &&& 127) * 2097152)), c.advance 4)
      else (0xFFFFFFFF, c.advance 5) :=
  decode_loop_closed mem c 0

theorem mod_or_128 (x : Nat) : x % 128 ||| 128 = x % 128 + 128 :=
  or_128_of_lt _ (Nat.mod_lt _ (by decide))

theorem mod_add_and_127 (x : Nat) : (x % 128 + 128) &&& 127 = x % 128 :=
  add_128_and_127 _ (Nat.mod_lt _ (by decide))

theorem mod_add_and_128 (x : Nat) : (x % 128 + 128) &&& 128 = 128 :=
  add_128_and_128 _ (Nat.mod_lt _ (by decide))

/-- Closed form of the bytes written by `encode_remaining_length`. -/
theorem encode_remaining_length_eq (v : Nat) :
    (encode_remaining_length v).2 =
      if v < 128 then [v]
      else if v < 16384 then [v % 128 + 128, v / 128]
      else if v < 2097152 then [v % 128 + 128, v / 128 % 128 + 128, v / 16384]
      else if v < 268435456 then
        [v % 128 + 128, v / 128 % 128 + 128, v / 16384 % 128 + 128, v / 2097152]
      else
        [v % 128 + 128, v / 128 % 128 + 128, v / 16384 % 128 + 128,
          v / 2097152 % 128 + 128] := by
  by_cases h1 : v < 128
  · have d : v / 128 = 0 := by omega
    have m : v % 128 = v := by omega
    simp [encode_remaining_length, encode_remaining_length_loop, d, m, h1]
  by_cases h2 : v < 16384
  · have p1 : 0 < v / 128 := by omega
    have d : v / 128 / 128 = 0 := by omega
    have m : v / 128 % 128 = v / 128 := by omega
    simp [encode_remaining_length, encode_remaining_length_loop, d, m, h1, h2, p1, mod_or_128]
  have e1 : v / 128 / 128 = v / 16384 := by omega
  by_cases h3 : v < 2097152
  · have p1 : 0 < v / 128 := by omega
    have p2 : 0 < v / 16384 := by omega
    have d : v / 16384 / 128 = 0 := by omega
    have m : v / 16384 % 128 = v / 16384 := by omega
    simp [encode_remaining_length, encode_remaining_length_loop, d, m, h1, h2, h3, p1, p2, e1,
      mod_or_128]
  have e2 : v / 16384 / 128 = v / 2097152 := by omega
  by_cases h4 : v < 268435456
  · have p1 : 0 < v / 128 := by omega
    have p2 : 0 < v / 16384 := by omega
    have p3 : 0 < v / 2097152 := by omega
    have d : v / 2097152 / 128 = 0 := by omega
    have m : v / 2097152 % 128 = v / 2097152 := by omega
    simp [encode_remaining_length, encode_remaining_length_loop, d, m, h1, h2, h3, h4, p1, p2,
      p3, e1, e2, mod_or_128]
  · have p1 : 0 < v / 128 := by omega
    have p2 : 0 < v / 16384 := by omega
    have p3 : 0 < v / 2097152 := by omega
    have p4 : 0 < v / 2097152 / 128 := by omega
    simp [encode_remaining_length, encode_remaining_length_loop, h1, h2, h3, h4, p1, p2,
      p3, p4, e1, e2, mod_or_128]

/-- The count returned by `encode_remaining_length` is the number of bytes written. -/
theorem encode_remaining_length_count (v : Nat) :
    (encode_remaining_length v).1 = ((encode_remaining_length v).2.length : Int) := rfl

/-! ## Memory reads -/

@[simp] theorem readByte_cons_zero (a : Nat) (l : List Nat) : readByte (a :: l) 0 = a := rfl

@[simp] theorem readByte_cons_succ (a : Nat) (l : List Nat) (k : Nat) :
    readByte (a :: l) (k + 1) = readByte l k := rfl

@[simp] theorem readByte_nil (k : Nat) : readByte [] k = 0 := rfl

theorem readByte_append_right (pre l : List Nat) (k : Nat) :
    readByte (pre ++ l) (pre.length + k) = readByte l k := by
  induction pre with
  | nil => simp
  | cons a pre ih =>
    have : (a :: pre).length + k = (pre.length + k) + 1 := by simp; omega
    rw [this]
    simpa using ih

theorem readByte_append_right_zero (pre l : List Nat) :
    readByte (pre ++ l) pre.length = readByte l 0 := by
  simpa using readByte_append_right pre l 0

/-- Decoding the bytes written by `encode_remaining_length`, wherever they lie in the
memory block, gives back the value and advances the cursor past them. -/
theorem decode_encode_at (v : Nat) (hv : v ≤ 268435455) (pre rest : List Nat) (c : Cursor)
    (hpos : c.pos = pre.length) :
    decode_remaining_length (pre ++ ((encode_remaining_length v).2 ++ rest)) c =
      (v, c.advance (encode_remaining_length v).2.length) := by
  rw [decode_remaining_length_eq, hpos, encode_remaining_length_eq]
  simp only [readByte_append_right, readByte_append_right_zero]
  by_cases h1 : v < 128
  · simp [h1, and_128_of_lt v h1, and_127_of_lt v h1]
  by_cases h2 : v < 16384
  · have b : v / 128 < 128 := by omega
    simp [h1, h2, mod_add_and_128, mod_add_and_127, and_128_of_lt _ b, and_127_of_lt _ b]
    omega
  by_cases h3 : v < 2097152
  · have b : v / 16384 < 128 := by omega
    simp [h1, h2, h3, mod_add_and_128, mod_add_and_127, and_128_of_lt _ b, and_127_of_lt _ b]
    omega
  · have h4 : v < 268435456 := by omega
    have b : v / 2097152 < 128 := by omega
    simp [h1, h2, h3, h4, mod_add_and_128, mod_add_and_127, and_128_of_lt _ b,
      and_127_of_lt _ b]
    omega

/-! ## Properties of the Remaining Length codec -/

/-- C1. For every value `v` with `0 ≤ v ≤ 268435455`, `decode_remaining_length` applied
to the bytes written by `encode_remaining_length v` (at the start of a block, whatever
follows them) returns `v`, and the cursor and `accumulated_size` advance by exactly the
count that `encode_remaining_length` returned. -/
theorem remaining_length_roundtrip (v : Nat) (hv : v ≤ 268435455) (rest : List Nat) :
    (decode_remaining_length ((encode_remaining_length v).2 ++ rest) Cursor.start).1 = v ∧
    (((decode_remaining_length ((encode_remaining_length v).2 ++ rest) Cursor.start).2.pos
        : Nat) : Int) = (encode_remaining_length v).1 ∧
    (decode_remaining_length ((encode_remaining_length v).2 ++ rest) Cursor.start).2.acc
      = (encode_remaining_length v).1 ∧
    (decode_remaining_length ((encode_remaining_length v).2 ++ rest) Cursor.start).2.reads
      = List.range (encode_remaining_length v).2.length := by
  have h := decode_encode_at v hv [] rest Cursor.start rfl
  simp only [List.nil_append] at h
  rw [h]
  simp [Cursor.advance, Cursor.start, encode_remaining_length_count, List.range_eq_range']

/-- Instance of C1 at the value 321 (two length bytes), followed by two more bytes. -/
theorem remaining_length_roundtrip_witness :
    (321 : Nat) ≤ 268435455 ∧
    (decode_remaining_length ((encode_remaining_length 321).2 ++ [7, 9]) Cursor.start).1 = 321 :=
  ⟨by decide, (remaining_length_roundtrip 321 (by decide) [7, 9]).1⟩

/-- C2 as stated fails: the value 127 is written in one byte, not in two (the counts
1, 2, 2, 3, 3, 4, 4, 4 are not the ones the code produces). -/
theorem encode_remaining_length_counts_as_stated_fail :
    ¬ (List.map (fun v => (encode_remaining_length v).1)
        [0, 127, 128, 16383, 16384, 2097151, 2097152, 268435455]
      = [1, 2, 2, 3, 3, 4, 4, 4]) := by
  decide

/-- C2 (amended). For the values 0, 127, 128, 16383, 16384, 2097151, 2097152 and
268435455, `encode_remaining_length` returns 1, 1, 2, 2, 3, 3, 4 and 4, and writes that
many bytes. -/
theorem encode_remaining_length_counts :
    (List.map (fun v => (encode_remaining_length v).1)
        [0, 127, 128, 16383, 16384, 2097151, 2097152, 268435455]
      = [1, 1, 2, 2, 3, 3, 4, 4]) ∧
    (List.map (fun v => (encode_remaining_length v).2.length)
        [0, 127, 128, 16383, 16384, 2097151, 2097152, 268435455]
      = [1, 1, 2, 2, 3, 3, 4, 4]) := by
  decide

/-- C3. `decode_remaining_length` returns the sentinel `0xFFFFFFFF` if and only if each
of the four bytes under the cursor has the continuation bit `0x80` set; in every other
case the returned value is at most 268435455. -/
theorem decode_remaining_length_sentinel (mem : List Nat) (c : Cursor) :
    ((decode_remaining_length mem c).1 = 0xFFFFFFFF ↔
      ∀ k, k < 4 → readByte mem (c.pos + k) &&& 128 ≠ 0) ∧
    (¬ (∀ k, k < 4 → readByte mem (c.pos + k) &&& 128 ≠ 0) →
      (decode_remaining_length mem c).1 ≤ 268435455) := by
  have h0 := and_127_le (readByte mem c.pos)
  have h1 := and_127_le (readByte mem (c.pos + 1))
  have h2 := and_127_le (readByte mem (c.pos + 2))
  have h3 := and_127_le (readByte mem (c.pos + 3))
  have hall : (∀ k, k < 4 → readByte mem (c.pos + k) &&& 128 ≠ 0) ↔
      (readByte mem c.pos &&& 128 ≠ 0 ∧ readByte mem (c.pos + 1) &&& 128 ≠ 0 ∧
        readByte mem (c.pos + 2) &&& 128 ≠ 0 ∧ readByte mem (c.pos + 3) &&& 128 ≠ 0) := by
    constructor
    · intro h
      exact ⟨by simpa using h 0 (by decide), h 1 (by decide), h 2 (by decide), h 3 (by decide)⟩
    · rintro ⟨a0, a1, a2, a3⟩ k hk
      interval_cases k
      · simpa using a0
      · exact a1
      · exact a2
      · exact a3
  rw [hall, decode_remaining_length_eq]
  by_cases g0 : readByte mem c.pos &&& 128 = 0
  · simp only [g0, if_true]
    exact ⟨⟨fun h => by omega, fun h => absurd rfl h.1⟩, fun _ => by omega⟩
  by_cases g1 : readByte mem (c.pos + 1) &&& 128 = 0
  · simp only [g0, g1, if_true, if_false]
    exact ⟨⟨fun h => by omega, fun h => absurd rfl h.2.1⟩, fun _ => by omega⟩
  by_cases g2 : readByte mem (c.pos + 2) &&& 128 = 0
  · simp only [g0, g1, g2, if_true, if_false]
    exact ⟨⟨fun h => by omega, fun h => absurd rfl h.2.2.1⟩, fun _ => by omega⟩
  by_cases g3 : readByte mem (c.pos + 3) &&& 128 = 0
  · simp only [g0, g1, g2, g3, if_true, if_false]
    exact ⟨⟨fun h => by omega, fun h => absurd rfl h.2.2.2⟩, fun _ => by omega⟩
  · simp only [g0, g1, g2, g3, if_false]
    exact ⟨⟨fun _ => ⟨g0, g1, g2, g3⟩, fun _ => trivial⟩, fun h => absurd ⟨g0, g1, g2, g3⟩ h⟩

/-- C4 as stated fails: for 268435456, the first value that does not fit in four bytes,
`encode_remaining_length` reports no error: it returns the count 4 and has written the
four bytes `0x80 0x80 0x80 0x80`. -/
theorem encode_remaining_length_no_reject :
    ¬ ((encode_remaining_length 268435456).1 < 0) ∧
    encode_remaining_length 268435456 = (4, [128, 128, 128, 128]) := by
  decide

/-- C4 (amended). For every input above 268435455, `encode_remaining_length` returns
the count 4 and writes four bytes, the four low base-128 digits of the input, each with
the continuation bit set. -/
theorem encode_remaining_length_overflow (v : Nat) (hv : v > 268435455) :
    (encode_remaining_length v).1 = 4 ∧
    (encode_remaining_length v).2 =
      [v % 128 + 128, v / 128 % 128 + 128, v / 16384 % 128 + 128, v / 2097152 % 128 + 128] := by
  have h1 : ¬ v < 128 := by omega
  have h2 : ¬ v < 16384 := by omega
  have h3 : ¬ v < 2097152 := by omega
  have h4 : ¬ v < 268435456 := by omega
  have e := encode_remaining_length_eq v
  simp only [h1, h2, h3, h4, if_false] at e
  refine ⟨?_, e⟩
  rw [encode_remaining_length_count, e]
  rfl

/-- Instance of the amended C4 at the value 300000000. -/
theorem encode_remaining_length_overflow_witness :
    (300000000 : Nat) > 268435455 ∧ (encode_remaining_length 300000000).1 = 4 :=
  ⟨by decide, (encode_remaining_length_overflow 300000000 (by decide)).1⟩

/-! ## Packing primitives -/

theorem holds_init : Holds { buf := none, buf_len := 0, return_code := 0 } [] :=
  ⟨rfl, rfl, rfl⟩

theorem realloc_bytes_grow (buf : Option (List Nat)) (k : Nat) :
    realloc_bytes buf ((buf.getD []).length + k) = buf.getD [] ++ List.replicate k 0 := by
  unfold realloc_bytes
  rw [List.take_append_eq_append_take]
  simp [List.take_replicate]

theorem memWrite_end (b : List Nat) (junk bytes : List Nat) (h : junk.length = bytes.length) :
    memWrite (b ++ junk) b.length bytes = b ++ bytes := by
  unfold memWrite
  simp [List.take_append_eq_append_take, List.drop_append_eq_append_drop, h]

theorem pack_bytes_holds (st : packing_status) (b bytes : List Nat) (err : Int)
    (h : Holds st b) : Holds (CHECK_call (pack_bytes st bytes) err) (b ++ bytes) := by
  obtain ⟨h1, h2, h3⟩ := h
  have hr : realloc_bytes st.buf (st.buf_len + bytes.length)
      = b ++ List.replicate bytes.length 0 := by
    rw [h2, ← h1]; exact realloc_bytes_grow _ _
  have hw : memWrite (realloc_bytes st.buf (st.buf_len + bytes.length)) st.buf_len bytes
      = b ++ bytes := by
    rw [hr, h2]
    exact memWrite_end b _ bytes (by simp)
  simp only [CHECK_call, CHECK, pack_bytes, ne_eq, not_true_eq_false, if_false]
  exact ⟨by simp [hw], by simp [h2], h3⟩

theorem pack8_holds (st : packing_status) (b : List Nat) (item : Nat) (err : Int)
    (h : Holds st b) : Holds (CHECK_call (pack8 st item) err) (b ++ [item % 256]) :=
  pack_bytes_holds st b _ err h

theorem pack16_holds (st : packing_status) (b : List Nat) (item : Nat) (err : Int)
    (h : Holds st b) :
    Holds (CHECK_call (pack16 st item) err) (b ++ [item % 65536 / 256, item % 65536 % 256]) :=
  pack_bytes_holds st b _ err h

theorem memRead_length (mem : List Nat) (pos n : Nat) : (memRead mem pos n).length = n := by
  simp [memRead]

theorem memRead_append (pre s rest : List Nat) :
    memRead (pre ++ (s ++ rest)) pre.length s.length = s := by
  apply List.ext_getElem
  · simp [memRead]
  · intro i h1 h2
    simp only [memRead, List.getElem_map, List.getElem_range]
    rw [readByte_append_right]
    unfold readByte
    rw [List.getD_append _ _ _ _ h2, List.getD_eq_getElem _ _ h2]

theorem memRead_take (m : List Nat) (n : Nat) (h : n ≤ m.length) :
    memRead m 0 n = m.take n := by
  have := memRead_append [] (m.take n) (m.drop n)
  simpa [List.length_take, Nat.min_eq_left h] using this

theorem pack_str_holds (st : packing_status) (b : List Nat) (str : CStr) (n : Nat) (err : Int)
    (h : Holds st b) :
    Holds (CHECK_call (pack_str st str n) err) (b ++ memRead (str.getD []) 0 (n % 65536)) :=
  pack_bytes_holds st b _ err h

theorem memWrite_tail (block bytes : List Nat) (off : Nat)
    (h : block.length = off + bytes.length) :
    memWrite block off bytes = block.take off ++ bytes := by
  unfold memWrite
  rw [List.drop_eq_nil_of_le (by omega)]
  simp

theorem memWrite_front (junk body E : List Nat) (hb : Nat) (hj : junk.length = 1 + E.length) :
    memWrite (memWrite (junk ++ body) 0 [hb]) 1 E = hb :: (E ++ body) := by
  cases junk with
  | nil => simp at hj; omega
  | cons j0 jt =>
    have hl : jt.length = E.length := by simp at hj; omega
    have h1 : memWrite (j0 :: jt ++ body) 0 [hb] = hb :: (jt ++ body) := by
      simp [memWrite]
    rw [h1]
    unfold memWrite
    have h2 : List.drop (1 + E.length) (hb :: (jt ++ body)) = body := by
      rw [Nat.add_comm, List.drop_succ_cons]
      exact List.drop_left' hl
    rw [h2]
    simp

/-- C function `finalize_packet` on a buffer holding `body`, called with the buffer length as
`remaining_len`: the header byte, the encoded length, then `body`. -/
theorem finalize_packet_holds (st : packing_status) (body : List Nat) (header_byte : Nat)
    (h : Holds st body) :
    finalize_packet st st.buf_len header_byte =
      { buf := some ((header_byte % 256) :: ((encode_remaining_length body.length).2 ++ body))
        buf_len := 1 + (encode_remaining_length body.length).2.length + body.length
        return_code := 0 } := by
  obtain ⟨h1, h2, h3⟩ := h
  have hcount : (encode_remaining_length body.length).1.toNat
      = (encode_remaining_length body.length).2.length := by
    rw [encode_remaining_length_count]; simp
  generalize hE : (encode_remaining_length body.length).2 = E at hcount
  have hblock : realloc_bytes st.buf (1 + E.length + body.length)
      = body ++ List.replicate (1 + E.length) 0 := by
    rw [← h1, show 1 + E.length + (st.buf.getD []).length
      = (st.buf.getD []).length + (1 + E.length) by omega]
    exact realloc_bytes_grow _ _
  have hread : memRead (body ++ List.replicate (1 + E.length) 0) 0 body.length = body := by
    simpa using memRead_append [] body (List.replicate (1 + E.length) 0)
  have hshift : memWrite (body ++ List.replicate (1 + E.length) 0) (1 + E.length) body
      = (body ++ List.replicate (1 + E.length) 0).take (1 + E.length) ++ body := by
    apply memWrite_tail
    simp; omega
  have hjunk : ((body ++ List.replicate (1 + E.length) 0).take (1 + E.length)).length
      = 1 + E.length := by
    simp
  simp only [finalize_packet, CHECK, h2, h3, hE, hcount, hblock, hread, hshift, ne_eq,
    not_true_eq_false, if_false, reduceCtorEq, List.take_length]
  rw [memWrite_front _ body E _ hjunk]

/-! ## Reading primitives at a known position -/

theorem at_start (mem : List Nat) : At mem Cursor.start mem :=
  ⟨rfl, [], rfl, rfl⟩

theorem to_size_of_nonneg (x : Int) (h0 : 0 ≤ x) (h1 : x < 2 ^ 32) : to_size x = x := by
  unfold to_size
  omega

theorem to_int_of_lt (n : Nat) (h : n < 2 ^ 31) : to_int n = (n : Int) := by
  unfold to_int
  omega

theorem unpack_uint8_at (mem : List Nat) (c : Cursor) (a : Nat) (rest : List Nat)
    (hlen : mem.length < 2 ^ 31) (h : At mem c (a :: rest)) :
    ∃ c1, unpack_uint8 mem mem.length c = ((a : Int), c1) ∧ At mem c1 rest := by
  obtain ⟨hacc, pre, hmem, hpos⟩ := h
  have hl : mem.length = pre.length + 1 + rest.length := by rw [hmem]; simp; omega
  have hsz : to_size (c.acc + 1) = c.acc + 1 := to_size_of_nonneg _ (by omega) (by omega)
  have hb : readByte mem c.pos = a := by
    rw [hmem, hpos, readByte_append_right_zero]; rfl
  refine ⟨{ pos := c.pos + 1, acc := c.acc + 1, reads := c.reads ++ [c.pos] }, ?_, ?_⟩
  · unfold unpack_uint8
    rw [hsz, if_neg (by omega), hb]
  · exact ⟨by simp [hacc], pre ++ [a], by simp [hmem], by simp [hpos]⟩

theorem unpack_uint16_at (mem : List Nat) (c : Cursor) (a b : Nat) (rest : List Nat)
    (hlen : mem.length < 2 ^ 31) (h : At mem c (a :: b :: rest)) :
    ∃ c1, unpack_uint16 mem mem.length c = (((a * 256 + b : Nat) : Int), c1) ∧
      At mem c1 rest := by
  obtain ⟨hacc, pre, hmem, hpos⟩ := h
  have hl : mem.length = pre.length + 2 + rest.length := by rw [hmem]; simp; omega
  have hsz : to_size (c.acc + 2) = c.acc + 2 := to_size_of_nonneg _ (by omega) (by omega)
  have hb0 : readByte mem c.pos = a := by
    rw [hmem, hpos, readByte_append_right_zero]; rfl
  have hb1 : readByte mem (c.pos + 1) = b := by
    rw [hmem, hpos, readByte_append_right]; rfl
  refine ⟨{ pos := c.pos + 2, acc := c.acc + 2, reads := c.reads ++ [c.pos, c.pos + 1] },
    ?_, ?_⟩
  · unfold unpack_uint16
    rw [hsz, if_neg (by omega), hb0, hb1]
  · exact ⟨by simp [hacc], pre ++ [a, b], by simp [hmem], by simp [hpos]⟩

theorem unpack_str_at (mem : List Nat) (c : Cursor) (s rest : List Nat) (old : CStr)
    (hlen : mem.length < 2 ^ 31) (hs : s.length < 65536) (h : At mem c (s ++ rest)) :
    ∃ c1, unpack_str mem old s.length mem.length c = (0, some (s ++ [0]), c1) ∧
      At mem c1 rest := by
  obtain ⟨hacc, pre, hmem, hpos⟩ := h
  have hl : mem.length = pre.length + s.length + rest.length := by rw [hmem]; simp; omega
  have hn : s.length % 65536 = s.length := Nat.mod_eq_of_lt hs
  have hr : memRead mem c.pos s.length = s := by
    rw [hmem, hpos]; exact memRead_append pre s rest
  refine ⟨Cursor.mk (c.pos + s.length) (c.acc + s.length)
    (c.reads ++ List.range' c.pos s.length), ?_, ?_⟩
  · unfold unpack_str
    simp only [hn]
    rw [to_int_of_lt _ hlen, if_neg (by omega), hr]
  · exact ⟨by simp [hacc], pre ++ s, by simp [hmem], by simp [hpos]⟩

/-- The position reached by a cursor that stands before the last bytes `rest`. -/
theorem at_acc (mem : List Nat) (c : Cursor) (rest : List Nat) (h : At mem c rest) :
    c.acc = (mem.length : Int) - (rest.length : Int) := by
  obtain ⟨hacc, pre, hmem, hpos⟩ := h
  rw [hacc, hpos, hmem]
  simp

/-- The first two steps of `unpack` on a packet `h :: enc(v) ++ body`: the cursor after
the fixed header stands before `body`, and the decoded Remaining Length is `v`. -/
theorem decode_header_at (hb v : Nat) (hv : v ≤ 268435455) (body : List Nat) :
    ∃ c2, decode_remaining_length (hb :: ((encode_remaining_length v).2 ++ body))
        { pos := 1, acc := 1, reads := [0] } = (v, c2) ∧
      At (hb :: ((encode_remaining_length v).2 ++ body)) c2 body := by
  have h := decode_encode_at v hv [hb] body { pos := 1, acc := 1, reads := [0] } rfl
  refine ⟨Cursor.advance { pos := 1, acc := 1, reads := [0] }
    (encode_remaining_length v).2.length, h, ?_⟩
  exact ⟨by simp [Cursor.advance], [hb] ++ (encode_remaining_length v).2, by simp,
    by simp [Cursor.advance]; omega⟩

/-! ## PUBACK and CONNACK -/

theorem pack_puback_eq (id : Nat) (h0 : id ≠ 0) (h16 : id < 65536) :
    pack_puback { pkt_id := id } =
      { buf := some [0x40, 0x02, id / 256, id % 256], buf_len := 4, return_code := 0 } := by
  have hm : id % 65536 = id := Nat.mod_eq_of_lt h16
  have hs := pack16_holds _ [] id FAILED_MEM_ALLOC holds_init
  have hf := finalize_packet_holds _ _ PUBACK_TYPE hs
  simp only [pack_puback, CHECK, h0, if_false, ne_eq, not_true_eq_false]
  rw [hf]
  simp [hm, PUBACK_TYPE, encode_remaining_length, encode_remaining_length_loop]

/-! ## The dispatcher, one packet type at a time -/

theorem unpack_connect_type (u : Uninit) (fuel : Nat) (packet : mqtt_packet) (mem : List Nat)
    (buf_size : Nat) (h : readByte mem 0 &&& TYPE_MASK = CONNECT_TYPE) :
    unpack u fuel packet mem buf_size =
      some ⟨(unpack_connect packet.connect mem buf_size (hdrCursor mem)).rc,
        { hdrPacket packet mem with
            connect := (unpack_connect packet.connect mem buf_size (hdrCursor mem)).val },
        (unpack_connect packet.connect mem buf_size (hdrCursor mem)).cur⟩ := by
  simp only [unpack, hdrPacket, hdrCursor, Cursor.start, h, List.nil_append, Nat.zero_add,
    Int.zero_add, if_true]

theorem unpack_connack_type (u : Uninit) (fuel : Nat) (packet : mqtt_packet) (mem : List Nat)
    (buf_size : Nat) (h : readByte mem 0 &&& TYPE_MASK = CONNACK_TYPE) :
    unpack u fuel packet mem buf_size =
      if readByte mem 0 &&& FLAG_MASK ≠ 0 then
        some ⟨INCORRECT_FLAGS, hdrPacket packet mem, hdrCursor mem⟩
      else if (hdrPacket packet mem).header.remaining_length ≠ 2 then
        some ⟨MALFORMED_PACKET, hdrPacket packet mem, hdrCursor mem⟩
      else
        some ⟨(unpack_connack packet.connack mem buf_size (hdrCursor mem)).rc,
          { hdrPacket packet mem with
              connack := (unpack_connack packet.connack mem buf_size (hdrCursor mem)).val },
          (unpack_connack packet.connack mem buf_size (hdrCursor mem)).cur⟩ := by
  simp only [unpack, hdrPacket, hdrCursor, Cursor.start, h, List.nil_append, Nat.zero_add,
    Int.zero_add, CONNACK_TYPE, CONNECT_TYPE]
  simp

theorem unpack_publish_type (u : Uninit) (fuel : Nat) (packet : mqtt_packet) (mem : List Nat)
    (buf_size : Nat) (h : readByte mem 0 &&& TYPE_MASK = PUBLISH_TYPE) :
    unpack u fuel packet mem buf_size =
      some ⟨(unpack_publish packet.publish (hdrPacket packet mem).header mem buf_size
          (hdrCursor mem)).rc,
        { hdrPacket packet mem with
            publish := (unpack_publish packet.publish (hdrPacket packet mem).header mem buf_size
              (hdrCursor mem)).val },
        (unpack_publish packet.publish (hdrPacket packet mem).header mem buf_size
          (hdrCursor mem)).cur⟩ := by
  simp only [unpack, hdrPacket, hdrCursor, Cursor.start, h, List.nil_append, Nat.zero_add,
    Int.zero_add, CONNACK_TYPE, CONNECT_TYPE, PUBLISH_TYPE]
  simp

theorem unpack_puback_type (u : Uninit) (fuel : Nat) (packet : mqtt_packet) (mem : List Nat)
    (buf_size : Nat) (h : readByte mem 0 &&& TYPE_MASK = PUBACK_TYPE) :
    unpack u fuel packet mem buf_size =
      if (hdrPacket packet mem).header.remaining_length ≠ 2 then
        some ⟨MALFORMED_PACKET, hdrPacket packet mem, hdrCursor mem⟩
      else if (unpack_uint16 mem buf_size (hdrCursor mem)).1 < 0 then
        some ⟨OUT_OF_BOUNDS, hdrPacket packet mem, (unpack_uint16 mem buf_size (hdrCursor mem)).2⟩
      else
        some ⟨MQTT_PUBACK,
          { hdrPacket packet mem with
              puback := { pkt_id := u16 (unpack_uint16 mem buf_size (hdrCursor mem)).1 } },
          (unpack_uint16 mem buf_size (hdrCursor mem)).2⟩ := by
  simp only [unpack, hdrPacket, hdrCursor, Cursor.start, h, List.nil_append, Nat.zero_add,
    Int.zero_add, CONNACK_TYPE, CONNECT_TYPE, PUBLISH_TYPE, PUBACK_TYPE]
  simp

theorem unpack_subscribe_type (u : Uninit) (fuel : Nat) (packet : mqtt_packet) (mem : List Nat)
    (buf_size : Nat) (h : readByte mem 0 &&& TYPE_MASK = SUBSCRIBE_TYPE) :
    unpack u fuel packet mem buf_size =
      if readByte mem 0 &&& FLAG_MASK ≠ SUB_UNSUB_FLAGS then
        some ⟨INCORRECT_FLAGS, hdrPacket packet mem, hdrCursor mem⟩
      else
        match unpack_subscribe u fuel packet.subscribe mem buf_size (hdrCursor mem) with
        | none => none
        | some r => some ⟨r.rc, { hdrPacket packet mem with subscribe := r.val }, r.cur⟩ := by
  simp only [unpack, hdrPacket, hdrCursor, Cursor.start, h, List.nil_append, Nat.zero_add,
    Int.zero_add, CONNACK_TYPE, CONNECT_TYPE, PUBLISH_TYPE, PUBACK_TYPE, SUBSCRIBE_TYPE]
  simp

/-- On a packet `hb :: enc(v) ++ body` the header steps of `unpack` decode `v` and leave
the cursor before `body`. -/
theorem hdr_at (hb v : Nat) (hv : v ≤ 268435455) (body : List Nat) :
    (decode_remaining_length (hb :: ((encode_remaining_length v).2 ++ body))
        { pos := 1, acc := 1, reads := [0] }).1 = v ∧
    At (hb :: ((encode_remaining_length v).2 ++ body))
      (hdrCursor (hb :: ((encode_remaining_length v).2 ++ body))) body := by
  obtain ⟨c2, h1, h2⟩ := decode_header_at hb v hv body
  unfold hdrCursor
  rw [h1]
  exact ⟨rfl, h2⟩

theorem encode_remaining_length_two : (encode_remaining_length 2).2 = [2] := by decide

theorem u16_natCast (n : Nat) (h : n < 65536) : u16 (n : Int) = n := by
  unfold u16
  omega

theorem u8_natCast (n : Nat) (h : n < 256) : u8 (n : Int) = n := by
  unfold u8
  omega

/-- C8. For every non-zero packet identifier `id` (a `uint16_t`), `pack_puback` succeeds
with exactly the four bytes `[0x40, 0x02, id >> 8, id & 0xFF]`, and `unpack` of that
buffer returns `MQTT_PUBACK` with `pkt_id = id`. -/
theorem puback_roundtrip (id : Nat) (h0 : id ≠ 0) (h16 : id < 65536) (u : Uninit) (fuel : Nat)
    (packet : mqtt_packet) :
    pack_puback { pkt_id := id } =
      { buf := some [0x40, 0x02, id >>> 8, id &&& 0xFF], buf_len := 4, return_code := 0 } ∧
    ∃ r, unpack u fuel packet [0x40, 0x02, id >>> 8, id &&& 0xFF] 4 = some r ∧
      r.rc = MQTT_PUBACK ∧ r.val.puback.pkt_id = id := by
  have e1 : id >>> 8 = id / 256 := by rw [Nat.shiftRight_eq_div_pow]
  have e2 : id &&& 0xFF = id % 256 := Nat.and_pow_two_sub_one_eq_mod id 8
  rw [e1, e2]
  refine ⟨pack_puback_eq id h0 h16, ?_⟩
  have hh := hdr_at 0x40 2 (by decide) [id / 256, id % 256]
  simp only [encode_remaining_length_two, List.cons_append, List.nil_append] at hh
  obtain ⟨hrl, hat⟩ := hh
  obtain ⟨c1, hr, -⟩ := unpack_uint16_at _ _ _ _ [] (by simp) hat
  have hlen : ([0x40, 0x02, id / 256, id % 256] : List Nat).length = 4 := rfl
  rw [hlen] at hr
  have hval : id / 256 * 256 + id % 256 = id := by omega
  have hn : ¬ ((id : Int) < 0) := by omega
  rw [unpack_puback_type u fuel packet [0x40, 0x02, id / 256, id % 256] 4
    (by rw [readByte_cons_zero]; decide)]
  simp only [hdrPacket, hrl, hr, hval, u16_natCast id h16, ne_eq, not_true_eq_false, if_false,
    if_neg hn]
  exact ⟨_, rfl, rfl, rfl⟩

/-- Instance of C8 at the packet identifier 515 (bytes `02 03`). -/
theorem puback_roundtrip_witness :
    (pack_puback { pkt_id := 515 }).buf = some [0x40, 0x02, 2, 3] ∧
    ∃ r, unpack { sub := fun _ => default, unsub := fun _ => default } 0 mqtt_packet.zero
        [0x40, 0x02, 515 >>> 8, 515 &&& 0xFF] 4 = some r ∧
      r.rc = MQTT_PUBACK ∧ r.val.puback.pkt_id = 515 :=
  ⟨by rw [(puback_roundtrip 515 (by decide) (by decide)
      { sub := fun _ => default, unsub := fun _ => default } 0 mqtt_packet.zero).1]; rfl,
    (puback_roundtrip 515 (by decide) (by decide)
      { sub := fun _ => default, unsub := fun _ => default } 0 mqtt_packet.zero).2⟩

/-- C9. For every session-present value `s` in {0, 1} and every return code `r` (a
byte), `pack_connack` produces the 4-byte buffer `[0x20, 0x02, s, r]`, and `unpack` of
that buffer returns `MQTT_CONNACK` with `session_present_flag = s` and
`return_code = r`; in particular `[0x20, 0x02, 0x00, 0x00]` decodes to
`session_present = 0`, `return_code = 0`. -/
theorem connack_decode (s r : Nat) (hs : s = 0 ∨ s = 1) (hr : r < 256) (u : Uninit)
    (fuel : Nat) (packet : mqtt_packet) :
    pack_connack { session_present_flag := s, return_code := r } =
      { buf := some [0x20, 0x02, s, r], buf_len := 4, return_code := 0 } ∧
    (∃ x, unpack u fuel packet [0x20, 0x02, s, r] 4 = some x ∧ x.rc = MQTT_CONNACK ∧
      x.val.connack.session_present_flag = s ∧ x.val.connack.return_code = r) ∧
    (∃ x, unpack u fuel packet [0x20, 0x02, 0x00, 0x00] 4 = some x ∧ x.rc = MQTT_CONNACK ∧
      x.val.connack.session_present_flag = 0 ∧ x.val.connack.return_code = 0) := by
  have key : ∀ s r : Nat, (s = 0 ∨ s = 1) → r < 256 →
      ∃ x, unpack u fuel packet [0x20, 0x02, s, r] 4 = some x ∧ x.rc = MQTT_CONNACK ∧
        x.val.connack.session_present_flag = s ∧ x.val.connack.return_code = r := by
    intro s r hs hr
    have hh := hdr_at 0x20 2 (by decide) [s, r]
    simp only [encode_remaining_length_two, List.cons_append, List.nil_append] at hh
    obtain ⟨hrl, hat⟩ := hh
    obtain ⟨c1, h1, hat1⟩ := unpack_uint8_at _ _ _ _ (by simp) hat
    obtain ⟨c2, h2, -⟩ := unpack_uint8_at _ _ _ _ (by simp) hat1
    have hlen : ([0x20, 0x02, s, r] : List Nat).length = 4 := rfl
    rw [hlen] at h1 h2
    have hs0 : ¬ ((s : Int) < 0) := by omega
    have hr0 : ¬ ((r : Int) < 0) := by omega
    have hand : int_and (s : Int) 254 = 0 := by
      rcases hs with rfl | rfl <;> decide
    have hs8 : u8 (s : Int) = s := u8_natCast s (by omega)
    rw [unpack_connack_type u fuel packet [0x20, 0x02, s, r] 4
      (by rw [readByte_cons_zero]; decide)]
    rw [if_neg (by rw [readByte_cons_zero]; decide)]
    simp only [hdrPacket, hrl, ne_eq, not_true_eq_false, if_false, unpack_connack, h1, h2,
      if_neg hs0, if_neg hr0, hand, hs8, u8_natCast r hr]
    exact ⟨_, rfl, rfl, rfl, rfl⟩
  refine ⟨?_, key s r hs hr, key 0 0 (Or.inl rfl) (by decide)⟩
  have hsm : s % 256 = s := by omega
  have hrm : r % 256 = r := Nat.mod_eq_of_lt hr
  simp [pack_connack, realloc_bytes, memWrite, CONNACK_PACKET_SIZE, CONNACK_TYPE, hsm, hrm,
    List.replicate]

/-- Instance of C9 at session-present 1 and return code 5. -/
theorem connack_decode_witness :
    ∃ x, unpack { sub := fun _ => default, unsub := fun _ => default } 0 mqtt_packet.zero
        [0x20, 0x02, 1, 5] 4 = some x ∧ x.rc = MQTT_CONNACK ∧
      x.val.connack.session_present_flag = 1 ∧ x.val.connack.return_code = 5 :=
  (connack_decode 1 5 (Or.inr rfl) (by decide)
    { sub := fun _ => default, unsub := fun _ => default } 0 mqtt_packet.zero).2.1

/-! ## CONNECT -/

theorem strBytes_length (s : CStr) (len : Nat) : (strBytes s len).length = len :=
  memRead_length _ _ _

theorem encode_remaining_length_le_four (v : Nat) : (encode_remaining_length v).2.length ≤ 4 := by
  rw [encode_remaining_length_eq]
  split_ifs <;> simp

theorem connect_will_wire_length (P : mqtt_connect) (h : ValidConnect P) :
    (connect_will_wire P).length ≤ 131074 := by
  obtain ⟨-, -, -, -, -, -, -, -, -, -, hw⟩ := h
  unfold connect_will_wire
  split_ifs with hf
  · rw [if_pos hf] at hw
    simp [strBytes_length]
    omega
  · simp

theorem connect_wire_length (P : mqtt_connect) (h : ValidConnect P) :
    (connect_wire P).length ≤ 262152 := by
  have hw := connect_will_wire_length P h
  obtain ⟨-, h1, -, -, h2, -, -, -, -, -, -⟩ := h
  unfold connect_wire
  simp [strBytes_length]
  omega

theorem holds_congr {st : packing_status} {b b1 : List Nat} (h : Holds st b) (e : b = b1) :
    Holds st b1 := e ▸ h

/-- The buffer `pack_connect` produces for a valid connect struct. -/
theorem pack_connect_eq (P : mqtt_connect) (h : ValidConnect P) :
    pack_connect P =
      { buf := some (0x10 :: ((encode_remaining_length (connect_wire P).length).2
          ++ connect_wire P))
        buf_len := 1 + (encode_remaining_length (connect_wire P).length).2.length
          + (connect_wire P).length
        return_code := 0 } := by
  obtain ⟨n0, n1, ⟨n2, -⟩, c0, c1, ⟨c2, -⟩, hl, hf, -, hk, hw⟩ := h
  have s1 := pack16_holds _ [] P.protocol_name.len FAILED_MEM_ALLOC holds_init
  have s2 := pack_str_holds _ _ P.protocol_name.name P.protocol_name.len FAILED_MEM_ALLOC s1
  have s3 := pack8_holds _ _ P.protocol_level FAILED_MEM_ALLOC s2
  have s4 := pack8_holds _ _ P.connect_flags FAILED_MEM_ALLOC s3
  have s5 := pack16_holds _ _ P.keep_alive FAILED_MEM_ALLOC s4
  have s6 := pack16_holds _ _ P.payload.client_id_len FAILED_MEM_ALLOC s5
  have s7 := pack_str_holds _ _ P.payload.client_id P.payload.client_id_len FAILED_MEM_ALLOC s6
  have m1 : P.protocol_name.len % 65536 = P.protocol_name.len := Nat.mod_eq_of_lt n1
  have m2 : P.payload.client_id_len % 65536 = P.payload.client_id_len := Nat.mod_eq_of_lt c1
  have m3 : P.protocol_level % 256 = P.protocol_level := Nat.mod_eq_of_lt hl
  have m4 : P.connect_flags % 256 = P.connect_flags := Nat.mod_eq_of_lt hf
  have m5 : P.keep_alive % 65536 = P.keep_alive := Nat.mod_eq_of_lt hk
  have z1 : ¬ P.protocol_name.len = 0 := by omega
  have z2 : ¬ P.payload.client_id_len = 0 := by omega
  by_cases hflag : P.connect_flags &&& WILL_FLAG = WILL_FLAG
  · rw [if_pos hflag] at hw
    obtain ⟨t0, t1, ⟨t2, -⟩, g0, g1, ⟨g2, -⟩⟩ := hw
    have s8 := pack16_holds _ _ P.payload.will_topic_len FAILED_MEM_ALLOC s7
    have s9 := pack_str_holds _ _ P.payload.will_topic P.payload.will_topic_len
      FAILED_MEM_ALLOC s8
    have s10 := pack16_holds _ _ P.payload.will_message_len FAILED_MEM_ALLOC s9
    have s11 := pack_str_holds _ _ P.payload.will_message P.payload.will_message_len
      FAILED_MEM_ALLOC s10
    have m6 : P.payload.will_topic_len % 65536 = P.payload.will_topic_len :=
      Nat.mod_eq_of_lt t1
    have m7 : P.payload.will_message_len % 65536 = P.payload.will_message_len :=
      Nat.mod_eq_of_lt g1
    have z3 : ¬ P.payload.will_topic_len = 0 := by omega
    have z4 : ¬ P.payload.will_message_len = 0 := by omega
    have s12 := holds_congr s11 (show _ = connect_wire P by
      simp [connect_wire, connect_will_wire, hflag, strBytes, m1, m2, m3, m4, m5, m6, m7])
    simp only [pack_connect, CHECK, z1, z2, z3, z4, n2, c2, t2, g2, if_false, if_true, hflag,
      ne_eq, not_true_eq_false]
    rw [finalize_packet_holds _ _ CONNECT_TYPE s12]
    rfl
  · rw [if_neg hflag] at hw
    have s12 := holds_congr s7 (show _ = connect_wire P by
      simp [connect_wire, connect_will_wire, hflag, strBytes, m1, m2, m3, m4, m5])
    simp only [pack_connect, CHECK, z1, z2, n2, c2, if_false, if_true, hflag,
      ne_eq, not_true_eq_false]
    rw [finalize_packet_holds _ _ CONNECT_TYPE s12]
    rfl

theorem unpack_str_at_len (mem : List Nat) (c : Cursor) (s rest : List Nat) (old : CStr)
    (n : Nat) (hn : s.length = n)
    (hlen : mem.length < 2 ^ 31) (hs : n < 65536) (h : At mem c (s ++ rest)) :
    ∃ c1, unpack_str mem old n mem.length c = (0, some (s ++ [0]), c1) ∧ At mem c1 rest := by
  subst hn
  exact unpack_str_at mem c s rest old hlen hs h

theorem unpack_uint16_at_val (mem : List Nat) (c : Cursor) (x : Nat) (rest : List Nat)
    (hlen : mem.length < 2 ^ 31) (h : At mem c (x / 256 :: x % 256 :: rest)) :
    ∃ c1, unpack_uint16 mem mem.length c = ((x : Int), c1) ∧ At mem c1 rest := by
  obtain ⟨c1, h1, h2⟩ := unpack_uint16_at mem c _ _ rest hlen h
  have hv : x / 256 * 256 + x % 256 = x := by omega
  rw [hv] at h1
  exact ⟨c1, h1, h2⟩

theorem natCast_not_neg (n : Nat) : ¬ ((n : Int) < 0) := by omega

theorem int_and_one (n : Nat) (h : n < 256) : int_and (n : Int) 1 = ((n % 2 : Nat) : Int) := by
  unfold int_and
  have : ((n : Int) % 2 ^ 32).toNat = n := by omega
  rw [this, Nat.and_one_is_mod]

/-- Decoding the wire image of a valid connect struct into a zero-initialised struct. -/
theorem unpack_connect_wire (P : mqtt_connect) (h : ValidConnect P) (mem : List Nat)
    (c : Cursor) (hlen : mem.length < 2 ^ 31) (hat : At mem c (connect_wire P)) :
    ∃ cur, unpack_connect mqtt_packet.zero.connect mem mem.length c =
      ⟨MQTT_CONNECT,
        { protocol_name :=
            { len := P.protocol_name.len
              name := some (strBytes P.protocol_name.name P.protocol_name.len ++ [0]) }
          keep_alive := P.keep_alive
          protocol_level := P.protocol_level
          connect_flags := P.connect_flags
          payload :=
            { client_id := some (strBytes P.payload.client_id P.payload.client_id_len ++ [0])
              will_topic :=
                if P.connect_flags &&& WILL_FLAG = WILL_FLAG then
                  some (strBytes P.payload.will_topic P.payload.will_topic_len ++ [0])
                else none
              will_message :=
                if P.connect_flags &&& WILL_FLAG = WILL_FLAG then
                  some (strBytes P.payload.will_message P.payload.will_message_len ++ [0])
                else none
              client_id_len := P.payload.client_id_len
              will_topic_len := P.payload.will_topic_len
              will_message_len := P.payload.will_message_len } },
        cur⟩ := by
  obtain ⟨n0, n1, -, c0, c1, -, hl, hf, hbit, hk, hw⟩ := h
  unfold connect_wire at hat
  obtain ⟨k1, e1, a1⟩ := unpack_uint16_at_val mem c _ _ hlen hat
  obtain ⟨k2, e2, a2⟩ := unpack_str_at_len mem k1 _ _ none _ (strBytes_length _ _) hlen n1 a1
  obtain ⟨k3, e3, a3⟩ := unpack_uint8_at mem k2 _ _ hlen a2
  obtain ⟨k4, e4, a4⟩ := unpack_uint8_at mem k3 _ _ hlen a3
  obtain ⟨k5, e5, a5⟩ := unpack_uint16_at_val mem k4 _ _ hlen a4
  obtain ⟨k6, e6, a6⟩ := unpack_uint16_at_val mem k5 _ _ hlen a5
  obtain ⟨k7, e7, a7⟩ := unpack_str_at_len mem k6 _ _ none _ (strBytes_length _ _) hlen c1 a6
  have hia : ¬ (int_and (P.connect_flags : Int) 1 = 1) := by
    rw [int_and_one _ hf, hbit]; decide
  by_cases hflag : P.connect_flags &&& WILL_FLAG = WILL_FLAG
  · rw [if_pos hflag] at hw
    obtain ⟨t0, t1, -, g0, g1, -⟩ := hw
    unfold connect_will_wire at a7
    rw [if_pos hflag] at a7
    obtain ⟨k8, e8, a8⟩ := unpack_uint16_at_val mem k7 _ _ hlen a7
    obtain ⟨k9, e9, a9⟩ := unpack_str_at_len mem k8 _ _ none _ (strBytes_length _ _) hlen t1 a8
    obtain ⟨k10, e10, a10⟩ := unpack_uint16_at_val mem k9 _ _ hlen a9
    obtain ⟨k11, e11, -⟩ :=
      unpack_str_at_len mem k10 _ _ none _ (strBytes_length _ _) hlen g1 a10
    have z3 : ¬ P.payload.will_topic_len = 0 := by omega
    have z4 : ¬ P.payload.will_message_len = 0 := by omega
    refine ⟨k11, ?_⟩
    simp only [unpack_connect, mqtt_packet.zero, mqtt_connect.set_protocol_name_len,
      mqtt_connect.set_protocol_name_name, mqtt_connect.set_protocol_level,
      mqtt_connect.set_connect_flags, mqtt_connect.set_keep_alive,
      mqtt_connect.set_client_id_len, mqtt_connect.set_client_id,
      mqtt_connect.set_will_topic_len, mqtt_connect.set_will_topic,
      mqtt_connect.set_will_message_len, mqtt_connect.set_will_message,
      e1, e2, e3, e4, e5, e6, e7, e8, e9, e10, e11, natCast_not_neg, hia, hflag,
      u16_natCast _ n1, u16_natCast _ c1, u16_natCast _ hk, u16_natCast _ t1, u16_natCast _ g1,
      u8_natCast _ hl, u8_natCast _ hf, z3, z4,
      ne_eq, not_true_eq_false, not_false_eq_true, if_false, if_true]
  · rw [if_neg hflag] at hw
    obtain ⟨t0, g0⟩ := hw
    refine ⟨k7, ?_⟩
    simp only [unpack_connect, mqtt_packet.zero, mqtt_connect.set_protocol_name_len,
      mqtt_connect.set_protocol_name_name, mqtt_connect.set_protocol_level,
      mqtt_connect.set_connect_flags, mqtt_connect.set_keep_alive,
      mqtt_connect.set_client_id_len, mqtt_connect.set_client_id,
      e1, e2, e3, e4, e5, e6, e7, natCast_not_neg, hia, hflag, t0, g0,
      u16_natCast _ n1, u16_natCast _ c1, u16_natCast _ hk,
      u8_natCast _ hl, u8_natCast _ hf,
      ne_eq, not_true_eq_false, not_false_eq_true, if_false, if_true]

theorem strBytes_unpacked (s : List Nat) (n : Nat) (h : s.length = n) :
    strBytes (some (s ++ [0])) n = s := by
  subst h
  simpa [strBytes] using memRead_append [] s [0]

/-- C5. CONNECT round trip: for every connect struct `P` with non-empty protocol name and
client id, reserved connect-flag bit 0 clear, and will topic/message non-empty when the
will flag is set (empty when it is clear), `pack_connect P` succeeds, and `unpack` of the
resulting buffer into a zero-initialised packet returns `MQTT_CONNECT` with protocol
name, protocol level, connect flags, keep-alive, client id and will topic/message equal
to those of `P` (string fields compared by length and contents). -/
theorem connect_roundtrip (P : mqtt_connect) (h : ValidConnect P) (u : Uninit) (fuel : Nat) :
    (pack_connect P).return_code = 0 ∧
    ∃ buf r, (pack_connect P).buf = some buf ∧ (pack_connect P).buf_len = buf.length ∧
      unpack u fuel mqtt_packet.zero buf (pack_connect P).buf_len = some r ∧
      r.rc = MQTT_CONNECT ∧
      r.val.connect.protocol_name.len = P.protocol_name.len ∧
      strBytes r.val.connect.protocol_name.name r.val.connect.protocol_name.len
        = strBytes P.protocol_name.name P.protocol_name.len ∧
      r.val.connect.protocol_level = P.protocol_level ∧
      r.val.connect.connect_flags = P.connect_flags ∧
      r.val.connect.keep_alive = P.keep_alive ∧
      r.val.connect.payload.client_id_len = P.payload.client_id_len ∧
      strBytes r.val.connect.payload.client_id r.val.connect.payload.client_id_len
        = strBytes P.payload.client_id P.payload.client_id_len ∧
      r.val.connect.payload.will_topic_len = P.payload.will_topic_len ∧
      strBytes r.val.connect.payload.will_topic r.val.connect.payload.will_topic_len
        = strBytes P.payload.will_topic P.payload.will_topic_len ∧
      r.val.connect.payload.will_message_len = P.payload.will_message_len ∧
      strBytes r.val.connect.payload.will_message r.val.connect.payload.will_message_len
        = strBytes P.payload.will_message P.payload.will_message_len := by
  have hwl := connect_wire_length P h
  have hel := encode_remaining_length_le_four (connect_wire P).length
  rw [pack_connect_eq P h]
  obtain ⟨hrl, hat⟩ := hdr_at 0x10 (connect_wire P).length (by omega) (connect_wire P)
  have hlen : (0x10 :: ((encode_remaining_length (connect_wire P).length).2
      ++ connect_wire P)).length < 2 ^ 31 := by
    simp; omega
  obtain ⟨cur, hu⟩ := unpack_connect_wire P h _ _ hlen hat
  have hbl : 1 + (encode_remaining_length (connect_wire P).length).2.length
      + (connect_wire P).length
      = (0x10 :: ((encode_remaining_length (connect_wire P).length).2
          ++ connect_wire P)).length := by
    simp; omega
  have hun := unpack_connect_type u fuel mqtt_packet.zero
    (0x10 :: ((encode_remaining_length (connect_wire P).length).2 ++ connect_wire P))
    (0x10 :: ((encode_remaining_length (connect_wire P).length).2 ++ connect_wire P)).length
    (by rw [readByte_cons_zero]; decide)
  rw [hu] at hun
  have hwt : strBytes (if P.connect_flags &&& WILL_FLAG = WILL_FLAG then
        some (strBytes P.payload.will_topic P.payload.will_topic_len ++ [0]) else none)
      P.payload.will_topic_len = strBytes P.payload.will_topic P.payload.will_topic_len := by
    obtain ⟨-, -, -, -, -, -, -, -, -, -, hw⟩ := h
    split_ifs with hflag
    · exact strBytes_unpacked _ _ (strBytes_length _ _)
    · rw [if_neg hflag] at hw
      rw [hw.1]; rfl
  have hwm : strBytes (if P.connect_flags &&& WILL_FLAG = WILL_FLAG then
        some (strBytes P.payload.will_message P.payload.will_message_len ++ [0]) else none)
      P.payload.will_message_len
        = strBytes P.payload.will_message P.payload.will_message_len := by
    obtain ⟨-, -, -, -, -, -, -, -, -, -, hw⟩ := h
    split_ifs with hflag
    · exact strBytes_unpacked _ _ (strBytes_length _ _)
    · rw [if_neg hflag] at hw
      rw [hw.2]; rfl
  rw [← hbl] at hun
  exact ⟨rfl, _, _, rfl, hbl, hun, rfl, rfl, strBytes_unpacked _ _ (strBytes_length _ _), rfl,
    rfl, rfl, rfl, strBytes_unpacked _ _ (strBytes_length _ _), rfl, hwt, rfl, hwm⟩

theorem validConnect_default : ValidConnect (default_init_connect subscriberId 10) := by
  unfold ValidConnect readable
  decide

/-- Instance of C5 at `default_init_connect("Subscriber", 10)`: protocol name `"MQTT"`,
level 4, clean-session flag, keep-alive 0. -/
theorem connect_roundtrip_witness :
    ValidConnect (default_init_connect subscriberId 10) ∧
    (pack_connect (default_init_connect subscriberId 10)).buf =
      some [16, 22, 0, 4, 77, 81, 84, 84, 4, 2, 0, 0, 0, 10,
        83, 117, 98, 115, 99, 114, 105, 98, 101, 114] ∧
    ∃ buf r, (pack_connect (default_init_connect subscriberId 10)).buf = some buf ∧
      (pack_connect (default_init_connect subscriberId 10)).buf_len = buf.length ∧
      unpack zeroUninit 0 mqtt_packet.zero buf
        (pack_connect (default_init_connect subscriberId 10)).buf_len = some r ∧
      r.rc = MQTT_CONNECT ∧
      r.val.connect.protocol_name.len = 4 ∧
      strBytes r.val.connect.protocol_name.name r.val.connect.protocol_name.len
        = [77, 81, 84, 84] ∧
      r.val.connect.protocol_level = 4 ∧
      r.val.connect.connect_flags = CLEAN_SESSION_FLAG ∧
      r.val.connect.keep_alive = 0 ∧
      r.val.connect.payload.client_id_len = 10 ∧
      strBytes r.val.connect.payload.client_id r.val.connect.payload.client_id_len
        = [83, 117, 98, 115, 99, 114, 105, 98, 101, 114] ∧
      r.val.connect.payload.will_topic_len = 0 ∧
      strBytes r.val.connect.payload.will_topic r.val.connect.payload.will_topic_len = [] ∧
      r.val.connect.payload.will_message_len = 0 ∧
      strBytes r.val.connect.payload.will_message r.val.connect.payload.will_message_len
        = [] :=
  ⟨validConnect_default, by decide,
    (connect_roundtrip (default_init_connect subscriberId 10) validConnect_default
      zeroUninit 0).2⟩

/-! ## SUBSCRIBE -/

theorem foldl_range_getD {σ α : Type} (f : σ → α → σ) (d : α) (l : List α) (s : σ) :
    (List.range l.length).foldl (fun st i => f st (l.getD i d)) s = l.foldl f s := by
  induction l using List.reverseRecOn generalizing s with
  | nil => rfl
  | append_singleton init a ih =>
    rw [List.length_append, List.length_singleton, List.range_succ, List.foldl_append,
      List.foldl_append]
    have h1 : (List.range init.length).foldl (fun st i => f st ((init ++ [a]).getD i d)) s
        = (List.range init.length).foldl (fun st i => f st (init.getD i d)) s := by
      apply List.foldl_ext
      intro st i hi
      rw [List.mem_range] at hi
      rw [List.getD_append _ _ _ _ hi]
    rw [h1, ih]
    simp [List.getD_append_right]

theorem packTuple_holds (ts : List subscribe_tuples) (hv : ∀ t, t ∈ ts → ValidTuple t)
    (st : packing_status) (b : List Nat) (h : Holds st b) :
    Holds (ts.foldl packTuple st) (b ++ tuples_wire ts) := by
  induction ts generalizing st b with
  | nil => simpa [tuples_wire] using h
  | cons t ts ih =>
    obtain ⟨t0, t1, -, tq⟩ := hv t (List.mem_cons_self _ _)
    have s1 := pack16_holds _ _ t.topic_len FAILED_MEM_ALLOC h
    have s2 := pack_str_holds _ _ t.topic t.topic_len FAILED_MEM_ALLOC s1
    have s3 := pack8_holds _ _ t.qos FAILED_MEM_ALLOC s2
    have m1 : t.topic_len % 65536 = t.topic_len := Nat.mod_eq_of_lt t1
    have m2 : t.qos % 256 = t.qos := by rw [tq]
    have s4 := ih (fun x hx => hv x (List.mem_cons_of_mem _ hx)) _ _ s3
    rw [List.foldl_cons]
    refine holds_congr s4 ?_
    simp [tuples_wire, strBytes, m1, m2]

/-- The buffer `pack_subscribe` produces for a valid subscribe struct. -/
theorem pack_subscribe_eq (P : mqtt_subscribe) (h : ValidSubscribe P) :
    pack_subscribe P =
      { buf := some (0x82 :: ((encode_remaining_length (subscribe_wire P).length).2
          ++ subscribe_wire P))
        buf_len := 1 + (encode_remaining_length (subscribe_wire P).length).2.length
          + (subscribe_wire P).length
        return_code := 0 } := by
  obtain ⟨p0, p1, hl, l0, l1, hv⟩ := h
  obtain ⟨t0, rest, hts⟩ : ∃ t0 rest, P.tuples = t0 :: rest := by
    cases hP : P.tuples with
    | nil => rw [hP] at hl; simp at hl; omega
    | cons t0 rest => exact ⟨t0, rest, rfl⟩
  obtain ⟨a0, a1, ⟨a2, -⟩, aq⟩ := hv t0 (by rw [hts]; exact List.mem_cons_self _ _)
  have g0 : P.tuples.getD 0 default = t0 := by rw [hts]; rfl
  have z1 : ¬ P.tuples_len = 0 := by omega
  have z2 : ¬ t0.qos = 0 := by omega
  have z3 : ¬ t0.topic_len = 0 := by omega
  have m1 : P.pkt_id % 65536 = P.pkt_id := Nat.mod_eq_of_lt p1
  have s1 := pack16_holds _ [] P.pkt_id FAILED_MEM_ALLOC holds_init
  have s2 := packTuple_holds P.tuples hv _ _ s1
  have s3 := holds_congr s2 (show _ = subscribe_wire P by simp [subscribe_wire, m1])
  have hfold : ∀ st : packing_status,
      (List.range P.tuples_len).foldl
        (fun status i =>
          CHECK_call (pack8
            (CHECK_call (pack_str
              (CHECK_call (pack16 status (P.tuples.getD i default).topic_len) FAILED_MEM_ALLOC)
              (P.tuples.getD i default).topic (P.tuples.getD i default).topic_len)
              FAILED_MEM_ALLOC)
            (P.tuples.getD i default).qos) FAILED_MEM_ALLOC) st
        = P.tuples.foldl packTuple st := by
    intro st
    rw [hl]
    exact foldl_range_getD packTuple default P.tuples st
  simp only [pack_subscribe, CHECK, p0, z1, z2, z3, a2, g0, if_false, List.foldl_fixed,
    ne_eq, not_true_eq_false, hfold]
  rw [finalize_packet_holds _ _ _ s3]
  rfl

theorem reallocAt_append {α : Type} (done tail : List α) (fresh : α) :
    ∃ y, reallocAt (done ++ tail) done.length fresh = done ++ [y] := by
  unfold reallocAt
  cases tail with
  | nil => exact ⟨fresh, by simp⟩
  | cons y tail => exact ⟨y, by simp [List.take_append_eq_append_take]⟩

theorem updAt_append {α : Type} (f : α → α) (done : List α) (y : α) :
    updAt f (done ++ [y]) done.length = done ++ [f y] := by
  induction done with
  | nil => rfl
  | cons a done ih => simp [updAt, ih]

theorem getD_append_last {α : Type} (done : List α) (y d : α) :
    (done ++ [y]).getD done.length d = y := by
  simp [List.getD_append_right]

theorem at_cond (mem : List Nat) (c : Cursor) (a : Nat) (rest : List Nat)
    (hlen : mem.length < 2 ^ 31) (h : At mem c (a :: rest)) : c.acc < to_int mem.length := by
  rw [to_int_of_lt _ hlen, at_acc mem c _ h]
  simp

theorem at_end_cond (mem : List Nat) (c : Cursor)
    (hlen : mem.length < 2 ^ 31) (h : At mem c []) : ¬ c.acc < to_int mem.length := by
  rw [to_int_of_lt _ hlen, at_acc mem c _ h]
  simp

/-- One iteration of the tuple loop of `unpack_subscribe` on the wire image of a valid
tuple: the tuple is stored at index `i`, and the loop goes on at index `i + 1`. -/
theorem subscribe_iter (u : Uninit) (mem : List Nat) (done tail : List subscribe_tuples)
    (i : Nat) (c : Cursor) (t : subscribe_tuples) (rest : List Nat) (fuel : Nat)
    (hi : i = done.length) (hlen : mem.length < 2 ^ 31) (hv : ValidTuple t)
    (hat : At mem c (t.topic_len / 256 :: t.topic_len % 256 ::
      (strBytes t.topic t.topic_len ++ t.qos :: rest))) :
    ∃ x c1, unpack_subscribe_loop u mem mem.length false (fuel + 1) (done ++ tail) i c =
        unpack_subscribe_loop u mem mem.length false fuel (done ++ [x]) (i + 1) c1 ∧
      At mem c1 rest ∧ tupleKey x = tupleKey t := by
  subst hi
  obtain ⟨t0, t1, -, tq⟩ := hv
  obtain ⟨y, hy⟩ := reallocAt_append done tail (u.sub done.length)
  have hcond := at_cond mem c _ _ hlen hat
  obtain ⟨k1, e1, a1⟩ := unpack_uint16_at_val mem c _ _ hlen hat
  obtain ⟨k2, e2, a2⟩ :=
    unpack_str_at_len mem k1 _ _ y.topic _ (strBytes_length _ _) hlen t1 a1
  rw [tq] at a2
  obtain ⟨k3, e3, a3⟩ := unpack_uint8_at mem k2 _ _ hlen a2
  have n1 : ¬ ((t.topic_len : Int) ≤ 0) := by omega
  have n3 : ¬ ((((1 : Nat) : Int)) < 0 ∨ (((1 : Nat) : Int)) > 1) := by omega
  refine ⟨{ topic := some (strBytes t.topic t.topic_len ++ [0]), topic_len := t.topic_len,
            qos := 1,
            suback_status := if y.suback_status ≠ SUBACK_FAIL then 1 else y.suback_status },
    k3, ?_, a3, ?_⟩
  · rw [unpack_subscribe_loop]
    simp only [hcond, hy, e1, e2, e3, n1, n3, updAt_append, getD_append_last,
      u16_natCast _ t1, u8_natCast 1 (by decide), if_true, if_false, ne_eq,
      not_true_eq_false, not_false_eq_true, Bool.false_eq_true]
    split_ifs <;> simp_all
  · simp [tupleKey, strBytes_unpacked _ _ (strBytes_length _ _), tq]

/-- The tuple loop of `unpack_subscribe` on the wire image of valid tuples, started with
an array of exactly `i` elements: all tuples are stored, in order. -/
theorem subscribe_loop_wire (u : Uninit) (mem : List Nat) (hlen : mem.length < 2 ^ 31)
    (ts : List subscribe_tuples) :
    ∀ (done : List subscribe_tuples) (c : Cursor) (fuel : Nat),
      (∀ t, t ∈ ts → ValidTuple t) → At mem c (tuples_wire ts) → ts.length < fuel →
      ∃ out c1, unpack_subscribe_loop u mem mem.length false fuel done done.length c =
          some (done ++ out, done.length + ts.length, c1) ∧
        out.map tupleKey = ts.map tupleKey := by
  induction ts with
  | nil =>
    intro done c fuel _ hat hf
    obtain ⟨f, rfl⟩ : ∃ f, fuel = f + 1 := ⟨fuel - 1, by simp at hf; omega⟩
    refine ⟨[], c, ?_, rfl⟩
    rw [unpack_subscribe_loop, if_neg (at_end_cond mem c hlen hat)]
    simp
  | cons t ts ih =>
    intro done c fuel hv hat hf
    obtain ⟨f, rfl⟩ : ∃ f, fuel = f + 1 := ⟨fuel - 1, by simp at hf; omega⟩
    obtain ⟨x, c1, e1, a1, k1⟩ := subscribe_iter u mem done [] done.length c t
      (tuples_wire ts) f rfl hlen (hv t (List.mem_cons_self _ _)) hat
    obtain ⟨out, c2, e2, k2⟩ := ih (done ++ [x]) c1 f
      (fun y hy => hv y (List.mem_cons_of_mem _ hy)) a1 (by simp at hf; omega)
    refine ⟨x :: out, c2, ?_, by simp [k1, k2]⟩
    rw [List.append_nil] at e1
    rw [e1]
    have hl : (done ++ [x]).length = done.length + 1 := by simp
    rw [hl] at e2
    rw [e2]
    simp
    omega

/-- C function `unpack_subscribe` on the wire image of a valid subscribe struct. -/
theorem unpack_subscribe_wire (u : Uninit) (P : mqtt_subscribe) (h : ValidSubscribe P)
    (sub0 : mqtt_subscribe) (mem : List Nat) (c : Cursor) (hlen : mem.length < 2 ^ 31)
    (hat : At mem c (subscribe_wire P)) (fuel : Nat) (hf : P.tuples_len < fuel) :
    ∃ out c1, unpack_subscribe u fuel sub0 mem mem.length c =
        some ⟨MQTT_SUBSCRIBE, { pkt_id := P.pkt_id, tuples_len := P.tuples_len, tuples := out },
          c1⟩ ∧
      out.map tupleKey = P.tuples.map tupleKey := by
  obtain ⟨p0, p1, hl, l0, l1, hv⟩ := h
  obtain ⟨t0, rest, hts⟩ : ∃ t0 rest, P.tuples = t0 :: rest := by
    cases hP : P.tuples with
    | nil => rw [hP] at hl; simp at hl; omega
    | cons t0 rest => exact ⟨t0, rest, rfl⟩
  unfold subscribe_wire at hat
  obtain ⟨k1, e1, a1⟩ := unpack_uint16_at_val mem c _ _ hlen hat
  rw [hts, tuples_wire] at a1
  obtain ⟨f, hfuel⟩ : ∃ f, fuel = f + 1 := ⟨fuel - 1, by omega⟩
  rw [hts] at hv
  obtain ⟨x, c1, e2, a2, kx⟩ := subscribe_iter u mem [] sub0.tuples 0 k1 t0
    (tuples_wire rest) f rfl hlen (hv t0 (List.mem_cons_self _ _)) a1
  have hrl : rest.length < f := by
    rw [hts] at hl; simp at hl; omega
  obtain ⟨out, c2, e3, ko⟩ := subscribe_loop_wire u mem hlen rest [x] c1 f
    (fun y hy => hv y (List.mem_cons_of_mem _ hy)) a2 hrl
  have hn : ([x] : List subscribe_tuples).length + rest.length = P.tuples_len := by
    rw [hl, hts]; simp; omega
  have hm : P.tuples_len % 65536 = P.tuples_len := Nat.mod_eq_of_lt l1
  have hz : ¬ P.tuples_len = 0 := by omega
  have hp : ¬ ((P.pkt_id : Int) ≤ 0) := by omega
  refine ⟨[x] ++ out, c2, ?_, by rw [hts]; simp [kx, ko]⟩
  simp only [List.nil_append, List.length_nil, Nat.zero_add] at e2
  rw [← hfuel] at e2
  simp only [List.length_singleton] at e3 hn
  simp only [unpack_subscribe, e1, hp, decide_False, e2, e3, hn, hm, hz, if_false,
    u16_natCast _ p1]

theorem tuples_wire_length (ts : List subscribe_tuples) :
    (tuples_wire ts).length = (ts.map (fun t => t.topic_len + 3)).sum := by
  induction ts with
  | nil => rfl
  | cons t ts ih =>
    simp [tuples_wire, strBytes_length, ih]
    omega

theorem subscribe_wire_length (P : mqtt_subscribe) :
    (subscribe_wire P).length = 2 + (P.tuples.map (fun t => t.topic_len + 3)).sum := by
  simp [subscribe_wire, tuples_wire_length]
  omega

/-- C7 (amended). SUBSCRIBE round trip: for every subscribe struct `P` with non-zero
packet identifier and at least one tuple, each tuple having a non-empty topic and requested
QoS 1, and whose variable header and payload (2 bytes and, per tuple, topic length + 3
bytes) do not exceed 268435455 bytes, `pack_subscribe P` succeeds, and `unpack` of the
resulting buffer (the tuple loop being given more iterations than there are tuples)
returns `MQTT_SUBSCRIBE` with the same packet identifier, the same number of tuples, and the
same topic and QoS for every tuple in the same order. -/
theorem subscribe_roundtrip (P : mqtt_subscribe) (h : ValidSubscribe P)
    (hsize : 2 + (P.tuples.map (fun t => t.topic_len + 3)).sum ≤ 268435455)
    (u : Uninit) (packet : mqtt_packet) (fuel : Nat) (hf : P.tuples_len < fuel) :
    (pack_subscribe P).return_code = 0 ∧
    ∃ buf r, (pack_subscribe P).buf = some buf ∧ (pack_subscribe P).buf_len = buf.length ∧
      unpack u fuel packet buf (pack_subscribe P).buf_len = some r ∧
      r.rc = MQTT_SUBSCRIBE ∧
      r.val.subscribe.pkt_id = P.pkt_id ∧
      r.val.subscribe.tuples_len = P.tuples_len ∧
      r.val.subscribe.tuples.map tupleKey = P.tuples.map tupleKey := by
  rw [← subscribe_wire_length] at hsize
  have hel := encode_remaining_length_le_four (subscribe_wire P).length
  rw [pack_subscribe_eq P h]
  obtain ⟨hrl, hat⟩ := hdr_at 0x82 (subscribe_wire P).length hsize (subscribe_wire P)
  have hlen : (0x82 :: ((encode_remaining_length (subscribe_wire P).length).2
      ++ subscribe_wire P)).length < 2 ^ 31 := by
    simp; omega
  obtain ⟨out, c1, hu, hk⟩ :=
    unpack_subscribe_wire u P h packet.subscribe _ _ hlen hat fuel hf
  have hbl : 1 + (encode_remaining_length (subscribe_wire P).length).2.length
      + (subscribe_wire P).length
      = (0x82 :: ((encode_remaining_length (subscribe_wire P).length).2
          ++ subscribe_wire P)).length := by
    simp; omega
  have hun := unpack_subscribe_type u fuel packet
    (0x82 :: ((encode_remaining_length (subscribe_wire P).length).2 ++ subscribe_wire P))
    (0x82 :: ((encode_remaining_length (subscribe_wire P).length).2 ++ subscribe_wire P)).length
    (by rw [readByte_cons_zero]; decide)
  rw [if_neg (by rw [readByte_cons_zero]; decide), hu] at hun
  rw [← hbl] at hun
  exact ⟨rfl, _, _, rfl, hbl, hun, rfl, rfl, rfl, hk⟩

/-- Instance of the amended C7 at the subscription of `process_broker_messages`: packet
identifier 1, one tuple, topic `"home/chris/smart_led"`, QoS 1. -/
theorem subscribe_roundtrip_witness :
    ValidSubscribe { pkt_id := 1, tuples_len := 1, tuples := [ledTuple] } ∧
    ∃ buf r,
      (pack_subscribe { pkt_id := 1, tuples_len := 1, tuples := [ledTuple] }).buf = some buf ∧
      (pack_subscribe { pkt_id := 1, tuples_len := 1, tuples := [ledTuple] }).buf_len
        = buf.length ∧
      unpack zeroUninit 2 mqtt_packet.zero buf
        (pack_subscribe { pkt_id := 1, tuples_len := 1, tuples := [ledTuple] }).buf_len
        = some r ∧
      r.rc = MQTT_SUBSCRIBE ∧
      r.val.subscribe.pkt_id = 1 ∧
      r.val.subscribe.tuples_len = 1 ∧
      r.val.subscribe.tuples.map tupleKey = [ledTuple].map tupleKey :=
  have hv : ValidSubscribe { pkt_id := 1, tuples_len := 1, tuples := [ledTuple] } :=
    ⟨by decide, by decide, rfl, by decide, by decide, fun t ht => by
      rw [List.mem_singleton] at ht
      subst ht
      exact ⟨by decide, by decide, ⟨by decide, by decide⟩, rfl⟩⟩
  ⟨hv, (subscribe_roundtrip { pkt_id := 1, tuples_len := 1, tuples := [ledTuple] } hv
    (by decide) zeroUninit mqtt_packet.zero 2 (by decide)).2⟩

theorem unpack_subscribe_pkt_id (u : Uninit) (fuel : Nat) (s : mqtt_subscribe)
    (mem : List Nat) (n : Nat) (c : Cursor) (r : Res mqtt_subscribe)
    (h : unpack_subscribe u fuel s mem n c = some r) :
    r.val.pkt_id = u16 (unpack_uint16 mem n c).1 := by
  unfold unpack_subscribe at h
  simp only at h
  split at h
  · exact absurd h (by simp)
  · split_ifs at h <;>
    · rw [Option.some.injEq] at h
      rw [← h]

theorem bigTopic_length : bigTopic.length = 65535 := List.length_replicate _ _

theorem validTuple_big : ValidTuple bigTuple :=
  ⟨by decide, by decide, ⟨by simp [bigTuple], by
    show 65535 ≤ bigTopic.length
    rw [bigTopic_length]⟩, rfl⟩

theorem validSubscribe_big : ValidSubscribe bigSubscribe :=
  ⟨by decide, by decide, (List.length_replicate _ _).symm, by decide, by decide,
    fun t ht => by
      rw [List.eq_of_mem_replicate ht]
      exact validTuple_big⟩

theorem bigSubscribe_tuples : bigSubscribe.tuples = List.replicate 4096 bigTuple := rfl

theorem subscribe_wire_big_length : (subscribe_wire bigSubscribe).length = 268443650 := by
  rw [subscribe_wire_length, bigSubscribe_tuples, List.map_replicate, List.sum_replicate,
    smul_eq_mul]
  rfl

theorem subscribe_wire_big_head :
    ∃ rest, subscribe_wire bigSubscribe = 0 :: 1 :: 255 :: rest := by
  refine ⟨bigTuple.topic_len % 256 :: (strBytes bigTuple.topic bigTuple.topic_len ++
    bigTuple.qos :: tuples_wire (List.replicate 4095 bigTuple)), ?_⟩
  rw [subscribe_wire, bigSubscribe_tuples, show (4096 : Nat) = 4095 + 1 from rfl,
    List.replicate_succ, tuples_wire]
  rfl

/-- The packet identifier of a decoded SUBSCRIBE packet is the two bytes read right after
the fixed header. -/
theorem unpack_subscribe_type_pkt_id (u : Uninit) (fuel : Nat) (packet : mqtt_packet)
    (mem : List Nat) (n : Nat) (r : Res mqtt_packet)
    (ht : readByte mem 0 &&& TYPE_MASK = SUBSCRIBE_TYPE)
    (hfl : readByte mem 0 &&& FLAG_MASK = SUB_UNSUB_FLAGS)
    (h : unpack u fuel packet mem n = some r) :
    r.val.subscribe.pkt_id = u16 (unpack_uint16 mem n (hdrCursor mem)).1 := by
  rw [unpack_subscribe_type _ _ _ _ _ ht, if_neg (by rw [hfl]; exact fun hne => hne rfl)] at h
  generalize hr1 : unpack_subscribe _ _ _ _ _ _ = res at h
  cases res with
  | none => exact absurd h (by simp)
  | some r1 =>
    have hp := unpack_subscribe_pkt_id _ _ _ _ _ _ _ hr1
    rw [Option.some.injEq] at h
    rw [← h]
    exact hp

/-- After a Remaining Length field of four continuation bytes the cursor stands at
offset 6: the decoder has taken a fifth byte for the length. -/
theorem hdrCursor_five (hb e0 e1 e2 e3 : Nat) (rest : List Nat)
    (h0 : e0 &&& 128 ≠ 0) (h1 : e1 &&& 128 ≠ 0) (h2 : e2 &&& 128 ≠ 0) (h3 : e3 &&& 128 ≠ 0) :
    hdrCursor (hb :: e0 :: e1 :: e2 :: e3 :: rest)
      = Cursor.advance { pos := 1, acc := 1, reads := [0] } 5 := by
  unfold hdrCursor
  rw [decode_remaining_length_eq]
  simp only [readByte_cons_succ, readByte_cons_zero, h0, h1, h2, h3, if_false]

/-- A SUBSCRIBE buffer whose Remaining Length field has four continuation bytes: the
decoder takes the byte after them for the length as well, and reads the packet identifier
one byte too late. -/
theorem unpack_subscribe_shifted (u : Uninit) (fuel : Nat) (packet : mqtt_packet)
    (r : Res mqtt_packet) (mem : List Nat) (n : Nat) (rest : List Nat)
    (hmem : mem = 130 :: 130 :: 192 :: 128 :: 128 :: 0 :: 1 :: 255 :: rest)
    (hn : 8 ≤ n) (hn2 : n < 2 ^ 31) (h : unpack u fuel packet mem n = some r) :
    r.val.subscribe.pkt_id = 511 := by
  subst hmem
  have hp := unpack_subscribe_type_pkt_id _ _ _ _ _ _ (by rw [readByte_cons_zero]; decide)
    (by rw [readByte_cons_zero]; decide) h
  have hc := hdrCursor_five 130 130 192 128 128 (0 :: 1 :: 255 :: rest) (by decide) (by decide)
    (by decide) (by decide)
  have hsz : ¬ to_size ((1 : Int) + ((5 : Nat) : Int) + 2) > (n : Int) := by
    unfold to_size
    omega
  rw [hp, hc]
  simp only [unpack_uint16, Cursor.advance, readByte_cons_succ, readByte_cons_zero, hsz,
    if_false]
  decide

/-- C7 as stated fails: `bigSubscribe` is a valid subscribe struct (non-zero packet
identifier, 4096 tuples, each with a non-empty topic and QoS 1), `pack_subscribe` accepts
it, and no run of `unpack` on the resulting buffer gives back its packet identifier: the
Remaining Length is cut to four bytes, the decoder takes a fifth byte for it and reads the
packet identifier one byte too late. -/
theorem subscribe_roundtrip_oversize_fails :
    ValidSubscribe bigSubscribe ∧ (pack_subscribe bigSubscribe).return_code = 0 ∧
    ¬ ∃ (u : Uninit) (fuel : Nat) (packet : mqtt_packet) (r : Res mqtt_packet),
      unpack u fuel packet ((pack_subscribe bigSubscribe).buf.getD [])
        (pack_subscribe bigSubscribe).buf_len = some r ∧
      r.val.subscribe.pkt_id = bigSubscribe.pkt_id := by
  obtain ⟨rest, hw⟩ := subscribe_wire_big_head
  have hE : (encode_remaining_length 268443650).2 = [130, 192, 128, 128] := by decide
  have hpack := pack_subscribe_eq _ validSubscribe_big
  rw [subscribe_wire_big_length, hE, hw] at hpack
  have hmem : (pack_subscribe bigSubscribe).buf.getD []
      = 130 :: 130 :: 192 :: 128 :: 128 :: 0 :: 1 :: 255 :: rest := by
    rw [hpack]; rfl
  have hn : (pack_subscribe bigSubscribe).buf_len = 268443655 := by
    rw [hpack]
    rfl
  refine ⟨validSubscribe_big, by rw [hpack], ?_⟩
  rintro ⟨u, fuel, packet, r, hr, hid⟩
  have h511 := unpack_subscribe_shifted u fuel packet r _ _ rest hmem (by rw [hn]; decide)
    (by rw [hn]; decide) hr
  rw [hid] at h511
  exact absurd h511 (by decide)

/-! ## PUBLISH -/

/-- C6 fails at QoS 0. `pack_publish` writes the two-byte packet identifier whatever the
QoS bits of `flags` are, while `unpack_publish` reads one only when they are non-zero.
For `pubSmall` (topic `"a"`, payload `"x"`) and `flags = 0` the packed bytes are
`30 06 00 01 61 00 00 78`, and `unpack` returns `MQTT_PUBLISH` with payload length 3 and
payload `00 00 78` instead of length 1 and payload `78`.  With `flags = 2` (QoS 1) and
packet identifier 7 the same struct does round-trip. -/
theorem publish_qos0_roundtrip_fails :
    pack_publish pubSmall 0 =
      { buf := some [0x30, 6, 0, 1, 97, 0, 0, 120], buf_len := 8, return_code := 0 } ∧
    (unpack zeroUninit 0 mqtt_packet.zero [0x30, 6, 0, 1, 97, 0, 0, 120] 8).map publishView
      = some (MQTT_PUBLISH, 1, [97], 3, [0, 0, 120], 0) ∧
    pack_publish pubSmallId 2 =
      { buf := some [0x32, 6, 0, 1, 97, 0, 7, 120], buf_len := 8, return_code := 0 } ∧
    (unpack zeroUninit 0 mqtt_packet.zero [0x32, 6, 0, 1, 97, 0, 7, 120] 8).map publishView
      = some (MQTT_PUBLISH, 1, [97], 1, [120], 7) :=
  ⟨by decide, by decide, by decide, by decide⟩

/-! ## Reads of the fixed header -/

/-- C10 fails. `unpack` reads the fixed header byte and the Remaining Length bytes without
consulting `buf_size`: with a one-byte buffer `[0x20]` (`buf_size = 1`) it reads
index 1, with `buf_size = 0` it reads indices 0 and 1, and with the buffer `[0x30, 0x80]`
(`buf_size = 2`), whose last byte has the continuation bit set, it reads index 2. -/
theorem unpack_reads_past_buffer :
    (unpack zeroUninit 0 mqtt_packet.zero [0x20] 1).map (fun r => r.cur.reads) = some [0, 1] ∧
    ¬ readsWithin (unpack zeroUninit 0 mqtt_packet.zero [0x20] 1) 1 ∧
    (unpack zeroUninit 0 mqtt_packet.zero [] 0).map (fun r => r.cur.reads) = some [0, 1] ∧
    ¬ readsWithin (unpack zeroUninit 0 mqtt_packet.zero [] 0) 0 ∧
    (unpack zeroUninit 0 mqtt_packet.zero [0x30, 0x80] 2).map (fun r => r.cur.reads)
      = some [0, 1, 2] ∧
    ¬ readsWithin (unpack zeroUninit 0 mqtt_packet.zero [0x30, 0x80] 2) 2 := by
  have key : ∀ (r : Option (Res mqtt_packet)) (n : Nat) (l : List Nat),
      r.map (fun r => r.cur.reads) = some l → (∃ i, i ∈ l ∧ ¬ i < n) → ¬ readsWithin r n := by
    intro r n l hl ⟨i, hi, hn⟩ hw
    cases r with
    | none => simp at hl
    | some x =>
      simp only [Option.map_some', Option.some.injEq] at hl
      exact hn (hw x rfl i (hl ▸ hi))
  have h1 : (unpack zeroUninit 0 mqtt_packet.zero [0x20] 1).map (fun r => r.cur.reads)
      = some [0, 1] := by decide
  have h2 : (unpack zeroUninit 0 mqtt_packet.zero [] 0).map (fun r => r.cur.reads)
      = some [0, 1] := by decide
  have h3 : (unpack zeroUninit 0 mqtt_packet.zero [0x30, 0x80] 2).map (fun r => r.cur.reads)
      = some [0, 1, 2] := by decide
  exact ⟨h1, key _ _ _ h1 ⟨1, by decide, by decide⟩, h2, key _ _ _ h2 ⟨0, by decide, by decide⟩,
    h3, key _ _ _ h3 ⟨2, by decide, by decide⟩⟩

/-! ## Error codes of `unpack` -/

/-- The header steps of `unpack` consume the fixed header byte and one to five length
bytes. -/
theorem hdrCursor_advance (mem : List Nat) :
    ∃ k, 1 ≤ k ∧ k ≤ 5 ∧
      hdrCursor mem = Cursor.advance { pos := 1, acc := 1, reads := [0] } k := by
  unfold hdrCursor
  rw [decode_remaining_length_eq]
  split_ifs
  · exact ⟨1, by omega, by omega, rfl⟩
  · exact ⟨2, by omega, by omega, rfl⟩
  · exact ⟨3, by omega, by omega, rfl⟩
  · exact ⟨4, by omega, by omega, rfl⟩
  · exact ⟨5, by omega, by omega, rfl⟩

/-- After the header steps `accumulated_size` equals the read position, which lies
between 2 and 6. -/
theorem hdrCursor_acc (mem : List Nat) :
    (hdrCursor mem).acc = ((hdrCursor mem).pos : Int) ∧ 2 ≤ (hdrCursor mem).pos ∧
      (hdrCursor mem).pos ≤ 6 := by
  obtain ⟨k, h1, h5, e⟩ := hdrCursor_advance mem
  rw [e]
  simp only [Cursor.advance]
  refine ⟨by push_cast; ring, by omega, by omega⟩

theorem unpack_suback_type (u : Uninit) (fuel : Nat) (packet : mqtt_packet) (mem : List Nat)
    (buf_size : Nat) (h : readByte mem 0 &&& TYPE_MASK = SUBACK_TYPE) :
    unpack u fuel packet mem buf_size =
      some ⟨(unpack_suback packet.suback mem buf_size (hdrCursor mem)).rc,
        { hdrPacket packet mem with
            suback := (unpack_suback packet.suback mem buf_size (hdrCursor mem)).val },
        (unpack_suback packet.suback mem buf_size (hdrCursor mem)).cur⟩ := by
  simp only [unpack, hdrPacket, hdrCursor, Cursor.start, h, List.nil_append, Nat.zero_add,
    Int.zero_add, CONNACK_TYPE, CONNECT_TYPE, PUBLISH_TYPE, PUBACK_TYPE, SUBSCRIBE_TYPE,
    SUBACK_TYPE]
  simp

theorem unpack_unsubscribe_type (u : Uninit) (fuel : Nat) (packet : mqtt_packet)
    (mem : List Nat) (buf_size : Nat) (h : readByte mem 0 &&& TYPE_MASK = UNSUBSCRIBE_TYPE) :
    unpack u fuel packet mem buf_size =
      if readByte mem 0 &&& FLAG_MASK ≠ SUB_UNSUB_FLAGS then
        some ⟨INCORRECT_FLAGS, hdrPacket packet mem, hdrCursor mem⟩
      else
        match unpack_unsubscribe u fuel packet.unsubscribe mem buf_size (hdrCursor mem) with
        | none => none
        | some r => some ⟨r.rc, { hdrPacket packet mem with unsubscribe := r.val }, r.cur⟩ := by
  simp only [unpack, hdrPacket, hdrCursor, Cursor.start, h, List.nil_append, Nat.zero_add,
    Int.zero_add, CONNACK_TYPE, CONNECT_TYPE, PUBLISH_TYPE, PUBACK_TYPE, SUBSCRIBE_TYPE,
    SUBACK_TYPE, UNSUBSCRIBE_TYPE]
  simp

/-- C12: `unpack` returns `INCORRECT_FLAGS` for every buffer whose type nibble is CONNACK
and whose flag nibble is not zero, and for every buffer whose type nibble is SUBSCRIBE or
UNSUBSCRIBE and whose flag nibble is not `0x02`, whatever the other bytes, the size
passed and the previous contents of the packet struct are. -/
theorem unpack_incorrect_flags (u : Uninit) (fuel : Nat) (packet : mqtt_packet)
    (mem : List Nat) (buf_size : Nat)
    (h : (readByte mem 0 &&& TYPE_MASK = CONNACK_TYPE ∧ readByte mem 0 &&& FLAG_MASK ≠ 0) ∨
      ((readByte mem 0 &&& TYPE_MASK = SUBSCRIBE_TYPE ∨
          readByte mem 0 &&& TYPE_MASK = UNSUBSCRIBE_TYPE) ∧
        readByte mem 0 &&& FLAG_MASK ≠ 2)) :
    ∃ r, unpack u fuel packet mem buf_size = some r ∧ r.rc = INCORRECT_FLAGS := by
  rcases h with ⟨ht, hf⟩ | ⟨ht | ht, hf⟩
  · rw [unpack_connack_type u fuel packet mem buf_size ht, if_pos hf]
    exact ⟨_, rfl, rfl⟩
  · rw [unpack_subscribe_type u fuel packet mem buf_size ht,
      if_pos (show _ ≠ SUB_UNSUB_FLAGS from hf)]
    exact ⟨_, rfl, rfl⟩
  · rw [unpack_unsubscribe_type u fuel packet mem buf_size ht,
      if_pos (show _ ≠ SUB_UNSUB_FLAGS from hf)]
    exact ⟨_, rfl, rfl⟩

/-- Instances of C12: a CONNACK with flag nibble 1, a SUBSCRIBE with flag nibble 0 and an
UNSUBSCRIBE with flag nibble 3. -/
theorem unpack_incorrect_flags_witness :
    (∃ r, unpack zeroUninit 0 mqtt_packet.zero [0x21, 2, 0, 0] 4 = some r ∧
        r.rc = INCORRECT_FLAGS) ∧
    (∃ r, unpack zeroUninit 0 mqtt_packet.zero [0x80, 6, 0, 1, 0, 1, 97, 0] 8 = some r ∧
        r.rc = INCORRECT_FLAGS) ∧
    (∃ r, unpack zeroUninit 0 mqtt_packet.zero [0xA3] 1 = some r ∧
        r.rc = INCORRECT_FLAGS) :=
  ⟨unpack_incorrect_flags _ _ _ _ _ (Or.inl ⟨by decide, by decide⟩),
   unpack_incorrect_flags _ _ _ _ _ (Or.inr ⟨Or.inl (by decide), by decide⟩),
   unpack_incorrect_flags _ _ _ _ _ (Or.inr ⟨Or.inr (by decide), by decide⟩)⟩

/-- C13: for every buffer whose first byte is `0x20` and whose decoded Remaining Length
is not 2, `unpack` returns `MALFORMED_PACKET`. -/
theorem unpack_connack_bad_length (u : Uninit) (fuel : Nat) (packet : mqtt_packet)
    (mem : List Nat) (buf_size : Nat) (h0 : readByte mem 0 = 0x20)
    (hl : (decode_remaining_length mem { pos := 1, acc := 1, reads := [0] }).1 ≠ 2) :
    ∃ r, unpack u fuel packet mem buf_size = some r ∧ r.rc = MALFORMED_PACKET := by
  rw [unpack_connack_type u fuel packet mem buf_size (by rw [h0]; decide),
    if_neg (by rw [h0]; decide), if_pos (by simpa only [hdrPacket] using hl)]
  exact ⟨_, rfl, rfl⟩

/-- Instance of C13: a CONNACK header announcing three bytes. -/
theorem unpack_connack_bad_length_witness :
    ∃ r, unpack zeroUninit 0 mqtt_packet.zero [0x20, 3, 0, 0, 0] 5 = some r ∧
      r.rc = MALFORMED_PACKET :=
  unpack_connack_bad_length _ _ _ _ _ (by decide) (by decide)

/-! ## The primitive readers at an arbitrary size limit -/

theorem unpack_uint8_ok (mem : List Nat) (n : Nat) (c : Cursor) (h0 : 0 ≤ c.acc)
    (h : c.acc + 1 ≤ (n : Int)) (hn : n < 2 ^ 31) :
    unpack_uint8 mem n c =
      ((readByte mem c.pos : Int),
        { pos := c.pos + 1, acc := c.acc + 1, reads := c.reads ++ [c.pos] }) := by
  unfold unpack_uint8
  rw [to_size_of_nonneg _ (by omega) (by omega), if_neg (by omega)]

theorem unpack_uint8_fail (mem : List Nat) (n : Nat) (c : Cursor) (h0 : 0 ≤ c.acc)
    (h : (n : Int) < c.acc + 1) (hb : c.acc < 2 ^ 31) : unpack_uint8 mem n c = (-1, c) := by
  unfold unpack_uint8
  rw [to_size_of_nonneg _ (by omega) (by omega), if_pos (by omega)]

theorem unpack_uint16_ok (mem : List Nat) (n : Nat) (c : Cursor) (h0 : 0 ≤ c.acc)
    (h : c.acc + 2 ≤ (n : Int)) (hn : n < 2 ^ 31) :
    unpack_uint16 mem n c =
      (((readByte mem c.pos * 256 + readByte mem (c.pos + 1) : Nat) : Int),
        { pos := c.pos + 2, acc := c.acc + 2, reads := c.reads ++ [c.pos, c.pos + 1] }) := by
  unfold unpack_uint16
  rw [to_size_of_nonneg _ (by omega) (by omega), if_neg (by omega)]

theorem unpack_uint16_fail (mem : List Nat) (n : Nat) (c : Cursor) (h0 : 0 ≤ c.acc)
    (h : (n : Int) < c.acc + 2) (hb : c.acc < 2 ^ 31) : unpack_uint16 mem n c = (-1, c) := by
  unfold unpack_uint16
  rw [to_size_of_nonneg _ (by omega) (by omega), if_pos (by omega)]

theorem unpack_str_ok (mem : List Nat) (str : CStr) (len n : Nat) (c : Cursor)
    (h : c.acc + ((len % 65536 : Nat) : Int) ≤ (n : Int)) (hn : n < 2 ^ 31) :
    unpack_str mem str len n c =
      (0, some (memRead mem c.pos (len % 65536) ++ [0]),
        { pos := c.pos + len % 65536, acc := c.acc + ((len % 65536 : Nat) : Int),
          reads := c.reads ++ List.range' c.pos (len % 65536) }) := by
  unfold unpack_str
  simp only
  rw [to_int_of_lt _ hn, if_neg (by omega)]

theorem unpack_str_fail (mem : List Nat) (str : CStr) (len n : Nat) (c : Cursor)
    (h : (n : Int) < c.acc + ((len % 65536 : Nat) : Int)) (hn : n < 2 ^ 31) :
    unpack_str mem str len n c = (OUT_OF_BOUNDS, str, c) := by
  unfold unpack_str
  simp only
  rw [to_int_of_lt _ hn, if_pos (by omega)]

theorem int_and_natCast (a m : Nat) (h : a < 2 ^ 32) :
    int_and (a : Int) m = ((a &&& m : Nat) : Int) := by
  unfold int_and
  have : ((a : Int) % 2 ^ 32).toNat = a := by omega
  rw [this]


theorem u16_cast (k : Nat) : u16 ((k : Nat) : Int) = k % 65536 := by
  unfold u16
  omega

theorem u8_cast (k : Nat) : u8 ((k : Nat) : Int) = k % 256 := by
  unfold u8
  omega

theorem int_and_one_cast (a : Nat) : int_and (a : Int) 1 = ((a &&& 1 : Nat) : Int) := by
  unfold int_and
  have h : ((a : Int) % 2 ^ 32).toNat = a % 2 ^ 32 := by omega
  rw [h, Nat.and_one_is_mod, Nat.and_one_is_mod]
  congr 1
  omega

/-- The connect-flags check of `unpack_connect` at a cursor that stands at index `H`: when
the protocol name (of length `L`), the protocol level and the flags byte lie within the
size passed and bit 0 of the flags byte is set, the result is `MALFORMED_PACKET`. -/
theorem unpack_connect_flag_bit (conn : mqtt_connect) (mem : List Nat) (n : Nat) (c : Cursor)
    (L : Nat) (hacc : c.acc = (c.pos : Int)) (hn : n < 2 ^ 31)
    (hL : be16 mem c.pos % 65536 = L) (hfit : c.pos + 2 + L + 2 ≤ n)
    (hbit : readByte mem (c.pos + 2 + L + 1) &&& 1 = 1) :
    (unpack_connect conn mem n c).rc = MALFORMED_PACKET := by
  unfold be16 at hL
  have e1 := unpack_uint16_ok mem n c (by omega) (by omega) hn
  have e2 := unpack_str_ok mem conn.protocol_name.name L n
    { pos := c.pos + 2, acc := c.acc + 2, reads := c.reads ++ [c.pos, c.pos + 1] }
    (by simp only; omega) hn
  have hLm : L % 65536 = L := by omega
  rw [hLm] at e2
  have e3 := unpack_uint8_ok mem n
    { pos := c.pos + 2 + L, acc := c.acc + 2 + (L : Int),
      reads := c.reads ++ [c.pos, c.pos + 1] ++ List.range' (c.pos + 2) L }
    (by simp only; omega) (by simp only; omega) hn
  have e4 := unpack_uint8_ok mem n
    { pos := c.pos + 2 + L + 1, acc := c.acc + 2 + (L : Int) + 1,
      reads := c.reads ++ [c.pos, c.pos + 1] ++ List.range' (c.pos + 2) L ++ [c.pos + 2 + L] }
    (by simp only; omega) (by simp only; omega) hn
  have hia : int_and ((readByte mem (c.pos + 2 + L + 1) : Nat) : Int) 1 = 1 := by
    rw [int_and_one_cast, hbit]; rfl
  simp only [unpack_connect, mqtt_connect.set_protocol_name_len,
    mqtt_connect.set_protocol_name_name, mqtt_connect.set_protocol_level,
    e1, u16_cast, hL, e2, e3, e4, hia, natCast_not_neg,
    ne_eq, not_true_eq_false, not_false_eq_true, if_false, if_true]


/-- C15: for every CONNECT buffer that holds a complete protocol name (of the length `L`
announced at the index `H` where the fixed header ends), protocol level and connect-flags
byte within the size passed (below `2 ^ 31`), if bit 0 of the connect-flags byte is set
then `unpack` returns `MALFORMED_PACKET`. -/
theorem unpack_connect_reserved_flag (u : Uninit) (fuel : Nat) (packet : mqtt_packet)
    (mem : List Nat) (buf_size H L : Nat)
    (ht : readByte mem 0 &&& TYPE_MASK = CONNECT_TYPE) (hn : buf_size < 2 ^ 31)
    (hH : (hdrCursor mem).pos = H) (hL : be16 mem H % 65536 = L)
    (hfit : H + 2 + L + 2 ≤ buf_size) (hbit : readByte mem (H + 2 + L + 1) &&& 1 = 1) :
    ∃ r, unpack u fuel packet mem buf_size = some r ∧ r.rc = MALFORMED_PACKET := by
  rw [unpack_connect_type u fuel packet mem buf_size ht]
  subst hH
  exact ⟨_, rfl,
    unpack_connect_flag_bit _ mem buf_size _ L (hdrCursor_acc mem).1 hn hL hfit hbit⟩

/-- Instance of C15: a CONNECT with protocol name `MQTT`, level 4 and connect flags `0x03`. -/
theorem unpack_connect_reserved_flag_witness :
    ∃ r, unpack zeroUninit 0 mqtt_packet.zero
        [0x10, 13, 0, 4, 77, 81, 84, 84, 4, 3, 0, 60, 0, 1, 97] 15 = some r ∧
      r.rc = MALFORMED_PACKET :=
  unpack_connect_reserved_flag _ _ _ _ 15 2 4 (by decide) (by decide) (by decide) (by decide)
    (by decide) (by decide)


/-- The packet identifier check of `unpack_publish` at a cursor that stands at index `H`: a
non-zero QoS, a complete topic (of length `L`) and a packet identifier 0 within the size
passed give `PACKET_ID_NOT_ALLOWED`. -/
theorem unpack_publish_zero_id (publish : mqtt_publish) (header : mqtt_header)
    (mem : List Nat) (n : Nat) (c : Cursor) (L : Nat) (hacc : c.acc = (c.pos : Int))
    (hn : n < 2 ^ 31) (hq : header.fixed_header &&& PUBLISH_QOS_FLAG_MASK ≠ PUBLISH_QOS_0)
    (hL : be16 mem c.pos % 65536 = L) (hfit : c.pos + 2 + L + 2 ≤ n)
    (hid : be16 mem (c.pos + 2 + L) = 0) :
    (unpack_publish publish header mem n c).rc = PACKET_ID_NOT_ALLOWED := by
  unfold be16 at hL hid
  have e1 := unpack_uint16_ok mem n c (by omega) (by omega) hn
  have e2 := unpack_str_ok mem publish.topic L n
    { pos := c.pos + 2, acc := c.acc + 2, reads := c.reads ++ [c.pos, c.pos + 1] }
    (by simp only; omega) hn
  have hLm : L % 65536 = L := by omega
  rw [hLm] at e2
  have e3 := unpack_uint16_ok mem n
    { pos := c.pos + 2 + L, acc := c.acc + 2 + (L : Int),
      reads := c.reads ++ [c.pos, c.pos + 1] ++ List.range' (c.pos + 2) L }
    (by simp only; omega) (by simp only; omega) hn
  simp only [hid] at e3
  simp only [unpack_publish, e1, u16_cast, hL, e2, e3, hq, natCast_not_neg,
    Nat.cast_zero, ne_eq, not_true_eq_false, not_false_eq_true, if_false, if_true]

/-- C16: for every PUBLISH buffer whose header flags select QoS 1 and which holds, within
the size passed (below `2 ^ 31`), a complete topic (of the length `L` announced at the
index `H` where the fixed header ends) followed by a two-byte packet identifier equal to
0, `unpack` returns `PACKET_ID_NOT_ALLOWED`. -/
theorem unpack_publish_packet_id_zero (u : Uninit) (fuel : Nat) (packet : mqtt_packet)
    (mem : List Nat) (buf_size H L : Nat)
    (ht : readByte mem 0 &&& TYPE_MASK = PUBLISH_TYPE)
    (hq : readByte mem 0 &&& PUBLISH_QOS_FLAG_MASK = PUBLISH_QOS_1)
    (hn : buf_size < 2 ^ 31)
    (hH : (hdrCursor mem).pos = H) (hL : be16 mem H % 65536 = L)
    (hfit : H + 2 + L + 2 ≤ buf_size) (hid : be16 mem (H + 2 + L) = 0) :
    ∃ r, unpack u fuel packet mem buf_size = some r ∧ r.rc = PACKET_ID_NOT_ALLOWED := by
  rw [unpack_publish_type u fuel packet mem buf_size ht]
  subst hH
  refine ⟨_, rfl, unpack_publish_zero_id _ _ mem buf_size _ L (hdrCursor_acc mem).1 hn ?_ hL
    hfit hid⟩
  show readByte mem 0 &&& PUBLISH_QOS_FLAG_MASK ≠ PUBLISH_QOS_0
  rw [hq]
  decide

/-- Instance of C16: a QoS 1 PUBLISH of topic `a` with packet identifier 0. -/
theorem unpack_publish_packet_id_zero_witness :
    ∃ r, unpack zeroUninit 0 mqtt_packet.zero [0x32, 6, 0, 1, 97, 0, 0, 120] 8 = some r ∧
      r.rc = PACKET_ID_NOT_ALLOWED :=
  unpack_publish_packet_id_zero _ _ _ _ 8 2 1 (by decide) (by decide) (by decide) (by decide)
    (by decide) (by decide) (by decide)

/-- The length check of `unpack_publish` at a cursor that stands at index `H`: with the
topic and, for a non-zero QoS, a non-zero packet identifier within the size passed, a
Remaining Length below the size of the variable header gives `MALFORMED_PACKET`. -/
theorem unpack_publish_short_length (publish : mqtt_publish) (header : mqtt_header)
    (mem : List Nat) (n : Nat) (c : Cursor) (L : Nat) (hacc : c.acc = (c.pos : Int))
    (hn : n < 2 ^ 31) (hL : be16 mem c.pos % 65536 = L)
    (hfit : c.pos + 2 + L +
      (if header.fixed_header &&& PUBLISH_QOS_FLAG_MASK ≠ PUBLISH_QOS_0 then 2 else 0) ≤ n)
    (hid : header.fixed_header &&& PUBLISH_QOS_FLAG_MASK ≠ PUBLISH_QOS_0 →
      be16 mem (c.pos + 2 + L) ≠ 0)
    (hrl : header.remaining_length < 2 + L +
      (if header.fixed_header &&& PUBLISH_QOS_FLAG_MASK ≠ PUBLISH_QOS_0 then 2 else 0)) :
    (unpack_publish publish header mem n c).rc = MALFORMED_PACKET := by
  unfold be16 at hL
  have e1 := unpack_uint16_ok mem n c (by omega) (by omega) hn
  have hLm : L % 65536 = L := by omega
  by_cases hq : header.fixed_header &&& PUBLISH_QOS_FLAG_MASK ≠ PUBLISH_QOS_0
  · rw [if_pos hq] at hfit hrl
    have hid1 := hid hq
    unfold be16 at hid1
    have e2 := unpack_str_ok mem publish.topic L n
      { pos := c.pos + 2, acc := c.acc + 2, reads := c.reads ++ [c.pos, c.pos + 1] }
      (by simp only; omega) hn
    rw [hLm] at e2
    have e3 := unpack_uint16_ok mem n
      { pos := c.pos + 2 + L, acc := c.acc + 2 + (L : Int),
        reads := c.reads ++ [c.pos, c.pos + 1] ++ List.range' (c.pos + 2) L }
      (by simp only; omega) (by simp only; omega) hn
    have hne : ¬ (((readByte mem (c.pos + 2 + L) * 256 +
        readByte mem (c.pos + 2 + L + 1) : Nat) : Int) = 0) := by exact_mod_cast hid1
    have hgt : (0 : Int) + 2 + ((L : Nat) : Int) + 2 > to_int header.remaining_length := by
      rw [to_int_of_lt _ (by omega)]; omega
    simp only [unpack_publish, unpack_publish_payload, e1, u16_cast, hL, e2, e3, hq, hne,
      hgt, natCast_not_neg, ne_eq, not_true_eq_false, not_false_eq_true, if_false, if_true]
  · rw [if_neg hq] at hfit hrl
    have e2 := unpack_str_ok mem publish.topic L n
      { pos := c.pos + 2, acc := c.acc + 2, reads := c.reads ++ [c.pos, c.pos + 1] }
      (by simp only; omega) hn
    rw [hLm] at e2
    have hgt : (0 : Int) + 2 + ((L : Nat) : Int) > to_int header.remaining_length := by
      rw [to_int_of_lt _ (by omega)]; omega
    simp only [unpack_publish, unpack_publish_payload, e1, u16_cast, hL, e2, hq,
      hgt, natCast_not_neg, ne_eq, not_true_eq_false, not_false_eq_true, if_false, if_true]


/-- C17: for every PUBLISH buffer which holds, within the size passed (below `2 ^ 31`), the
topic (of the length `L` announced at the index `H` where the fixed header ends) and, when
the QoS bits are not zero, a non-zero packet identifier, but whose decoded Remaining
Length is smaller than the size of the variable header (`2 + L`, plus 2 when the QoS bits
are not zero), `unpack` returns `MALFORMED_PACKET`. -/
theorem unpack_publish_length_too_small (u : Uninit) (fuel : Nat) (packet : mqtt_packet)
    (mem : List Nat) (buf_size H L : Nat)
    (ht : readByte mem 0 &&& TYPE_MASK = PUBLISH_TYPE) (hn : buf_size < 2 ^ 31)
    (hH : (hdrCursor mem).pos = H) (hL : be16 mem H % 65536 = L)
    (hfit : H + 2 + L +
      (if readByte mem 0 &&& PUBLISH_QOS_FLAG_MASK ≠ PUBLISH_QOS_0 then 2 else 0) ≤ buf_size)
    (hid : readByte mem 0 &&& PUBLISH_QOS_FLAG_MASK ≠ PUBLISH_QOS_0 →
      be16 mem (H + 2 + L) ≠ 0)
    (hrl : (decode_remaining_length mem { pos := 1, acc := 1, reads := [0] }).1 < 2 + L +
      (if readByte mem 0 &&& PUBLISH_QOS_FLAG_MASK ≠ PUBLISH_QOS_0 then 2 else 0)) :
    ∃ r, unpack u fuel packet mem buf_size = some r ∧ r.rc = MALFORMED_PACKET := by
  rw [unpack_publish_type u fuel packet mem buf_size ht]
  subst hH
  exact ⟨_, rfl, unpack_publish_short_length _ _ mem buf_size _ L (hdrCursor_acc mem).1 hn hL
    hfit hid hrl⟩

/-- Instances of C17: a QoS 0 PUBLISH of topic `a` announcing two bytes, and a QoS 1 PUBLISH
of topic `a` with packet identifier 7 announcing four bytes. -/
theorem unpack_publish_length_too_small_witness :
    (∃ r, unpack zeroUninit 0 mqtt_packet.zero [0x30, 2, 0, 1, 97, 120] 6 = some r ∧
      r.rc = MALFORMED_PACKET) ∧
    (∃ r, unpack zeroUninit 0 mqtt_packet.zero [0x32, 4, 0, 1, 97, 0, 7, 120] 8 = some r ∧
      r.rc = MALFORMED_PACKET) :=
  ⟨unpack_publish_length_too_small _ _ _ _ 6 2 1 (by decide) (by decide) (by decide)
      (by decide) (by decide) (by decide) (by decide),
   unpack_publish_length_too_small _ _ _ _ 8 2 1 (by decide) (by decide) (by decide)
      (by decide) (by decide) (by decide) (by decide)⟩

/-- The tuple loop of `unpack_subscribe` ends at once when the cursor has reached the size
passed. -/
theorem subscribe_loop_exit (u : Uninit) (mem : List Nat) (n : Nat) (g : Bool) (fuel : Nat)
    (tuples : List subscribe_tuples) (i : Nat) (c : Cursor) (h : ¬ c.acc < to_int n) :
    unpack_subscribe_loop u mem n g (fuel + 1) tuples i c = some (tuples, i, c) := by
  rw [unpack_subscribe_loop, if_neg h]

/-- C function `unpack_subscribe` on a buffer that ends right after the packet identifier:
the result is `MALFORMED_PACKET`. -/
theorem unpack_subscribe_only_id (u : Uninit) (fuel : Nat) (s : mqtt_subscribe)
    (mem : List Nat) (n : Nat) (c : Cursor) (hacc : c.acc = (c.pos : Int)) (hn : n < 2 ^ 31)
    (hsize : n = c.pos + 2) (hfuel : 0 < fuel) :
    ∃ r, unpack_subscribe u fuel s mem n c = some r ∧ r.rc = MALFORMED_PACKET := by
  obtain ⟨f, hf⟩ : ∃ f, fuel = f + 1 := ⟨fuel - 1, by omega⟩
  have e1 := unpack_uint16_ok mem n c (by omega) (by omega) hn
  have hcond : ¬ ((Cursor.mk (c.pos + 2) (c.acc + 2) (c.reads ++ [c.pos, c.pos + 1])).acc <
      to_int n) := by
    rw [to_int_of_lt _ hn]; simp only; omega
  have hx := subscribe_loop_exit u mem n
    (decide (((readByte mem c.pos * 256 + readByte mem (c.pos + 1) : Nat) : Int) ≤ 0)) f
    s.tuples 0 (Cursor.mk (c.pos + 2) (c.acc + 2) (c.reads ++ [c.pos, c.pos + 1])) hcond
  rw [← hf] at hx
  simp only [unpack_subscribe, e1, hx, Nat.zero_mod, if_true]
  exact ⟨_, rfl, rfl⟩

/-- C20: for every buffer with SUBSCRIBE type and flags `0x02` whose bytes after the fixed
header are a two-byte packet identifier and nothing else (the size passed ends right after
it), `unpack` returns `MALFORMED_PACKET`, whatever positive bound the tuple loop is given (the
loop does not run). -/
theorem unpack_subscribe_no_tuples (u : Uninit) (fuel : Nat) (packet : mqtt_packet)
    (mem : List Nat) (buf_size : Nat)
    (ht : readByte mem 0 &&& TYPE_MASK = SUBSCRIBE_TYPE)
    (hf : readByte mem 0 &&& FLAG_MASK = 0x02)
    (hsize : buf_size = (hdrCursor mem).pos + 2) (hfuel : 0 < fuel) :
    ∃ r, unpack u fuel packet mem buf_size = some r ∧ r.rc = MALFORMED_PACKET := by
  have hb := (hdrCursor_acc mem).2.2
  obtain ⟨r, hr, hrc⟩ := unpack_subscribe_only_id u fuel packet.subscribe mem buf_size
    (hdrCursor mem) (hdrCursor_acc mem).1 (by omega) hsize hfuel
  rw [unpack_subscribe_type u fuel packet mem buf_size ht,
    if_neg (by rw [hf]; decide), hr]
  exact ⟨_, rfl, hrc⟩

/-- Instance of C20: a SUBSCRIBE that holds the packet identifier 1 and nothing else. -/
theorem unpack_subscribe_no_tuples_witness :
    ∃ r, unpack zeroUninit 1 mqtt_packet.zero [0x82, 2, 0, 1] 4 = some r ∧
      r.rc = MALFORMED_PACKET :=
  unpack_subscribe_no_tuples _ 1 _ _ 4 (by decide) (by decide) (by decide) (by decide)

/-- A Remaining Length of one byte `e`: the header steps of `unpack` decode it and stop
at index 2. -/
theorem decode_one_byte (hb e : Nat) (rest : List Nat) (h : e &&& 128 = 0) :
    decode_remaining_length (hb :: e :: rest) { pos := 1, acc := 1, reads := [0] } =
      (e &&& 127, { pos := 2, acc := 2, reads := [0, 1] }) := by
  rw [decode_remaining_length_eq]
  have hb1 : readByte (hb :: e :: rest) 1 = e := rfl
  simp only [hb1, h, if_true]
  rfl

/-- C14: for every CONNACK buffer `[0x20, 0x02, a, r]` passed with a size of at least 3
whose acknowledge-flags byte `a` has one of the bits 1 to 7 set, `unpack` returns
`MALFORMED_PACKET`; `rest` stands for the return code `r` and whatever follows it. -/
theorem unpack_connack_reserved_bits (u : Uninit) (fuel : Nat) (packet : mqtt_packet)
    (a : Nat) (rest : List Nat) (buf_size : Nat) (ha : a < 256) (hbits : a &&& 254 ≠ 0)
    (hsize : 3 ≤ buf_size) :
    ∃ r, unpack u fuel packet (0x20 :: 0x02 :: a :: rest) buf_size = some r ∧
      r.rc = MALFORMED_PACKET := by
  have hd := decode_one_byte 0x20 0x02 (a :: rest) (by decide)
  have h8 : unpack_uint8 (0x20 :: 0x02 :: a :: rest) buf_size
      { pos := 2, acc := 2, reads := [0, 1] } =
        ((a : Int), { pos := 3, acc := 3, reads := [0, 1, 2] }) := by
    unfold unpack_uint8
    rw [to_size_of_nonneg _ (by norm_num) (by norm_num), if_neg (by simp only; omega)]
    rfl
  have hand : int_and (a : Int) 254 ≠ 0 := by
    rw [int_and_natCast _ _ (by omega)]
    exact_mod_cast hbits
  rw [unpack_connack_type u fuel packet _ buf_size (by rw [readByte_cons_zero]; decide),
    if_neg (by rw [readByte_cons_zero]; decide)]
  have h2 : (2 &&& 127 : Nat) = 2 := by decide
  simp only [hdrPacket, hdrCursor, hd, h2, unpack_connack, h8, natCast_not_neg, if_false, hand,
    ne_eq, not_true_eq_false, not_false_eq_true, if_true]
  exact ⟨_, rfl, rfl⟩

/-- Instance of C14: acknowledge flags `0x02`. -/
theorem unpack_connack_reserved_bits_witness :
    ∃ r, unpack zeroUninit 0 mqtt_packet.zero [0x20, 0x02, 0x02, 0x00] 4 = some r ∧
      r.rc = MALFORMED_PACKET :=
  unpack_connack_reserved_bits _ _ _ 2 [0] 4 (by decide) (by decide) (by decide)

/-! ## PUBLISH -/

/-- The buffer `pack_publish` produces for a publish struct with a non-empty topic, whatever
the flags are: the packet identifier is always written between topic and payload. -/
theorem pack_publish_eq (P : mqtt_publish) (flags : Nat) (h0 : P.topic_len ≠ 0)
    (h1 : P.topic_len < 65536) (ht : P.topic ≠ none) (hid : P.pkt_id < 65536)
    (hp : P.payload_len < 65536) :
    pack_publish P flags =
      { buf := some ((PUBLISH_TYPE ||| flags % 256) % 256 ::
          ((encode_remaining_length (publish_wire P).length).2 ++ publish_wire P))
        buf_len := 1 + (encode_remaining_length (publish_wire P).length).2.length
          + (publish_wire P).length
        return_code := 0 } := by
  have s1 := pack16_holds _ [] P.topic_len FAILED_MEM_ALLOC holds_init
  have s2 := pack_str_holds _ _ P.topic P.topic_len FAILED_MEM_ALLOC s1
  have s3 := pack16_holds _ _ P.pkt_id FAILED_MEM_ALLOC s2
  have m1 : P.topic_len % 65536 = P.topic_len := Nat.mod_eq_of_lt h1
  have m2 : P.pkt_id % 65536 = P.pkt_id := Nat.mod_eq_of_lt hid
  have m3 : P.payload_len % 65536 = P.payload_len := Nat.mod_eq_of_lt hp
  by_cases hz : P.payload_len > 0
  · have s4 := pack_str_holds _ _ P.payload P.payload_len FAILED_MEM_ALLOC s3
    have s5 := holds_congr s4 (show _ = publish_wire P by
      simp [publish_wire, strBytes, m1, m2, m3])
    simp only [pack_publish, CHECK, h0, ht, hz, if_false, if_true, ne_eq, not_true_eq_false]
    rw [finalize_packet_holds _ _ _ s5, Nat.mod_mod]
  · have hz0 : P.payload_len = 0 := by omega
    have s5 := holds_congr s3 (show _ = publish_wire P by
      simp [publish_wire, strBytes, m1, m2, hz0, memRead])
    simp only [pack_publish, CHECK, h0, ht, hz, if_false, if_true, ne_eq, not_true_eq_false]
    rw [finalize_packet_holds _ _ _ s5, Nat.mod_mod]

/-- C19 fails. `pack_publish` writes the two-byte packet identifier after the topic for
every flags byte, also when its QoS bits are zero: for every publish struct with a
non-empty topic and every value of `flags`, the buffer is a fixed header followed by the
topic length, the topic, the two packet identifier bytes and only then the payload. -/
theorem pack_publish_packet_id_always (P : mqtt_publish) (flags : Nat)
    (h0 : P.topic_len ≠ 0) (h1 : P.topic_len < 65536) (ht : P.topic ≠ none)
    (hid : P.pkt_id < 65536) (hp : P.payload_len < 65536) :
    ∃ hdr, (pack_publish P flags).buf =
        some (hdr ++ [P.topic_len / 256, P.topic_len % 256] ++ strBytes P.topic P.topic_len ++
          [P.pkt_id / 256, P.pkt_id % 256] ++ strBytes P.payload P.payload_len) ∧
      (pack_publish P flags).return_code = 0 := by
  rw [pack_publish_eq P flags h0 h1 ht hid hp]
  refine ⟨(PUBLISH_TYPE ||| flags % 256) % 256 ::
    (encode_remaining_length (publish_wire P).length).2, ?_, rfl⟩
  simp [publish_wire]

/-- Instance of the above at QoS 0: after the topic `a` come the identifier bytes `0, 0`,
and the payload `x` only after them. -/
theorem pack_publish_packet_id_always_witness :
    ∃ hdr, (pack_publish pubSmall 0).buf =
        some (hdr ++ [0, 1] ++ [97] ++ [0, 0] ++ [120]) ∧
      (pack_publish pubSmall 0).return_code = 0 :=
  pack_publish_packet_id_always pubSmall 0 (by decide) (by decide) (by decide) (by decide)
    (by decide)

/-- C18 fails. `unpack_publish` stores `payload_len = remaining_length - variable header
size` but hands it to `unpack_str`, whose length parameter is a `uint16_t`: of a PUBLISH
that announces a payload of 65536 bytes (Remaining Length 65539, topic `a`) `unpack`
returns `MQTT_PUBLISH` with `payload_len = 65536` and an empty payload, and of one that
announces 65537 bytes it returns `payload_len = 65537` and the one-byte payload `x`. -/
theorem unpack_publish_payload_narrowed :
    (unpack zeroUninit 0 mqtt_packet.zero [0x30, 0x83, 0x80, 0x04, 0, 1, 97] 7).map
        (fun r => (r.rc, r.val.header.remaining_length, r.val.publish.topic_len,
          r.val.publish.payload_len, r.val.publish.payload))
      = some (MQTT_PUBLISH, 65539, 1, 65536, some [0]) ∧
    (unpack zeroUninit 0 mqtt_packet.zero [0x30, 0x84, 0x80, 0x04, 0, 1, 97, 120, 121] 9).map
        (fun r => (r.rc, r.val.header.remaining_length, r.val.publish.topic_len,
          r.val.publish.payload_len, r.val.publish.payload))
      = some (MQTT_PUBLISH, 65540, 1, 65537, some [120, 0]) := by
  constructor <;> decide

/-! ## Reads that extend past the size passed -/

/-- A byte read under the limits `N ≤ M`: under `N` it either fails, the byte extending
past `N`, or it gives what it gives under `M` and stays within `N`. -/
theorem unpack_uint8_lock (mem : List Nat) (N M : Nat) (c : Cursor) (h0 : 0 ≤ c.acc)
    (hN : c.acc ≤ (N : Int)) (hNM : N ≤ M) (hM : M < 2 ^ 31) :
    ((N : Int) < c.acc + 1 ∧ unpack_uint8 mem N c = (-1, c)) ∨
    (unpack_uint8 mem N c = unpack_uint8 mem M c ∧ 0 ≤ (unpack_uint8 mem M c).1 ∧
      (unpack_uint8 mem M c).2.acc = c.acc + 1 ∧ (unpack_uint8 mem M c).2.acc ≤ (N : Int)) := by
  by_cases h : c.acc + 1 ≤ (N : Int)
  · right
    rw [unpack_uint8_ok mem N c h0 h (by omega), unpack_uint8_ok mem M c h0 (by omega) hM]
    exact ⟨rfl, by simp only; omega, rfl, h⟩
  · left
    exact ⟨by omega, unpack_uint8_fail mem N c h0 (by omega) (by omega)⟩

/-- A 16-bit read under the limits `N ≤ M`, as for `unpack_uint8_lock`. -/
theorem unpack_uint16_lock (mem : List Nat) (N M : Nat) (c : Cursor) (h0 : 0 ≤ c.acc)
    (hN : c.acc ≤ (N : Int)) (hNM : N ≤ M) (hM : M < 2 ^ 31) :
    ((N : Int) < c.acc + 2 ∧ unpack_uint16 mem N c = (-1, c)) ∨
    (unpack_uint16 mem N c = unpack_uint16 mem M c ∧
      (unpack_uint16 mem M c).1 = ((be16 mem c.pos : Nat) : Int) ∧
      (unpack_uint16 mem M c).2.acc = c.acc + 2 ∧
      (unpack_uint16 mem M c).2.acc ≤ (N : Int)) := by
  by_cases h : c.acc + 2 ≤ (N : Int)
  · right
    rw [unpack_uint16_ok mem N c h0 h (by omega), unpack_uint16_ok mem M c h0 (by omega) hM]
    exact ⟨rfl, rfl, rfl, h⟩
  · left
    exact ⟨by omega, unpack_uint16_fail mem N c h0 (by omega) (by omega)⟩

/-- A string read under the limits `N ≤ M`, as for `unpack_uint8_lock`. -/
theorem unpack_str_lock (mem : List Nat) (str : CStr) (len N M : Nat) (c : Cursor)
    (hNM : N ≤ M) (hM : M < 2 ^ 31) :
    ((N : Int) < c.acc + ((len % 65536 : Nat) : Int) ∧
      unpack_str mem str len N c = (OUT_OF_BOUNDS, str, c)) ∨
    (unpack_str mem str len N c = unpack_str mem str len M c ∧
      (unpack_str mem str len M c).1 = 0 ∧
      (unpack_str mem str len M c).2.2.acc = c.acc + ((len % 65536 : Nat) : Int) ∧
      (unpack_str mem str len M c).2.2.acc ≤ (N : Int)) := by
  by_cases h : c.acc + ((len % 65536 : Nat) : Int) ≤ (N : Int)
  · right
    rw [unpack_str_ok mem str len N c h (by omega),
      unpack_str_ok mem str len M c (by omega) hM]
    exact ⟨rfl, rfl, rfl, h⟩
  · left
    exact ⟨by omega, unpack_str_fail mem str len N c (by omega) (by omega)⟩

theorem neg_one_lt_zero : ((-1 : Int) < 0) := by decide

theorem oob_ne_zero : OUT_OF_BOUNDS ≠ 0 := by decide

/-- C function `unpack_connack` under the limits `N ≤ M`: under `N` it either returns
`OUT_OF_BOUNDS` or does what it does under `M`, within the first `N` bytes. -/
theorem unpack_connack_lock (k : mqtt_connack) (mem : List Nat) (N M : Nat) (c : Cursor)
    (h0 : 0 ≤ c.acc) (hN : c.acc ≤ (N : Int)) (hNM : N ≤ M) (hM : M < 2 ^ 31) :
    (unpack_connack k mem N c).rc = OUT_OF_BOUNDS ∨
    (unpack_connack k mem N c = unpack_connack k mem M c ∧
      (unpack_connack k mem M c).cur.acc ≤ (N : Int)) := by
  unfold unpack_connack
  rcases unpack_uint8_lock mem N M c h0 hN hNM hM with ⟨-, e⟩ | ⟨e, v1, a1, b1⟩
  · left
    simp only [e, neg_one_lt_zero, if_true]
  · rw [e]
    generalize unpack_uint8 mem M c = r1 at v1 a1 b1 ⊢
    have v1n : ¬ (r1.1 < 0) := not_lt.mpr v1
    simp only [v1n, if_false]
    by_cases hm : int_and r1.1 254 = 0
    · simp only [hm, ne_eq, not_true_eq_false, if_false]
      rcases unpack_uint8_lock mem N M r1.2 (by omega) b1 hNM hM with
        ⟨-, e⟩ | ⟨e, v2, a2, b2⟩
      · left
        simp only [e, neg_one_lt_zero, if_true]
      · rw [e]
        generalize unpack_uint8 mem M r1.2 = r2 at v2 a2 b2 ⊢
        have v2n : ¬ (r2.1 < 0) := not_lt.mpr v2
        right
        simp only [v2n, if_false]
        exact ⟨trivial, b2⟩
    · right
      simp only [hm, ne_eq, not_false_eq_true, if_true]
      exact ⟨trivial, b1⟩

/-- The last part of `unpack_publish` under the limits `N ≤ M`, as for
`unpack_connack_lock`. -/
theorem unpack_publish_payload_lock (publish : mqtt_publish) (header : mqtt_header)
    (mem : List Nat) (N M : Nat) (vhs : Int) (c : Cursor) (hN : c.acc ≤ (N : Int))
    (hNM : N ≤ M) (hM : M < 2 ^ 31) :
    (unpack_publish_payload publish header mem N vhs c).rc = OUT_OF_BOUNDS ∨
    (unpack_publish_payload publish header mem N vhs c =
        unpack_publish_payload publish header mem M vhs c ∧
      (unpack_publish_payload publish header mem M vhs c).cur.acc ≤ (N : Int)) := by
  unfold unpack_publish_payload
  by_cases hv : vhs > to_int header.remaining_length
  · right
    simp only [hv, if_true]
    exact ⟨trivial, hN⟩
  · simp only [hv, if_false]
    rcases unpack_str_lock mem publish.payload
      (((header.remaining_length : Int) - vhs) % 2 ^ 32).toNat N M c hNM hM with
      ⟨-, e⟩ | ⟨e, v, -, b⟩
    · left
      simp only [e, oob_ne_zero, ne_eq, not_false_eq_true, if_true]
    · rw [e]
      generalize unpack_str mem publish.payload
        (((header.remaining_length : Int) - vhs) % 2 ^ 32).toNat M c = r at v b ⊢
      right
      simp only [v, ne_eq, not_true_eq_false, if_false]
      exact ⟨trivial, b⟩

/-- C function `unpack_publish` under the limits `N ≤ M`, as for `unpack_connack_lock`. -/
theorem unpack_publish_lock (publish : mqtt_publish) (header : mqtt_header)
    (mem : List Nat) (N M : Nat) (c : Cursor) (h0 : 0 ≤ c.acc) (hN : c.acc ≤ (N : Int))
    (hNM : N ≤ M) (hM : M < 2 ^ 31) :
    (unpack_publish publish header mem N c).rc = OUT_OF_BOUNDS ∨
    (unpack_publish publish header mem N c = unpack_publish publish header mem M c ∧
      (unpack_publish publish header mem M c).cur.acc ≤ (N : Int)) := by
  unfold unpack_publish
  rcases unpack_uint16_lock mem N M c h0 hN hNM hM with ⟨-, e⟩ | ⟨e, v1, a1, b1⟩
  · left
    simp only [e, neg_one_lt_zero, if_true]
  · rw [e]
    generalize unpack_uint16 mem M c = r1 at v1 a1 b1 ⊢
    have v1n : ¬ (r1.1 < 0) := by rw [v1]; exact natCast_not_neg _
    simp only [v1n, if_false]
    rcases unpack_str_lock mem publish.topic (u16 r1.1) N M r1.2 hNM hM with
      ⟨-, e⟩ | ⟨e, v2, a2, b2⟩
    · left
      simp only [e, oob_ne_zero, ne_eq, not_false_eq_true, if_true]
    · rw [e]
      generalize unpack_str mem publish.topic (u16 r1.1) M r1.2 = r2 at v2 a2 b2 ⊢
      simp only [v2, ne_eq, not_true_eq_false, if_false]
      have h2 : 0 ≤ r2.2.2.acc := by omega
      by_cases hq : header.fixed_header &&& PUBLISH_QOS_FLAG_MASK = PUBLISH_QOS_0
      · simp only [hq, not_true_eq_false, if_false]
        exact unpack_publish_payload_lock _ header mem N M _ r2.2.2 b2 hNM hM
      · simp only [hq, not_false_eq_true, if_true]
        rcases unpack_uint16_lock mem N M r2.2.2 h2 b2 hNM hM with ⟨-, e⟩ | ⟨e, v3, a3, b3⟩
        · left
          have hne : ¬ ((-1 : Int) = 0) := by decide
          simp only [e, hne, neg_one_lt_zero, if_true, if_false]
        · rw [e]
          generalize unpack_uint16 mem M r2.2.2 = r3 at v3 a3 b3 ⊢
          by_cases hz : r3.1 = 0
          · right
            simp only [hz, if_true]
            exact ⟨trivial, b3⟩
          · have v3n : ¬ (r3.1 < 0) := by rw [v3]; exact natCast_not_neg _
            simp only [hz, v3n, if_false]
            exact unpack_publish_payload_lock _ header mem N M _ r3.2 b3 hNM hM

/-- A byte read under the limits `N ≤ M`, with the common outcome named. -/
theorem unpack_uint8_both (mem : List Nat) (N M : Nat) (c : Cursor) (h0 : 0 ≤ c.acc)
    (hN : c.acc ≤ (N : Int)) (hNM : N ≤ M) (hM : M < 2 ^ 31) :
    ((N : Int) < c.acc + 1 ∧ unpack_uint8 mem N c = (-1, c)) ∨
    ∃ (v : Nat) (c1 : Cursor), unpack_uint8 mem N c = ((v : Int), c1) ∧
      unpack_uint8 mem M c = ((v : Int), c1) ∧ c1.acc = c.acc + 1 ∧ c1.acc ≤ (N : Int) := by
  by_cases h : c.acc + 1 ≤ (N : Int)
  · right
    exact ⟨_, _, unpack_uint8_ok mem N c h0 h (by omega),
      unpack_uint8_ok mem M c h0 (by omega) hM, rfl, h⟩
  · left
    exact ⟨by omega, unpack_uint8_fail mem N c h0 (by omega) (by omega)⟩

/-- A 16-bit read under the limits `N ≤ M`, with the common outcome named. -/
theorem unpack_uint16_both (mem : List Nat) (N M : Nat) (c : Cursor) (h0 : 0 ≤ c.acc)
    (hN : c.acc ≤ (N : Int)) (hNM : N ≤ M) (hM : M < 2 ^ 31) :
    ((N : Int) < c.acc + 2 ∧ unpack_uint16 mem N c = (-1, c)) ∨
    ∃ (v : Nat) (c1 : Cursor), unpack_uint16 mem N c = ((v : Int), c1) ∧
      unpack_uint16 mem M c = ((v : Int), c1) ∧ v = be16 mem c.pos ∧
      c1.acc = c.acc + 2 ∧ c1.acc ≤ (N : Int) := by
  by_cases h : c.acc + 2 ≤ (N : Int)
  · right
    exact ⟨_, _, unpack_uint16_ok mem N c h0 h (by omega),
      unpack_uint16_ok mem M c h0 (by omega) hM, rfl, rfl, h⟩
  · left
    exact ⟨by omega, unpack_uint16_fail mem N c h0 (by omega) (by omega)⟩

/-- A string read under the limits `N ≤ M`, with the common outcome named. -/
theorem unpack_str_both (mem : List Nat) (str : CStr) (len N M : Nat) (c : Cursor)
    (hNM : N ≤ M) (hM : M < 2 ^ 31) :
    ((N : Int) < c.acc + ((len % 65536 : Nat) : Int) ∧
      unpack_str mem str len N c = (OUT_OF_BOUNDS, str, c)) ∨
    ∃ (s : CStr) (c1 : Cursor), unpack_str mem str len N c = (0, s, c1) ∧
      unpack_str mem str len M c = (0, s, c1) ∧
      c1.acc = c.acc + ((len % 65536 : Nat) : Int) ∧ c1.acc ≤ (N : Int) := by
  by_cases h : c.acc + ((len % 65536 : Nat) : Int) ≤ (N : Int)
  · right
    exact ⟨_, _, unpack_str_ok mem str len N c h (by omega),
      unpack_str_ok mem str len M c (by omega) hM, rfl, h⟩
  · left
    exact ⟨by omega, unpack_str_fail mem str len N c (by omega) (by omega)⟩

/-- The read of a will field, skipped when its length is zero, under the limits `N ≤ M`. -/
theorem unpack_str_opt_both (mem : List Nat) (str : CStr) (len N M : Nat) (c : Cursor)
    (h0 : 0 ≤ c.acc) (hN : c.acc ≤ (N : Int)) (hNM : N ≤ M) (hM : M < 2 ^ 31) :
    (if len ≠ 0 then unpack_str mem str len N c else (0, str, c)) = (OUT_OF_BOUNDS, str, c) ∨
    ∃ (s : CStr) (c1 : Cursor),
      (if len ≠ 0 then unpack_str mem str len N c else (0, str, c)) = (0, s, c1) ∧
      (if len ≠ 0 then unpack_str mem str len M c else (0, str, c)) = (0, s, c1) ∧
      0 ≤ c1.acc ∧ c1.acc ≤ (N : Int) := by
  by_cases hl : len = 0
  · right
    refine ⟨str, c, ?_, ?_, h0, hN⟩ <;> simp only [hl, ne_eq, not_true_eq_false, if_false]
  · simp only [hl, ne_eq, not_false_eq_true, if_true]
    rcases unpack_str_both mem str len N M c hNM hM with ⟨-, e⟩ | ⟨s, c1, eN, eM, a, b⟩
    · exact Or.inl e
    · exact Or.inr ⟨s, c1, eN, eM, by omega, b⟩

/-- C function `unpack_connect` under the limits `N ≤ M`, as for `unpack_connack_lock`, when
`N` is not the offset of the connect-flags byte. -/
theorem unpack_connect_lock (conn : mqtt_connect) (mem : List Nat) (N M : Nat) (c : Cursor)
    (h0 : 0 ≤ c.acc) (hN : c.acc ≤ (N : Int)) (hNM : N ≤ M) (hM : M < 2 ^ 31)
    (hex : (N : Int) ≠ c.acc + 2 + ((be16 mem c.pos % 65536 : Nat) : Int) + 1) :
    (unpack_connect conn mem N c).rc = OUT_OF_BOUNDS ∨
    (unpack_connect conn mem N c = unpack_connect conn mem M c ∧
      (unpack_connect conn mem M c).cur.acc ≤ (N : Int)) := by
  have t1 : (OUT_OF_BOUNDS ≠ 0) = True := eq_true oob_ne_zero
  have t2 : ((0 : Int) ≠ 0) = False := eq_false (by decide)
  rcases unpack_uint16_both mem N M c h0 hN hNM hM with
    ⟨-, f1⟩ | ⟨v1, c1, eN1, eM1, hv1, a1, b1⟩
  · left
    simp only [unpack_connect, f1, neg_one_lt_zero, if_true]
  rcases unpack_str_both mem conn.protocol_name.name (u16 (v1 : Int)) N M c1 hNM hM with
    ⟨-, f2⟩ | ⟨s2, c2, eN2, eM2, a2, b2⟩
  · left
    simp only [unpack_connect, mqtt_connect.set_protocol_name_len,
      mqtt_connect.set_protocol_name_name, eN1, f2, natCast_not_neg, t1, if_true, if_false]
  rcases unpack_uint8_both mem N M c2 (by omega) b2 hNM hM with
    ⟨-, f3⟩ | ⟨v3, c3, eN3, eM3, a3, b3⟩
  · left
    simp only [unpack_connect, mqtt_connect.set_protocol_name_len,
      mqtt_connect.set_protocol_name_name, eN1, eN2, f3, natCast_not_neg, t2, neg_one_lt_zero,
      if_true, if_false]
  rcases unpack_uint8_both mem N M c3 (by omega) b3 hNM hM with
    ⟨f4, -⟩ | ⟨v4, c4, eN4, eM4, a4, b4⟩
  · exfalso
    rw [u16_cast, Nat.mod_mod, hv1] at a2
    omega
  by_cases hbit : int_and (v4 : Int) 1 = 1
  · right
    simp only [unpack_connect, mqtt_connect.set_protocol_name_len,
      mqtt_connect.set_protocol_name_name, mqtt_connect.set_protocol_level,
      mqtt_connect.set_connect_flags, mqtt_connect.set_keep_alive,
      mqtt_connect.set_client_id_len, mqtt_connect.set_client_id,
      mqtt_connect.set_will_topic_len, mqtt_connect.set_will_topic,
      mqtt_connect.set_will_message_len, mqtt_connect.set_will_message,
      natCast_not_neg, t1, t2, neg_one_lt_zero, if_true, if_false,
      eN1, eN2, eN3, eN4, eM1, eM2, eM3, eM4, hbit]
    exact ⟨trivial, b4⟩
  rcases unpack_uint16_both mem N M c4 (by omega) b4 hNM hM with
    ⟨-, f5⟩ | ⟨v5, c5, eN5, eM5, -, a5, b5⟩
  · left
    simp only [unpack_connect, mqtt_connect.set_protocol_name_len,
      mqtt_connect.set_protocol_name_name, mqtt_connect.set_protocol_level,
      mqtt_connect.set_connect_flags, mqtt_connect.set_keep_alive,
      mqtt_connect.set_client_id_len, mqtt_connect.set_client_id,
      mqtt_connect.set_will_topic_len, mqtt_connect.set_will_topic,
      mqtt_connect.set_will_message_len, mqtt_connect.set_will_message,
      natCast_not_neg, t1, t2, neg_one_lt_zero, if_true, if_false,
      eN1, eN2, eN3, eN4, hbit, f5]
  rcases unpack_uint16_both mem N M c5 (by omega) b5 hNM hM with
    ⟨-, f6⟩ | ⟨v6, c6, eN6, eM6, -, a6, b6⟩
  · left
    simp only [unpack_connect, mqtt_connect.set_protocol_name_len,
      mqtt_connect.set_protocol_name_name, mqtt_connect.set_protocol_level,
      mqtt_connect.set_connect_flags, mqtt_connect.set_keep_alive,
      mqtt_connect.set_client_id_len, mqtt_connect.set_client_id,
      mqtt_connect.set_will_topic_len, mqtt_connect.set_will_topic,
      mqtt_connect.set_will_message_len, mqtt_connect.set_will_message,
      natCast_not_neg, t1, t2, neg_one_lt_zero, if_true, if_false,
      eN1, eN2, eN3, eN4, eN5, hbit, f6]
  rcases unpack_str_both mem conn.payload.client_id (u16 (v6 : Int)) N M c6 hNM hM with
    ⟨-, f7⟩ | ⟨s7, c7, eN7, eM7, a7, b7⟩
  · left
    simp only [unpack_connect, mqtt_connect.set_protocol_name_len,
      mqtt_connect.set_protocol_name_name, mqtt_connect.set_protocol_level,
      mqtt_connect.set_connect_flags, mqtt_connect.set_keep_alive,
      mqtt_connect.set_client_id_len, mqtt_connect.set_client_id,
      mqtt_connect.set_will_topic_len, mqtt_connect.set_will_topic,
      mqtt_connect.set_will_message_len, mqtt_connect.set_will_message,
      natCast_not_neg, t1, t2, neg_one_lt_zero, if_true, if_false,
      eN1, eN2, eN3, eN4, eN5, eN6, hbit, f7]
  by_cases hflag : u8 (v4 : Int) &&& WILL_FLAG = WILL_FLAG
  swap
  · right
    simp only [unpack_connect, mqtt_connect.set_protocol_name_len,
      mqtt_connect.set_protocol_name_name, mqtt_connect.set_protocol_level,
      mqtt_connect.set_connect_flags, mqtt_connect.set_keep_alive,
      mqtt_connect.set_client_id_len, mqtt_connect.set_client_id,
      mqtt_connect.set_will_topic_len, mqtt_connect.set_will_topic,
      mqtt_connect.set_will_message_len, mqtt_connect.set_will_message,
      natCast_not_neg, t1, t2, neg_one_lt_zero, if_true, if_false,
      eN1, eN2, eN3, eN4, eN5, eN6, eN7, eM1, eM2, eM3, eM4, eM5, eM6, eM7, hbit, hflag]
    exact ⟨trivial, b7⟩
  rcases unpack_uint16_both mem N M c7 (by omega) b7 hNM hM with
    ⟨-, f8⟩ | ⟨v8, c8, eN8, eM8, -, a8, b8⟩
  · left
    simp only [unpack_connect, mqtt_connect.set_protocol_name_len,
      mqtt_connect.set_protocol_name_name, mqtt_connect.set_protocol_level,
      mqtt_connect.set_connect_flags, mqtt_connect.set_keep_alive,
      mqtt_connect.set_client_id_len, mqtt_connect.set_client_id,
      mqtt_connect.set_will_topic_len, mqtt_connect.set_will_topic,
      mqtt_connect.set_will_message_len, mqtt_connect.set_will_message,
      natCast_not_neg, t1, t2, neg_one_lt_zero, if_true, if_false,
      eN1, eN2, eN3, eN4, eN5, eN6, eN7, hbit, hflag, f8]
  rcases unpack_str_opt_both mem conn.payload.will_topic (u16 (v8 : Int)) N M c8 (by omega) b8
    hNM hM with f9 | ⟨s9, c9, eN9, eM9, a9, b9⟩
  · left
    simp only [unpack_connect, mqtt_connect.set_protocol_name_len,
      mqtt_connect.set_protocol_name_name, mqtt_connect.set_protocol_level,
      mqtt_connect.set_connect_flags, mqtt_connect.set_keep_alive,
      mqtt_connect.set_client_id_len, mqtt_connect.set_client_id,
      mqtt_connect.set_will_topic_len, mqtt_connect.set_will_topic,
      mqtt_connect.set_will_message_len, mqtt_connect.set_will_message,
      natCast_not_neg, t1, t2, neg_one_lt_zero, if_true, if_false,
      eN1, eN2, eN3, eN4, eN5, eN6, eN7, eN8, hbit, hflag, f9]
  rcases unpack_uint16_both mem N M c9 a9 b9 hNM hM with
    ⟨-, f10⟩ | ⟨v10, c10, eN10, eM10, -, a10, b10⟩
  · left
    simp only [unpack_connect, mqtt_connect.set_protocol_name_len,
      mqtt_connect.set_protocol_name_name, mqtt_connect.set_protocol_level,
      mqtt_connect.set_connect_flags, mqtt_connect.set_keep_alive,
      mqtt_connect.set_client_id_len, mqtt_connect.set_client_id,
      mqtt_connect.set_will_topic_len, mqtt_connect.set_will_topic,
      mqtt_connect.set_will_message_len, mqtt_connect.set_will_message,
      natCast_not_neg, t1, t2, neg_one_lt_zero, if_true, if_false,
      eN1, eN2, eN3, eN4, eN5, eN6, eN7, eN8, eN9, hbit, hflag, f10]
  rcases unpack_str_opt_both mem conn.payload.will_message (u16 (v10 : Int)) N M c10
    (by omega) b10 hNM hM with f11 | ⟨s11, c11, eN11, eM11, a11, b11⟩
  · left
    simp only [unpack_connect, mqtt_connect.set_protocol_name_len,
      mqtt_connect.set_protocol_name_name, mqtt_connect.set_protocol_level,
      mqtt_connect.set_connect_flags, mqtt_connect.set_keep_alive,
      mqtt_connect.set_client_id_len, mqtt_connect.set_client_id,
      mqtt_connect.set_will_topic_len, mqtt_connect.set_will_topic,
      mqtt_connect.set_will_message_len, mqtt_connect.set_will_message,
      natCast_not_neg, t1, t2, neg_one_lt_zero, if_true, if_false,
      eN1, eN2, eN3, eN4, eN5, eN6, eN7, eN8, eN9, eN10, hbit, hflag, f11]
  right
  simp only [unpack_connect, mqtt_connect.set_protocol_name_len,
      mqtt_connect.set_protocol_name_name, mqtt_connect.set_protocol_level,
      mqtt_connect.set_connect_flags, mqtt_connect.set_keep_alive,
      mqtt_connect.set_client_id_len, mqtt_connect.set_client_id,
      mqtt_connect.set_will_topic_len, mqtt_connect.set_will_topic,
      mqtt_connect.set_will_message_len, mqtt_connect.set_will_message,
      natCast_not_neg, t1, t2, neg_one_lt_zero, if_true, if_false,
    eN1, eN2, eN3, eN4, eN5, eN6, eN7, eN8, eN9, eN10, eN11,
    eM1, eM2, eM3, eM4, eM5, eM6, eM7, eM8, eM9, eM10, eM11, hbit, hflag]
  exact ⟨trivial, b11⟩

/-- The tuple loop of `unpack_unsubscribe` under the limits `N ≤ M`: when it ends under `N`,
it has returned `OUT_OF_BOUNDS`, or done what it does under `M` within the first `N` bytes,
or ended by its condition at offset `N`. -/
theorem unpack_unsubscribe_loop_lock (u : Uninit) (mem : List Nat) (N M : Nat) (hNM : N ≤ M)
    (hM : M < 2 ^ 31) :
    ∀ (fuel : Nat) (tuples : List unsubscribe_tuples) (i : Nat) (c : Cursor),
      0 ≤ c.acc → c.acc ≤ (N : Int) →
      ∀ rN, unpack_unsubscribe_loop u mem N fuel tuples i c = some rN →
        rN.1 = OUT_OF_BOUNDS ∨
        (unpack_unsubscribe_loop u mem M fuel tuples i c = some rN ∧
          rN.2.2.2.acc ≤ (N : Int)) ∨
        (rN.1 = 0 ∧ rN.2.2.2.acc = (N : Int)) := by
  intro fuel
  induction fuel with
  | zero =>
    intro tuples i c _ _ rN h
    rw [unpack_unsubscribe_loop] at h
    exact absurd h (by simp)
  | succ f ih =>
    intro tuples i c h0 hN rN h
    rw [unpack_unsubscribe_loop] at h ⊢
    rw [to_int_of_lt _ (by omega)] at h
    rw [to_int_of_lt _ hM]
    by_cases hc : c.acc < (N : Int)
    · have hcM : c.acc < (M : Int) := by omega
      rw [if_pos hc] at h
      rw [if_pos hcM]
      rcases unpack_uint16_both mem N M c h0 hN hNM hM with
        ⟨-, f1⟩ | ⟨v1, c1, eN1, eM1, -, a1, b1⟩
      · left
        simp only [f1, neg_one_lt_zero, if_true, Option.some.injEq] at h
        rw [← h]
      · by_cases hz : (v1 : Int) = 0
        · right; left
          have z0 : ¬ ((0 : Int) < 0) := by decide
          simp only [eN1, hz, z0, if_true, if_false, Option.some.injEq] at h
          simp only [eM1, hz, z0, if_true, if_false]
          subst h
          exact ⟨rfl, b1⟩
        · simp only [eN1, natCast_not_neg, hz, if_false] at h
          simp only [eM1, natCast_not_neg, hz, if_false]
          generalize updAt (fun t => { t with topic_len := u16 (v1 : Int) })
            (reallocAt tuples i (u.unsub i)) i = T2 at h ⊢
          rcases unpack_str_both mem (T2.getD i default).topic (T2.getD i default).topic_len
            N M c1 hNM hM with ⟨-, f2⟩ | ⟨s2, c2, eN2, eM2, a2, b2⟩
          · left
            simp only [f2, eq_true oob_ne_zero, if_true, Option.some.injEq] at h
            rw [← h]
          · have t2 : ((0 : Int) ≠ 0) = False := eq_false (by decide)
            simp only [eN2, t2, if_false] at h
            simp only [eM2, t2, if_false]
            exact ih _ _ c2 (by omega) b2 rN h
    · right; right
      rw [if_neg hc, Option.some.injEq] at h
      rw [← h]
      exact ⟨rfl, by simp only; omega⟩

/-- C function `unpack_unsubscribe` under the limits `N ≤ M`: when it returns under `N`, it
has returned `OUT_OF_BOUNDS`, or done what it does under `M` within the first `N` bytes, or
its tuple loop has ended by its condition at offset `N`. -/
theorem unpack_unsubscribe_lock (u : Uninit) (fuel : Nat) (s : mqtt_unsubscribe)
    (mem : List Nat) (N M : Nat) (c : Cursor) (h0 : 0 ≤ c.acc) (hN : c.acc ≤ (N : Int))
    (hNM : N ≤ M) (hM : M < 2 ^ 31) (rN : Res mqtt_unsubscribe)
    (h : unpack_unsubscribe u fuel s mem N c = some rN) :
    rN.rc = OUT_OF_BOUNDS ∨
    (unpack_unsubscribe u fuel s mem M c = some rN ∧ rN.cur.acc ≤ (N : Int)) ∨
    (rN.cur.acc = (N : Int) ∧ (rN.rc = MQTT_UNSUBSCRIBE ∨ rN.rc = MALFORMED_PACKET)) := by
  unfold unpack_unsubscribe at h ⊢
  rcases unpack_uint16_both mem N M c h0 hN hNM hM with
    ⟨-, f1⟩ | ⟨v1, c1, eN1, eM1, -, a1, b1⟩
  · left
    have hne : ¬ ((-1 : Int) = 0) := by decide
    simp only [f1, hne, neg_one_lt_zero, if_true, if_false, Option.some.injEq] at h
    subst h
    rfl
  · by_cases hz : (v1 : Int) = 0
    · right; left
      simp only [eN1, hz, if_true, Option.some.injEq] at h
      simp only [eM1, hz, if_true]
      subst h
      exact ⟨rfl, b1⟩
    · simp only [eN1, natCast_not_neg, hz, if_false] at h
      simp only [eM1, natCast_not_neg, hz, if_false]
      cases hl : unpack_unsubscribe_loop u mem N fuel s.tuples 0 c1 with
      | none =>
        rw [hl] at h
        exact absurd h (by simp)
      | some x =>
        rw [hl] at h
        obtain ⟨rc, tuples, i, cx⟩ := x
        simp only at h
        rcases unpack_unsubscribe_loop_lock u mem N M hNM hM fuel s.tuples 0 c1 (by omega) b1
          _ hl with k | ⟨eM, bM⟩ | ⟨k0, kacc⟩
        · left
          simp only at k
          subst k
          simp only [eq_true oob_ne_zero, if_true, Option.some.injEq] at h
          subst h
          rfl
        · right; left
          rw [eM]
          refine ⟨h, ?_⟩
          simp only at bM
          split_ifs at h <;>
          · rw [Option.some.injEq] at h
            subst h
            exact bM
        · right; right
          simp only at k0 kacc
          subst k0
          have t2 : ((0 : Int) ≠ 0) = False := eq_false (by decide)
          simp only [t2, if_false] at h
          split_ifs at h <;>
          · rw [Option.some.injEq] at h
            subst h
            first
              | exact ⟨kacc, Or.inl rfl⟩
              | exact ⟨kacc, Or.inr rfl⟩

/-- The tuple loop of `unpack_unsubscribe` ends within `buf_size - accumulated_size + 1`
iterations: every iteration that goes on has consumed at least two bytes. -/
theorem unpack_unsubscribe_loop_some (u : Uninit) (mem : List Nat) (N : Nat)
    (hN : N < 2 ^ 31) :
    ∀ (fuel : Nat) (tuples : List unsubscribe_tuples) (i : Nat) (c : Cursor),
      0 ≤ c.acc → ((N : Int) - c.acc).toNat < fuel →
      ∃ r, unpack_unsubscribe_loop u mem N fuel tuples i c = some r := by
  intro fuel
  induction fuel with
  | zero =>
    intro tuples i c _ h
    exact absurd h (by omega)
  | succ f ih =>
    intro tuples i c h0 hf
    rw [unpack_unsubscribe_loop, to_int_of_lt _ hN]
    by_cases hc : c.acc < (N : Int)
    · rw [if_pos hc]
      rcases unpack_uint16_both mem N N c h0 (by omega) (le_refl _) hN with
        ⟨-, f1⟩ | ⟨v1, c1, eN1, -, -, a1, b1⟩
      · simp only [f1, neg_one_lt_zero, if_true]
        exact ⟨_, rfl⟩
      · by_cases hz : (v1 : Int) = 0
        · have z0 : ¬ ((0 : Int) < 0) := by decide
          simp only [eN1, hz, z0, if_true, if_false]
          exact ⟨_, rfl⟩
        · simp only [eN1, natCast_not_neg, hz, if_false]
          generalize updAt (fun t => { t with topic_len := u16 (v1 : Int) })
            (reallocAt tuples i (u.unsub i)) i = T2
          rcases unpack_str_both mem (T2.getD i default).topic (T2.getD i default).topic_len
            N N c1 (le_refl _) hN with ⟨-, f2⟩ | ⟨s2, c2, eN2, -, a2, b2⟩
          · simp only [f2, eq_true oob_ne_zero, if_true]
            exact ⟨_, rfl⟩
          · have t2 : ((0 : Int) ≠ 0) = False := eq_false (by decide)
            simp only [eN2, t2, if_false]
            exact ih _ _ c2 (by omega) (by omega)
    · rw [if_neg hc]
      exact ⟨_, rfl⟩

/-- C function `unpack_unsubscribe` returns as soon as the bound on its tuple loop exceeds
the size passed. -/
theorem unpack_unsubscribe_some (u : Uninit) (fuel : Nat) (s : mqtt_unsubscribe)
    (mem : List Nat) (N : Nat) (c : Cursor) (h0 : 0 ≤ c.acc) (hN : N < 2 ^ 31)
    (hf : N < fuel) : ∃ r, unpack_unsubscribe u fuel s mem N c = some r := by
  unfold unpack_unsubscribe
  simp only
  split_ifs
  · exact ⟨_, rfl⟩
  · exact ⟨_, rfl⟩
  · have hacc : 0 ≤ (unpack_uint16 mem N c).2.acc := by
      unfold unpack_uint16
      split_ifs
      · exact h0
      · simp only; omega
    obtain ⟨x, hx⟩ := unpack_unsubscribe_loop_some u mem N hN fuel s.tuples 0
      (unpack_uint16 mem N c).2 hacc (by omega)
    rw [hx]
    obtain ⟨rc, tuples, i, cx⟩ := x
    simp only
    split_ifs <;> exact ⟨_, rfl⟩

/-- The return code loop of `unpack_suback` never returns `OUT_OF_BOUNDS` when the codes
still to be read lie within the size passed. -/
theorem unpack_suback_loop_rc (mem : List Nat) (N : Nat) (hN : N < 2 ^ 31) :
    ∀ (k : Nat) (codes : List Nat) (c : Cursor), 0 ≤ c.acc →
      c.acc + (k : Int) ≤ (N : Int) →
      (unpack_suback_loop mem N k codes c).rc ≠ OUT_OF_BOUNDS := by
  intro k
  induction k with
  | zero =>
    intro codes c _ _
    rw [unpack_suback_loop]
    exact (by decide : MQTT_SUBACK ≠ OUT_OF_BOUNDS)
  | succ k ih =>
    intro codes c h0 hk
    rw [unpack_suback_loop]
    rw [unpack_uint8_ok mem N c h0 (by omega) hN]
    simp only [natCast_not_neg, if_false]
    split_ifs
    · exact (by decide : MALFORMED_PACKET ≠ OUT_OF_BOUNDS)
    · exact ih _ _ (by simp only; omega) (by simp only; omega)

/-- C function `unpack_suback` returns `OUT_OF_BOUNDS` exactly when the packet identifier
extends past the size passed: the return codes are read up to that size only. -/
theorem unpack_suback_oob (s : mqtt_suback) (mem : List Nat) (N : Nat) (c : Cursor)
    (h0 : 0 ≤ c.acc) (hc : c.acc ≤ (N : Int)) (hN : N < 2 ^ 31) :
    (unpack_suback s mem N c).rc = OUT_OF_BOUNDS ↔ (N : Int) < c.acc + 2 := by
  unfold unpack_suback
  by_cases h : c.acc + 2 ≤ (N : Int)
  · rw [unpack_uint16_ok mem N c h0 h hN]
    simp only [natCast_not_neg, if_false]
    have hno : ¬ ((N : Int) < c.acc + 2) := by omega
    simp only [hno, iff_false]
    split_ifs
    · exact (by decide : MALFORMED_PACKET ≠ OUT_OF_BOUNDS)
    · apply unpack_suback_loop_rc mem N hN
      · simp only; omega
      · simp only [u16]
        omega
  · rw [unpack_uint16_fail mem N c h0 (by omega) (by omega)]
    simp only [neg_one_lt_zero, if_true, true_iff]
    omega

/-- C function `unpack_subscribe` returns nothing but `MALFORMED_PACKET` and
`MQTT_SUBSCRIBE`. -/
theorem unpack_subscribe_rc (u : Uninit) (fuel : Nat) (s : mqtt_subscribe)
    (mem : List Nat) (n : Nat) (c : Cursor) (r : Res mqtt_subscribe)
    (h : unpack_subscribe u fuel s mem n c = some r) :
    r.rc = MALFORMED_PACKET ∨ r.rc = MQTT_SUBSCRIBE := by
  unfold unpack_subscribe at h
  simp only at h
  split at h
  · exact absurd h (by simp)
  · split_ifs at h
    · rw [Option.some.injEq] at h
      rw [← h]
      exact Or.inl rfl
    · rw [Option.some.injEq] at h
      rw [← h]
      exact Or.inr rfl

theorem int_and_neg_one : int_and (-1) 1 = 1 := by decide

/-- The slip in `unpack_connect` that C11 runs into: the test of bit 0 of the connect flags
precedes the test for a failed read, so a buffer that ends right before the connect-flags
byte (the protocol name, of length `L`, and the protocol level being complete) gives
`MALFORMED_PACKET`, not `OUT_OF_BOUNDS`. -/
theorem unpack_connect_cut_at_flags (conn : mqtt_connect) (mem : List Nat) (n : Nat)
    (c : Cursor) (L : Nat) (hacc : c.acc = (c.pos : Int)) (hn : n < 2 ^ 31)
    (hL : be16 mem c.pos % 65536 = L) (hcut : n = c.pos + 2 + L + 1) :
    (unpack_connect conn mem n c).rc = MALFORMED_PACKET := by
  unfold be16 at hL
  have e1 := unpack_uint16_ok mem n c (by omega) (by omega) hn
  have e2 := unpack_str_ok mem conn.protocol_name.name L n
    { pos := c.pos + 2, acc := c.acc + 2, reads := c.reads ++ [c.pos, c.pos + 1] }
    (by simp only; omega) hn
  have hLm : L % 65536 = L := by omega
  rw [hLm] at e2
  have e3 := unpack_uint8_ok mem n
    { pos := c.pos + 2 + L, acc := c.acc + 2 + (L : Int),
      reads := c.reads ++ [c.pos, c.pos + 1] ++ List.range' (c.pos + 2) L }
    (by simp only; omega) (by simp only; omega) hn
  have e4 := unpack_uint8_fail mem n
    { pos := c.pos + 2 + L + 1, acc := c.acc + 2 + (L : Int) + 1,
      reads := c.reads ++ [c.pos, c.pos + 1] ++ List.range' (c.pos + 2) L ++ [c.pos + 2 + L] }
    (by simp only; omega) (by simp only; omega) (by simp only; omega)
  simp only [unpack_connect, mqtt_connect.set_protocol_name_len,
    mqtt_connect.set_protocol_name_name, mqtt_connect.set_protocol_level,
    e1, u16_cast, hL, e2, e3, e4, int_and_neg_one, natCast_not_neg,
    ne_eq, not_true_eq_false, not_false_eq_true, if_false, if_true]

/-- C11, as the code has it.  The fixed header lies within the size `N` passed, and `M` is any
size from `N` on (below `2 ^ 31`); that decoding under `M` moves `accumulated_size` past
`N` says that a field read of the decoder extends past `N`.
For CONNACK, PUBLISH and PUBACK, and for CONNECT when `N` is not the offset of the
connect-flags byte: if decoding under `M` moves past `N`, then `unpack` under `N` returns
`OUT_OF_BOUNDS`.
For SUBACK: `unpack` returns `OUT_OF_BOUNDS` exactly when the packet identifier extends
past `N` (the return codes are read up to `N` only).
For UNSUBSCRIBE: `unpack` returns once the bound on the tuple loop exceeds `N`, and if
decoding under `M` moves past `N`, then under `N` it returns `OUT_OF_BOUNDS`, unless its
tuple loop has ended by its condition at offset `N`, with `MQTT_UNSUBSCRIBE` or
`MALFORMED_PACKET`.
For SUBSCRIBE: `unpack` never returns `OUT_OF_BOUNDS`. -/
theorem unpack_out_of_bounds (u : Uninit) (fuel : Nat) (packet : mqtt_packet)
    (mem : List Nat) (N M : Nat) (hH : (hdrCursor mem).pos ≤ N) (hNM : N ≤ M)
    (hM : M < 2 ^ 31) :
    ((readByte mem 0 &&& TYPE_MASK = CONNACK_TYPE ∨
        readByte mem 0 &&& TYPE_MASK = PUBLISH_TYPE ∨
        readByte mem 0 &&& TYPE_MASK = PUBACK_TYPE ∨
        (readByte mem 0 &&& TYPE_MASK = CONNECT_TYPE ∧
          N ≠ (hdrCursor mem).pos + 2 + be16 mem (hdrCursor mem).pos % 65536 + 1)) →
      ∃ rN rM, unpack u fuel packet mem N = some rN ∧ unpack u fuel packet mem M = some rM ∧
        ((N : Int) < rM.cur.acc → rN.rc = OUT_OF_BOUNDS)) ∧
    (readByte mem 0 &&& TYPE_MASK = SUBACK_TYPE →
      ∃ rN, unpack u fuel packet mem N = some rN ∧
        (rN.rc = OUT_OF_BOUNDS ↔ N < (hdrCursor mem).pos + 2)) ∧
    (readByte mem 0 &&& TYPE_MASK = UNSUBSCRIBE_TYPE →
      (N < fuel → ∃ rN, unpack u fuel packet mem N = some rN) ∧
      ∀ rN rM, unpack u fuel packet mem N = some rN → unpack u fuel packet mem M = some rM →
        (N : Int) < rM.cur.acc →
        rN.rc = OUT_OF_BOUNDS ∨
          (rN.cur.acc = (N : Int) ∧ (rN.rc = MQTT_UNSUBSCRIBE ∨ rN.rc = MALFORMED_PACKET))) ∧
    (readByte mem 0 &&& TYPE_MASK = SUBSCRIBE_TYPE →
      ∀ rN, unpack u fuel packet mem N = some rN → rN.rc ≠ OUT_OF_BOUNDS) := by
  obtain ⟨hacc, hlo, hhi⟩ := hdrCursor_acc mem
  have h0 : 0 ≤ (hdrCursor mem).acc := by omega
  have hN : (hdrCursor mem).acc ≤ (N : Int) := by omega
  have hhdr : ¬ ((N : Int) < (hdrCursor mem).acc) := by omega
  refine ⟨?_, ?_, ?_, ?_⟩
  · rintro (ht | ht | ht | ⟨ht, hex⟩)
    · rw [unpack_connack_type u fuel packet mem N ht,
        unpack_connack_type u fuel packet mem M ht]
      split_ifs
      · exact ⟨_, _, rfl, rfl, fun h => absurd h hhdr⟩
      · exact ⟨_, _, rfl, rfl, fun h => absurd h hhdr⟩
      · refine ⟨_, _, rfl, rfl, fun h => ?_⟩
        rcases unpack_connack_lock packet.connack mem N M (hdrCursor mem) h0 hN hNM hM with
          k | ⟨-, k⟩
        · exact k
        · exact absurd h (by simp only at h ⊢; omega)
    · rw [unpack_publish_type u fuel packet mem N ht,
        unpack_publish_type u fuel packet mem M ht]
      refine ⟨_, _, rfl, rfl, fun h => ?_⟩
      rcases unpack_publish_lock packet.publish (hdrPacket packet mem).header mem N M
        (hdrCursor mem) h0 hN hNM hM with k | ⟨-, k⟩
      · exact k
      · exact absurd h (by simp only at h ⊢; omega)
    · rw [unpack_puback_type u fuel packet mem N ht,
        unpack_puback_type u fuel packet mem M ht]
      split_ifs with g1 g2 g3 g3
      · exact ⟨_, _, rfl, rfl, fun h => absurd h hhdr⟩
      · exact ⟨_, _, rfl, rfl, fun _ => rfl⟩
      · exact ⟨_, _, rfl, rfl, fun _ => rfl⟩
      · refine ⟨_, _, rfl, rfl, fun h => ?_⟩
        rcases unpack_uint16_lock mem N M (hdrCursor mem) h0 hN hNM hM with
          ⟨-, e⟩ | ⟨e, -, -, b⟩
        · rw [e] at g2
          exact absurd neg_one_lt_zero g2
        · rw [e] at g2
          exact absurd g3 g2
      · refine ⟨_, _, rfl, rfl, fun h => ?_⟩
        rcases unpack_uint16_lock mem N M (hdrCursor mem) h0 hN hNM hM with
          ⟨-, e⟩ | ⟨-, -, -, b⟩
        · rw [e] at g2
          exact absurd neg_one_lt_zero g2
        · exact absurd h (by simp only at h ⊢; omega)
    · rw [unpack_connect_type u fuel packet mem N ht,
        unpack_connect_type u fuel packet mem M ht]
      refine ⟨_, _, rfl, rfl, fun h => ?_⟩
      rcases unpack_connect_lock packet.connect mem N M (hdrCursor mem) h0 hN hNM hM
        (by rw [hacc]; exact_mod_cast hex) with k | ⟨-, k⟩
      · exact k
      · exact absurd h (by simp only at h ⊢; omega)
  · intro ht
    rw [unpack_suback_type u fuel packet mem N ht]
    refine ⟨_, rfl, ?_⟩
    rw [show (⟨(unpack_suback packet.suback mem N (hdrCursor mem)).rc, _, _⟩ :
      Res mqtt_packet).rc = (unpack_suback packet.suback mem N (hdrCursor mem)).rc from rfl,
      unpack_suback_oob packet.suback mem N (hdrCursor mem) h0 hN (by omega)]
    omega
  · intro ht
    rw [unpack_unsubscribe_type u fuel packet mem N ht,
      unpack_unsubscribe_type u fuel packet mem M ht]
    by_cases hf : readByte mem 0 &&& FLAG_MASK ≠ SUB_UNSUB_FLAGS
    · rw [if_pos hf, if_pos hf]
      refine ⟨fun _ => ⟨_, rfl⟩, fun rN rM _ eM h => ?_⟩
      rw [Option.some.injEq] at eM
      rw [← eM] at h
      exact absurd h hhdr
    · rw [if_neg hf, if_neg hf]
      constructor
      · intro hfuel
        obtain ⟨r, hr⟩ := unpack_unsubscribe_some u fuel packet.unsubscribe mem N
          (hdrCursor mem) h0 (by omega) hfuel
        rw [hr]
        exact ⟨_, rfl⟩
      · intro rN rM eN eM h
        split at eN
        · exact absurd eN (by simp)
        · rename_i xN hxN
          rw [Option.some.injEq] at eN
          subst eN
          rcases unpack_unsubscribe_lock u fuel packet.unsubscribe mem N M (hdrCursor mem)
            h0 hN hNM hM xN hxN with k | ⟨e, k⟩ | k
          · exact Or.inl k
          · rw [e, Option.some.injEq] at eM
            subst eM
            exact absurd h (by simp only at h ⊢; omega)
          · exact Or.inr k
  · intro ht rN h
    rw [unpack_subscribe_type u fuel packet mem N ht] at h
    split_ifs at h
    · rw [Option.some.injEq] at h
      rw [← h]
      exact (by decide : INCORRECT_FLAGS ≠ OUT_OF_BOUNDS)
    · split at h
      · exact absurd h (by simp)
      · rename_i r hr
        rw [Option.some.injEq] at h
        rw [← h]
        rcases unpack_subscribe_rc u fuel _ mem N _ r hr with k | k
        · show r.rc ≠ OUT_OF_BOUNDS
          rw [k]; decide
        · show r.rc ≠ OUT_OF_BOUNDS
          rw [k]; decide

/-- Instances of the above: a CONNACK cut before its return code, a CONNECT cut inside the
keep-alive, a SUBACK cut inside the packet identifier, an UNSUBSCRIBE cut inside a topic
and a SUBSCRIBE cut inside a topic. -/
theorem unpack_out_of_bounds_witness :
    (∃ r, unpack zeroUninit 0 mqtt_packet.zero [0x20, 2, 0, 0] 3 = some r ∧
      r.rc = OUT_OF_BOUNDS) ∧
    (∃ r, unpack zeroUninit 0 mqtt_packet.zero
        [0x10, 13, 0, 4, 77, 81, 84, 84, 4, 2, 0, 60, 0, 1, 97] 11 = some r ∧
      r.rc = OUT_OF_BOUNDS) ∧
    (∃ r, unpack zeroUninit 0 mqtt_packet.zero [0x90, 3, 0, 1, 0] 3 = some r ∧
      r.rc = OUT_OF_BOUNDS) ∧
    (∃ r, unpack zeroUninit 8 mqtt_packet.zero [0xA2, 5, 0, 1, 0, 1, 97] 6 = some r ∧
      (r.rc = OUT_OF_BOUNDS ∨
        (r.cur.acc = 6 ∧ (r.rc = MQTT_UNSUBSCRIBE ∨ r.rc = MALFORMED_PACKET)))) ∧
    (∀ r, unpack zeroUninit 3 mqtt_packet.zero [0x82, 8, 0, 1, 0, 1, 97, 0, 0, 3] 10 = some r →
      r.rc ≠ OUT_OF_BOUNDS) := by
  refine ⟨?_, ?_, ?_, ?_, ?_⟩
  · obtain ⟨rN, rM, eN, eM, k⟩ :=
      (unpack_out_of_bounds zeroUninit 0 mqtt_packet.zero [0x20, 2, 0, 0] 3 4 (by decide)
        (by decide) (by decide)).1 (Or.inl (by decide))
    have hM : (unpack zeroUninit 0 mqtt_packet.zero [0x20, 2, 0, 0] 4).map
        (fun r => r.cur.acc) = some 4 := by decide
    rw [eM, Option.map_some', Option.some.injEq] at hM
    exact ⟨rN, eN, k (by rw [hM]; decide)⟩
  · obtain ⟨rN, rM, eN, eM, k⟩ :=
      (unpack_out_of_bounds zeroUninit 0 mqtt_packet.zero
        [0x10, 13, 0, 4, 77, 81, 84, 84, 4, 2, 0, 60, 0, 1, 97] 11 15 (by decide)
        (by decide) (by decide)).1 (Or.inr (Or.inr (Or.inr ⟨by decide, by decide⟩)))
    have hM : (unpack zeroUninit 0 mqtt_packet.zero
        [0x10, 13, 0, 4, 77, 81, 84, 84, 4, 2, 0, 60, 0, 1, 97] 15).map
        (fun r => r.cur.acc) = some 15 := by decide
    rw [eM, Option.map_some', Option.some.injEq] at hM
    exact ⟨rN, eN, k (by rw [hM]; decide)⟩
  · obtain ⟨rN, eN, k⟩ :=
      (unpack_out_of_bounds zeroUninit 0 mqtt_packet.zero [0x90, 3, 0, 1, 0] 3 3 (by decide)
        (by decide) (by decide)).2.1 (by decide)
    exact ⟨rN, eN, k.2 (by decide)⟩
  · obtain ⟨t, k⟩ :=
      (unpack_out_of_bounds zeroUninit 8 mqtt_packet.zero [0xA2, 5, 0, 1, 0, 1, 97] 6 7
        (by decide) (by decide) (by decide)).2.2.1 (by decide)
    obtain ⟨rN, eN⟩ := t (by decide)
    have hM : ∃ rM, unpack zeroUninit 8 mqtt_packet.zero [0xA2, 5, 0, 1, 0, 1, 97] 7 = some rM ∧
        rM.cur.acc = 7 := by decide
    obtain ⟨rM, eM, aM⟩ := hM
    exact ⟨rN, eN, k rN rM eN eM (by rw [aM]; decide)⟩
  · exact (unpack_out_of_bounds zeroUninit 3 mqtt_packet.zero
      [0x82, 8, 0, 1, 0, 1, 97, 0, 0, 3] 10 10 (by decide) (by decide) (by decide)).2.2.2
      (by decide)

/-- C11 as stated fails for SUBSCRIBE.  Of the ten-byte buffer `82 08 00 01 00 01 61 00 00
03`, whose second tuple announces a topic of three bytes that are not there, `unpack` returns
`MQTT_SUBSCRIBE` with one tuple; and of the two-byte buffer `82 00`, whose packet identifier
is missing, it returns `MALFORMED_PACKET`. -/
theorem unpack_subscribe_truncated_not_out_of_bounds :
    (unpack zeroUninit 3 mqtt_packet.zero [0x82, 8, 0, 1, 0, 1, 97, 0, 0, 3] 10).map
        (fun r => (r.rc, r.val.subscribe.tuples_len)) = some (MQTT_SUBSCRIBE, 1) ∧
    (unpack zeroUninit 1 mqtt_packet.zero [0x82, 0] 2).map (fun r => r.rc) =
      some MALFORMED_PACKET := by
  constructor <;> decide

/-! ## The results of `unpack` -/

theorem unpack_disconnect_type (u : Uninit) (fuel : Nat) (packet : mqtt_packet)
    (mem : List Nat) (buf_size : Nat) (h : readByte mem 0 &&& TYPE_MASK = DISCONNECT_TYPE) :
    unpack u fuel packet mem buf_size =
      if readByte mem 0 &&& FLAG_MASK ≠ DISCONNECT_FLAGS then
        some ⟨MALFORMED_PACKET, hdrPacket packet mem, hdrCursor mem⟩
      else some ⟨MQTT_DISCONNECT, hdrPacket packet mem, hdrCursor mem⟩ := by
  simp only [unpack, hdrPacket, hdrCursor, Cursor.start, h, List.nil_append, Nat.zero_add,
    Int.zero_add, CONNACK_TYPE, CONNECT_TYPE, PUBLISH_TYPE, PUBACK_TYPE, SUBSCRIBE_TYPE,
    SUBACK_TYPE, UNSUBSCRIBE_TYPE, DISCONNECT_TYPE]
  simp

theorem unpack_other_type (u : Uninit) (fuel : Nat) (packet : mqtt_packet)
    (mem : List Nat) (buf_size : Nat)
    (h1 : readByte mem 0 &&& TYPE_MASK ≠ CONNECT_TYPE)
    (h2 : readByte mem 0 &&& TYPE_MASK ≠ CONNACK_TYPE)
    (h3 : readByte mem 0 &&& TYPE_MASK ≠ PUBLISH_TYPE)
    (h4 : readByte mem 0 &&& TYPE_MASK ≠ PUBACK_TYPE)
    (h5 : readByte mem 0 &&& TYPE_MASK ≠ SUBSCRIBE_TYPE)
    (h6 : readByte mem 0 &&& TYPE_MASK ≠ SUBACK_TYPE)
    (h7 : readByte mem 0 &&& TYPE_MASK ≠ UNSUBSCRIBE_TYPE)
    (h8 : readByte mem 0 &&& TYPE_MASK ≠ DISCONNECT_TYPE) :
    unpack u fuel packet mem buf_size =
      some ⟨GENERIC_ERR, hdrPacket packet mem, hdrCursor mem⟩ := by
  simp only [unpack, hdrPacket, hdrCursor, Cursor.start, List.nil_append, Nat.zero_add,
    Int.zero_add, if_neg h1, if_neg h2, if_neg h3, if_neg h4, if_neg h5, if_neg h6, if_neg h7,
    if_neg h8]

/-- C24: for every buffer whose type nibble is none of CONNECT, CONNACK, PUBLISH, PUBACK,
SUBSCRIBE, SUBACK, UNSUBSCRIBE and DISCONNECT, `unpack` returns `GENERIC_ERR`. -/
theorem unpack_unknown_type (u : Uninit) (fuel : Nat) (packet : mqtt_packet)
    (mem : List Nat) (buf_size : Nat)
    (h : readByte mem 0 &&& TYPE_MASK ∉
      [CONNECT_TYPE, CONNACK_TYPE, PUBLISH_TYPE, PUBACK_TYPE, SUBSCRIBE_TYPE, SUBACK_TYPE,
        UNSUBSCRIBE_TYPE, DISCONNECT_TYPE]) :
    ∃ r, unpack u fuel packet mem buf_size = some r ∧ r.rc = GENERIC_ERR := by
  simp only [List.mem_cons, List.mem_singleton, not_or, List.mem_nil_iff, or_false] at h
  obtain ⟨h1, h2, h3, h4, h5, h6, h7, h8⟩ := h
  rw [unpack_other_type u fuel packet mem buf_size h1 h2 h3 h4 h5 h6 h7 h8]
  exact ⟨_, rfl, rfl⟩

/-- Instances of C24: first bytes with the type nibbles 0, 5, 6, 7, 11, 12, 13 and 15. -/
theorem unpack_unknown_type_witness :
    (∃ r, unpack zeroUninit 0 mqtt_packet.zero [0x00, 0] 2 = some r ∧ r.rc = GENERIC_ERR) ∧
    (∃ r, unpack zeroUninit 0 mqtt_packet.zero [0x50, 0] 2 = some r ∧ r.rc = GENERIC_ERR) ∧
    (∃ r, unpack zeroUninit 0 mqtt_packet.zero [0x62, 0] 2 = some r ∧ r.rc = GENERIC_ERR) ∧
    (∃ r, unpack zeroUninit 0 mqtt_packet.zero [0x70, 0] 2 = some r ∧ r.rc = GENERIC_ERR) ∧
    (∃ r, unpack zeroUninit 0 mqtt_packet.zero [0xB0, 0] 2 = some r ∧ r.rc = GENERIC_ERR) ∧
    (∃ r, unpack zeroUninit 0 mqtt_packet.zero [0xC0, 0] 2 = some r ∧ r.rc = GENERIC_ERR) ∧
    (∃ r, unpack zeroUninit 0 mqtt_packet.zero [0xD0, 0] 2 = some r ∧ r.rc = GENERIC_ERR) ∧
    (∃ r, unpack zeroUninit 0 mqtt_packet.zero [0xFF, 0] 2 = some r ∧ r.rc = GENERIC_ERR) :=
  ⟨unpack_unknown_type _ _ _ _ _ (by decide), unpack_unknown_type _ _ _ _ _ (by decide),
   unpack_unknown_type _ _ _ _ _ (by decide), unpack_unknown_type _ _ _ _ _ (by decide),
   unpack_unknown_type _ _ _ _ _ (by decide), unpack_unknown_type _ _ _ _ _ (by decide),
   unpack_unknown_type _ _ _ _ _ (by decide), unpack_unknown_type _ _ _ _ _ (by decide)⟩

/-- C function `unpack_str` returns 0 or `OUT_OF_BOUNDS`. -/
theorem unpack_str_rc (mem : List Nat) (str : CStr) (len n : Nat) (c : Cursor) :
    (unpack_str mem str len n c).1 = 0 ∨ (unpack_str mem str len n c).1 = OUT_OF_BOUNDS := by
  unfold unpack_str
  simp only
  split_ifs
  · exact Or.inr rfl
  · exact Or.inl rfl

/-- A non-zero result of `unpack_str` is negative. -/
theorem rc_of_str (x tag : Int) (h0 : x ≠ 0) (h : x = 0 ∨ x = OUT_OF_BOUNDS) :
    x < 0 ∨ x = tag := by
  rcases h with h | h
  · exact absurd h h0
  · left; rw [h]; decide

/-- C function `unpack_connack` returns `MQTT_CONNACK` or a negative code. -/
theorem unpack_connack_rc (k : mqtt_connack) (mem : List Nat) (n : Nat) (c : Cursor) :
    (unpack_connack k mem n c).rc < 0 ∨ (unpack_connack k mem n c).rc = MQTT_CONNACK := by
  unfold unpack_connack
  dsimp only
  split_ifs <;> dsimp only <;> decide

/-- C function `unpack_publish` returns `MQTT_PUBLISH` or a negative code. -/
theorem unpack_publish_rc (p : mqtt_publish) (header : mqtt_header) (mem : List Nat) (n : Nat)
    (c : Cursor) :
    (unpack_publish p header mem n c).rc < 0 ∨
      (unpack_publish p header mem n c).rc = MQTT_PUBLISH := by
  unfold unpack_publish unpack_publish_payload
  dsimp only
  split_ifs <;> dsimp only <;>
    first
    | decide
    | exact rc_of_str _ _ (by assumption) (unpack_str_rc _ _ _ _ _)

/-- The read of a will field, skipped when its length is zero, gives 0 or `OUT_OF_BOUNDS`. -/
theorem unpack_str_opt_rc (mem : List Nat) (str : CStr) (len n : Nat) (c : Cursor) :
    (if len ≠ 0 then unpack_str mem str len n c else (0, str, c)).1 = 0 ∨
      (if len ≠ 0 then unpack_str mem str len n c else (0, str, c)).1 = OUT_OF_BOUNDS := by
  split_ifs
  · exact unpack_str_rc mem str len n c
  · exact Or.inl rfl

/-- C function `unpack_connect` returns `MQTT_CONNECT` or a negative code. -/
theorem unpack_connect_rc (conn : mqtt_connect) (mem : List Nat) (n : Nat) (c : Cursor) :
    (unpack_connect conn mem n c).rc < 0 ∨ (unpack_connect conn mem n c).rc = MQTT_CONNECT := by
  obtain ⟨r1, h1⟩ : ∃ r, unpack_uint16 mem n c = r := ⟨_, rfl⟩
  obtain ⟨r2, h2⟩ : ∃ r, unpack_str mem conn.protocol_name.name (u16 r1.1) n r1.2 = r :=
    ⟨_, rfl⟩
  have k2 := unpack_str_rc mem conn.protocol_name.name (u16 r1.1) n r1.2
  rw [h2] at k2
  obtain ⟨r3, h3⟩ : ∃ r, unpack_uint8 mem n r2.2.2 = r := ⟨_, rfl⟩
  obtain ⟨r4, h4⟩ : ∃ r, unpack_uint8 mem n r3.2 = r := ⟨_, rfl⟩
  obtain ⟨r5, h5⟩ : ∃ r, unpack_uint16 mem n r4.2 = r := ⟨_, rfl⟩
  obtain ⟨r6, h6⟩ : ∃ r, unpack_uint16 mem n r5.2 = r := ⟨_, rfl⟩
  obtain ⟨r7, h7⟩ : ∃ r, unpack_str mem conn.payload.client_id (u16 r6.1) n r6.2 = r :=
    ⟨_, rfl⟩
  have k7 := unpack_str_rc mem conn.payload.client_id (u16 r6.1) n r6.2
  rw [h7] at k7
  obtain ⟨r8, h8⟩ : ∃ r, unpack_uint16 mem n r7.2.2 = r := ⟨_, rfl⟩
  obtain ⟨r9, h9⟩ : ∃ r, (if u16 r8.1 ≠ 0 then
      unpack_str mem conn.payload.will_topic (u16 r8.1) n r8.2
    else (0, conn.payload.will_topic, r8.2)) = r := ⟨_, rfl⟩
  have k9 := unpack_str_opt_rc mem conn.payload.will_topic (u16 r8.1) n r8.2
  rw [h9] at k9
  obtain ⟨r10, h10⟩ : ∃ r, unpack_uint16 mem n r9.2.2 = r := ⟨_, rfl⟩
  obtain ⟨r11, h11⟩ : ∃ r, (if u16 r10.1 ≠ 0 then
      unpack_str mem conn.payload.will_message (u16 r10.1) n r10.2
    else (0, conn.payload.will_message, r10.2)) = r := ⟨_, rfl⟩
  have k11 := unpack_str_opt_rc mem conn.payload.will_message (u16 r10.1) n r10.2
  rw [h11] at k11
  by_cases c1 : r1.1 < 0
  · simp only [unpack_connect, mqtt_connect.set_protocol_name_len,
      mqtt_connect.set_protocol_name_name, mqtt_connect.set_protocol_level,
      mqtt_connect.set_connect_flags, mqtt_connect.set_keep_alive,
      mqtt_connect.set_client_id_len, mqtt_connect.set_client_id,
      mqtt_connect.set_will_topic_len, mqtt_connect.set_will_topic,
      mqtt_connect.set_will_message_len, mqtt_connect.set_will_message,
      h1, h2, h3, h4, h5, h6, h7, h8, h9, h10, h11, if_true, if_false,
      c1]
    decide
  by_cases c2 : r2.1 ≠ 0
  · simp only [unpack_connect, mqtt_connect.set_protocol_name_len,
      mqtt_connect.set_protocol_name_name, mqtt_connect.set_protocol_level,
      mqtt_connect.set_connect_flags, mqtt_connect.set_keep_alive,
      mqtt_connect.set_client_id_len, mqtt_connect.set_client_id,
      mqtt_connect.set_will_topic_len, mqtt_connect.set_will_topic,
      mqtt_connect.set_will_message_len, mqtt_connect.set_will_message,
      h1, h2, h3, h4, h5, h6, h7, h8, h9, h10, h11, if_true, if_false,
      c1, eq_true c2]
    exact rc_of_str _ _ c2 k2
  by_cases c3 : r3.1 < 0
  · simp only [unpack_connect, mqtt_connect.set_protocol_name_len,
      mqtt_connect.set_protocol_name_name, mqtt_connect.set_protocol_level,
      mqtt_connect.set_connect_flags, mqtt_connect.set_keep_alive,
      mqtt_connect.set_client_id_len, mqtt_connect.set_client_id,
      mqtt_connect.set_will_topic_len, mqtt_connect.set_will_topic,
      mqtt_connect.set_will_message_len, mqtt_connect.set_will_message,
      h1, h2, h3, h4, h5, h6, h7, h8, h9, h10, h11, if_true, if_false,
      c1, c2, c3]
    decide
  by_cases c4 : int_and r4.1 1 = 1
  · simp only [unpack_connect, mqtt_connect.set_protocol_name_len,
      mqtt_connect.set_protocol_name_name, mqtt_connect.set_protocol_level,
      mqtt_connect.set_connect_flags, mqtt_connect.set_keep_alive,
      mqtt_connect.set_client_id_len, mqtt_connect.set_client_id,
      mqtt_connect.set_will_topic_len, mqtt_connect.set_will_topic,
      mqtt_connect.set_will_message_len, mqtt_connect.set_will_message,
      h1, h2, h3, h4, h5, h6, h7, h8, h9, h10, h11, if_true, if_false,
      c1, c2, c3, c4]
    decide
  by_cases d4 : r4.1 < 0
  · simp only [unpack_connect, mqtt_connect.set_protocol_name_len,
      mqtt_connect.set_protocol_name_name, mqtt_connect.set_protocol_level,
      mqtt_connect.set_connect_flags, mqtt_connect.set_keep_alive,
      mqtt_connect.set_client_id_len, mqtt_connect.set_client_id,
      mqtt_connect.set_will_topic_len, mqtt_connect.set_will_topic,
      mqtt_connect.set_will_message_len, mqtt_connect.set_will_message,
      h1, h2, h3, h4, h5, h6, h7, h8, h9, h10, h11, if_true, if_false,
      c1, c2, c3, c4, d4]
    decide
  by_cases c5 : r5.1 < 0
  · simp only [unpack_connect, mqtt_connect.set_protocol_name_len,
      mqtt_connect.set_protocol_name_name, mqtt_connect.set_protocol_level,
      mqtt_connect.set_connect_flags, mqtt_connect.set_keep_alive,
      mqtt_connect.set_client_id_len, mqtt_connect.set_client_id,
      mqtt_connect.set_will_topic_len, mqtt_connect.set_will_topic,
      mqtt_connect.set_will_message_len, mqtt_connect.set_will_message,
      h1, h2, h3, h4, h5, h6, h7, h8, h9, h10, h11, if_true, if_false,
      c1, c2, c3, c4, d4, c5]
    decide
  by_cases c6 : r6.1 < 0
  · simp only [unpack_connect, mqtt_connect.set_protocol_name_len,
      mqtt_connect.set_protocol_name_name, mqtt_connect.set_protocol_level,
      mqtt_connect.set_connect_flags, mqtt_connect.set_keep_alive,
      mqtt_connect.set_client_id_len, mqtt_connect.set_client_id,
      mqtt_connect.set_will_topic_len, mqtt_connect.set_will_topic,
      mqtt_connect.set_will_message_len, mqtt_connect.set_will_message,
      h1, h2, h3, h4, h5, h6, h7, h8, h9, h10, h11, if_true, if_false,
      c1, c2, c3, c4, d4, c5, c6]
    decide
  by_cases c7 : r7.1 ≠ 0
  · simp only [unpack_connect, mqtt_connect.set_protocol_name_len,
      mqtt_connect.set_protocol_name_name, mqtt_connect.set_protocol_level,
      mqtt_connect.set_connect_flags, mqtt_connect.set_keep_alive,
      mqtt_connect.set_client_id_len, mqtt_connect.set_client_id,
      mqtt_connect.set_will_topic_len, mqtt_connect.set_will_topic,
      mqtt_connect.set_will_message_len, mqtt_connect.set_will_message,
      h1, h2, h3, h4, h5, h6, h7, h8, h9, h10, h11, if_true, if_false,
      c1, c2, c3, c4, d4, c5, c6, eq_true c7]
    exact rc_of_str _ _ c7 k7
  by_cases hflag : u8 r4.1 &&& WILL_FLAG = WILL_FLAG
  swap
  · simp only [unpack_connect, mqtt_connect.set_protocol_name_len,
      mqtt_connect.set_protocol_name_name, mqtt_connect.set_protocol_level,
      mqtt_connect.set_connect_flags, mqtt_connect.set_keep_alive,
      mqtt_connect.set_client_id_len, mqtt_connect.set_client_id,
      mqtt_connect.set_will_topic_len, mqtt_connect.set_will_topic,
      mqtt_connect.set_will_message_len, mqtt_connect.set_will_message,
      h1, h2, h3, h4, h5, h6, h7, h8, h9, h10, h11, if_true, if_false,
      c1, c2, c3, c4, d4, c5, c6, c7, hflag]
    decide
  by_cases c8 : r8.1 < 0
  · simp only [unpack_connect, mqtt_connect.set_protocol_name_len,
      mqtt_connect.set_protocol_name_name, mqtt_connect.set_protocol_level,
      mqtt_connect.set_connect_flags, mqtt_connect.set_keep_alive,
      mqtt_connect.set_client_id_len, mqtt_connect.set_client_id,
      mqtt_connect.set_will_topic_len, mqtt_connect.set_will_topic,
      mqtt_connect.set_will_message_len, mqtt_connect.set_will_message,
      h1, h2, h3, h4, h5, h6, h7, h8, h9, h10, h11, if_true, if_false,
      c1, c2, c3, c4, d4, c5, c6, c7, hflag, c8]
    decide
  by_cases c9 : r9.1 ≠ 0
  · simp only [unpack_connect, mqtt_connect.set_protocol_name_len,
      mqtt_connect.set_protocol_name_name, mqtt_connect.set_protocol_level,
      mqtt_connect.set_connect_flags, mqtt_connect.set_keep_alive,
      mqtt_connect.set_client_id_len, mqtt_connect.set_client_id,
      mqtt_connect.set_will_topic_len, mqtt_connect.set_will_topic,
      mqtt_connect.set_will_message_len, mqtt_connect.set_will_message,
      h1, h2, h3, h4, h5, h6, h7, h8, h9, h10, h11, if_true, if_false,
      c1, c2, c3, c4, d4, c5, c6, c7, hflag, c8, eq_true c9]
    exact rc_of_str _ _ c9 k9
  by_cases c10 : r10.1 < 0
  · simp only [unpack_connect, mqtt_connect.set_protocol_name_len,
      mqtt_connect.set_protocol_name_name, mqtt_connect.set_protocol_level,
      mqtt_connect.set_connect_flags, mqtt_connect.set_keep_alive,
      mqtt_connect.set_client_id_len, mqtt_connect.set_client_id,
      mqtt_connect.set_will_topic_len, mqtt_connect.set_will_topic,
      mqtt_connect.set_will_message_len, mqtt_connect.set_will_message,
      h1, h2, h3, h4, h5, h6, h7, h8, h9, h10, h11, if_true, if_false,
      c1, c2, c3, c4, d4, c5, c6, c7, hflag, c8, c9, c10]
    decide
  by_cases c11 : r11.1 ≠ 0
  · simp only [unpack_connect, mqtt_connect.set_protocol_name_len,
      mqtt_connect.set_protocol_name_name, mqtt_connect.set_protocol_level,
      mqtt_connect.set_connect_flags, mqtt_connect.set_keep_alive,
      mqtt_connect.set_client_id_len, mqtt_connect.set_client_id,
      mqtt_connect.set_will_topic_len, mqtt_connect.set_will_topic,
      mqtt_connect.set_will_message_len, mqtt_connect.set_will_message,
      h1, h2, h3, h4, h5, h6, h7, h8, h9, h10, h11, if_true, if_false,
      c1, c2, c3, c4, d4, c5, c6, c7, hflag, c8, c9, c10, eq_true c11]
    exact rc_of_str _ _ c11 k11
  simp only [unpack_connect, mqtt_connect.set_protocol_name_len,
      mqtt_connect.set_protocol_name_name, mqtt_connect.set_protocol_level,
      mqtt_connect.set_connect_flags, mqtt_connect.set_keep_alive,
      mqtt_connect.set_client_id_len, mqtt_connect.set_client_id,
      mqtt_connect.set_will_topic_len, mqtt_connect.set_will_topic,
      mqtt_connect.set_will_message_len, mqtt_connect.set_will_message,
      h1, h2, h3, h4, h5, h6, h7, h8, h9, h10, h11, if_true, if_false,
    c1, c2, c3, c4, d4, c5, c6, c7, hflag, c8, c9, c10, c11]
  decide

theorem oob_neg : OUT_OF_BOUNDS < 0 := by decide

theorem malformed_neg : MALFORMED_PACKET < 0 := by decide

theorem packet_id_neg : PACKET_ID_NOT_ALLOWED < 0 := by decide

/-- The return code loop of `unpack_suback` returns `MQTT_SUBACK` or a negative code. -/
theorem unpack_suback_loop_range (mem : List Nat) (n : Nat) :
    ∀ (k : Nat) (codes : List Nat) (c : Cursor),
      (unpack_suback_loop mem n k codes c).rc < 0 ∨
        (unpack_suback_loop mem n k codes c).rc = MQTT_SUBACK := by
  intro k
  induction k with
  | zero =>
    intro codes c
    rw [unpack_suback_loop]
    exact Or.inr rfl
  | succ k ih =>
    intro codes c
    rw [unpack_suback_loop]
    split_ifs
    · exact Or.inl oob_neg
    · exact Or.inl malformed_neg
    · exact ih _ _

/-- C function `unpack_suback` returns `MQTT_SUBACK` or a negative code. -/
theorem unpack_suback_rc (s : mqtt_suback) (mem : List Nat) (n : Nat) (c : Cursor) :
    (unpack_suback s mem n c).rc < 0 ∨ (unpack_suback s mem n c).rc = MQTT_SUBACK := by
  unfold unpack_suback
  dsimp only
  split_ifs
  · exact Or.inl oob_neg
  · exact Or.inl malformed_neg
  · exact unpack_suback_loop_range mem n _ _ _

/-- The tuple loop of `unpack_unsubscribe` ends with 0 or a negative code. -/
theorem unpack_unsubscribe_loop_range (u : Uninit) (mem : List Nat) (n : Nat) :
    ∀ (fuel : Nat) (tuples : List unsubscribe_tuples) (i : Nat) (c : Cursor)
      (r : Int × List unsubscribe_tuples × Nat × Cursor),
      unpack_unsubscribe_loop u mem n fuel tuples i c = some r → r.1 = 0 ∨ r.1 < 0 := by
  intro fuel
  induction fuel with
  | zero =>
    intro tuples i c r h
    rw [unpack_unsubscribe_loop] at h
    exact absurd h (by simp)
  | succ f ih =>
    intro tuples i c r h
    rw [unpack_unsubscribe_loop] at h
    dsimp only at h
    split_ifs at h with g1 g2 g3 g4
    · rw [Option.some.injEq] at h
      subst h
      exact Or.inr oob_neg
    · rw [Option.some.injEq] at h
      subst h
      exact Or.inr malformed_neg
    · rw [Option.some.injEq] at h
      subst h
      right
      rcases unpack_str_rc mem _ _ n _ with e | e
      · exact absurd e g4
      · dsimp only
        rw [e]
        exact oob_neg
    · exact ih _ _ _ _ h
    · rw [Option.some.injEq] at h
      subst h
      exact Or.inl rfl

/-- C function `unpack_unsubscribe` returns `MQTT_UNSUBSCRIBE` or a negative code. -/
theorem unpack_unsubscribe_rc (u : Uninit) (fuel : Nat) (s : mqtt_unsubscribe)
    (mem : List Nat) (n : Nat) (c : Cursor) (r : Res mqtt_unsubscribe)
    (h : unpack_unsubscribe u fuel s mem n c = some r) :
    r.rc < 0 ∨ r.rc = MQTT_UNSUBSCRIBE := by
  unfold unpack_unsubscribe at h
  dsimp only at h
  split_ifs at h
  · rw [Option.some.injEq] at h
    subst h
    exact Or.inl packet_id_neg
  · rw [Option.some.injEq] at h
    subst h
    exact Or.inl oob_neg
  · split at h
    · exact absurd h (by simp)
    · rename_i rc tuples i c1 hl
      have hr := unpack_unsubscribe_loop_range u mem n fuel _ _ _ _ hl
      dsimp only at hr
      split_ifs at h with g1 g2
      · rw [Option.some.injEq] at h
        subst h
        rcases hr with e | e
        · exact absurd e g1
        · exact Or.inl e
      · rw [Option.some.injEq] at h
        subst h
        exact Or.inl malformed_neg
      · rw [Option.some.injEq] at h
        subst h
        exact Or.inr rfl

set_option maxRecDepth 100000 in
/-- The type nibble of a first byte, as a multiple of 16. -/
theorem type_nibble (b : Nat) : b &&& TYPE_MASK = b / 16 % 16 * 16 := by
  have h1 : b &&& TYPE_MASK = (b % 256) &&& TYPE_MASK := by
    have e : (255 : Nat) &&& TYPE_MASK = TYPE_MASK := by decide
    rw [← e, ← Nat.and_assoc]
    congr 1
    exact Nat.and_pow_two_sub_one_eq_mod b 8
  have h2 : ∀ x < 256, x &&& TYPE_MASK = x / 16 * 16 := by decide
  rw [h1, h2 _ (Nat.mod_lt _ (by decide))]
  omega

theorem incorrect_flags_neg : INCORRECT_FLAGS < 0 := by decide

theorem generic_err_neg : GENERIC_ERR < 0 := by decide

/-- A result that is negative or the tag of the type nibble is non-zero and, if not
negative, equal to the high nibble of the first byte. -/
theorem tag_ok (b T : Nat) (tag x : Int) (hT : b &&& TYPE_MASK = T)
    (htag : tag = ((T / 16 : Nat) : Int)) (hmem : tag ∈ ([1, 2, 3, 4, 8, 9, 10, 14] : List Int))
    (hx : x < 0 ∨ x = tag) :
    x ≠ 0 ∧ (x < 0 ∨
      (x = ((b / 16 % 16 : Nat) : Int) ∧ x ∈ ([1, 2, 3, 4, 8, 9, 10, 14] : List Int))) := by
  have hb : T / 16 = b / 16 % 16 := by
    rw [← hT, type_nibble]
    omega
  rcases hx with hx | hx
  · exact ⟨by omega, Or.inl hx⟩
  · subst hx
    refine ⟨?_, Or.inr ⟨by rw [htag, hb], hmem⟩⟩
    simp only [List.mem_cons, List.mem_singleton, List.mem_nil_iff, or_false] at hmem
    omega

/-- C25: whenever `unpack` returns, its result is not 0, and it is either negative or the
packet-type tag equal to the high nibble of the first byte (`first byte / 16 % 16`, which
for a byte is `first byte >> 4`), one of 1, 2, 3, 4, 8, 9, 10, 14.  And `unpack` does return:
for every type nibble other than SUBSCRIBE and UNSUBSCRIBE at once, for UNSUBSCRIBE as soon
as the bound on the tuple loop exceeds the size passed (below `2 ^ 31`). -/
theorem unpack_result_range (u : Uninit) (fuel : Nat) (packet : mqtt_packet)
    (mem : List Nat) (buf_size : Nat) :
    (∀ r, unpack u fuel packet mem buf_size = some r →
      r.rc ≠ 0 ∧ (r.rc < 0 ∨
        (r.rc = ((readByte mem 0 / 16 % 16 : Nat) : Int) ∧
          r.rc ∈ ([1, 2, 3, 4, 8, 9, 10, 14] : List Int)))) ∧
    (readByte mem 0 &&& TYPE_MASK ≠ SUBSCRIBE_TYPE →
      (readByte mem 0 &&& TYPE_MASK = UNSUBSCRIBE_TYPE →
        buf_size < fuel ∧ buf_size < 2 ^ 31) →
      ∃ r, unpack u fuel packet mem buf_size = some r) := by
  have neg : ∀ x : Int, x < 0 →
      x ≠ 0 ∧ (x < 0 ∨
        (x = ((readByte mem 0 / 16 % 16 : Nat) : Int) ∧
          x ∈ ([1, 2, 3, 4, 8, 9, 10, 14] : List Int))) :=
    fun x hx => ⟨by omega, Or.inl hx⟩
  by_cases h1 : readByte mem 0 &&& TYPE_MASK = CONNECT_TYPE
  · rw [unpack_connect_type u fuel packet mem buf_size h1]
    refine ⟨fun r h => ?_, fun _ _ => ⟨_, rfl⟩⟩
    rw [Option.some.injEq] at h
    subst h
    exact tag_ok _ _ MQTT_CONNECT _ h1 (by decide) (by decide) (unpack_connect_rc _ _ _ _)
  by_cases h2 : readByte mem 0 &&& TYPE_MASK = CONNACK_TYPE
  · rw [unpack_connack_type u fuel packet mem buf_size h2]
    split_ifs
    · refine ⟨fun r h => ?_, fun _ _ => ⟨_, rfl⟩⟩
      rw [Option.some.injEq] at h
      subst h
      exact neg _ incorrect_flags_neg
    · refine ⟨fun r h => ?_, fun _ _ => ⟨_, rfl⟩⟩
      rw [Option.some.injEq] at h
      subst h
      exact neg _ malformed_neg
    · refine ⟨fun r h => ?_, fun _ _ => ⟨_, rfl⟩⟩
      rw [Option.some.injEq] at h
      subst h
      exact tag_ok _ _ MQTT_CONNACK _ h2 (by decide) (by decide) (unpack_connack_rc _ _ _ _)
  by_cases h3 : readByte mem 0 &&& TYPE_MASK = PUBLISH_TYPE
  · rw [unpack_publish_type u fuel packet mem buf_size h3]
    refine ⟨fun r h => ?_, fun _ _ => ⟨_, rfl⟩⟩
    rw [Option.some.injEq] at h
    subst h
    exact tag_ok _ _ MQTT_PUBLISH _ h3 (by decide) (by decide) (unpack_publish_rc _ _ _ _ _)
  by_cases h4 : readByte mem 0 &&& TYPE_MASK = PUBACK_TYPE
  · rw [unpack_puback_type u fuel packet mem buf_size h4]
    split_ifs
    · refine ⟨fun r h => ?_, fun _ _ => ⟨_, rfl⟩⟩
      rw [Option.some.injEq] at h
      subst h
      exact neg _ malformed_neg
    · refine ⟨fun r h => ?_, fun _ _ => ⟨_, rfl⟩⟩
      rw [Option.some.injEq] at h
      subst h
      exact neg _ oob_neg
    · refine ⟨fun r h => ?_, fun _ _ => ⟨_, rfl⟩⟩
      rw [Option.some.injEq] at h
      subst h
      exact tag_ok _ _ MQTT_PUBACK _ h4 (by decide) (by decide) (Or.inr rfl)
  by_cases h5 : readByte mem 0 &&& TYPE_MASK = SUBSCRIBE_TYPE
  · refine ⟨fun r h => ?_, fun hne _ => absurd h5 hne⟩
    rw [unpack_subscribe_type u fuel packet mem buf_size h5] at h
    split_ifs at h
    · rw [Option.some.injEq] at h
      subst h
      exact neg _ incorrect_flags_neg
    · split at h
      · exact absurd h (by simp)
      · rename_i x hx
        rw [Option.some.injEq] at h
        subst h
        refine tag_ok _ _ MQTT_SUBSCRIBE _ h5 (by decide) (by decide) ?_
        rcases unpack_subscribe_rc u fuel _ mem buf_size _ x hx with k | k
        · exact Or.inl (by show x.rc < 0; rw [k]; exact malformed_neg)
        · exact Or.inr k
  by_cases h6 : readByte mem 0 &&& TYPE_MASK = SUBACK_TYPE
  · rw [unpack_suback_type u fuel packet mem buf_size h6]
    refine ⟨fun r h => ?_, fun _ _ => ⟨_, rfl⟩⟩
    rw [Option.some.injEq] at h
    subst h
    exact tag_ok _ _ MQTT_SUBACK _ h6 (by decide) (by decide) (unpack_suback_rc _ _ _ _)
  by_cases h7 : readByte mem 0 &&& TYPE_MASK = UNSUBSCRIBE_TYPE
  · rw [unpack_unsubscribe_type u fuel packet mem buf_size h7]
    split_ifs
    · refine ⟨fun r h => ?_, fun _ _ => ⟨_, rfl⟩⟩
      rw [Option.some.injEq] at h
      subst h
      exact neg _ incorrect_flags_neg
    · constructor
      · intro r h
        split at h
        · exact absurd h (by simp)
        · rename_i x hx
          rw [Option.some.injEq] at h
          subst h
          exact tag_ok _ _ MQTT_UNSUBSCRIBE _ h7 (by decide) (by decide)
            (unpack_unsubscribe_rc u fuel _ mem buf_size _ x hx)
      · intro _ hfu
        obtain ⟨hf, hn⟩ := hfu h7
        obtain ⟨x, hx⟩ := unpack_unsubscribe_some u fuel packet.unsubscribe mem buf_size
          (hdrCursor mem) (by have := hdrCursor_acc mem; omega) hn hf
        rw [hx]
        exact ⟨_, rfl⟩
  by_cases h8 : readByte mem 0 &&& TYPE_MASK = DISCONNECT_TYPE
  · rw [unpack_disconnect_type u fuel packet mem buf_size h8]
    split_ifs
    · refine ⟨fun r h => ?_, fun _ _ => ⟨_, rfl⟩⟩
      rw [Option.some.injEq] at h
      subst h
      exact neg _ malformed_neg
    · refine ⟨fun r h => ?_, fun _ _ => ⟨_, rfl⟩⟩
      rw [Option.some.injEq] at h
      subst h
      exact tag_ok _ _ MQTT_DISCONNECT _ h8 (by decide) (by decide) (Or.inr rfl)
  rw [unpack_other_type u fuel packet mem buf_size h1 h2 h3 h4 h5 h6 h7 h8]
  refine ⟨fun r h => ?_, fun _ _ => ⟨_, rfl⟩⟩
  rw [Option.some.injEq] at h
  subst h
  exact neg _ generic_err_neg

/-- Instances of C25: a CONNACK `20 02 00 00` (the result is the tag 2) and a CONNACK with
flag nibble 1 (the result is negative). -/
theorem unpack_result_range_witness :
    (∃ r, unpack zeroUninit 0 mqtt_packet.zero [0x20, 2, 0, 0] 4 = some r ∧ r.rc = 2 ∧
      r.rc ≠ 0 ∧ (r.rc < 0 ∨
        (r.rc = ((readByte [0x20, 2, 0, 0] 0 / 16 % 16 : Nat) : Int) ∧
          r.rc ∈ ([1, 2, 3, 4, 8, 9, 10, 14] : List Int)))) ∧
    (∃ r, unpack zeroUninit 0 mqtt_packet.zero [0x21, 2, 0, 0] 4 = some r ∧
      r.rc ≠ 0 ∧ (r.rc < 0 ∨
        (r.rc = ((readByte [0x21, 2, 0, 0] 0 / 16 % 16 : Nat) : Int) ∧
          r.rc ∈ ([1, 2, 3, 4, 8, 9, 10, 14] : List Int)))) := by
  constructor
  · obtain ⟨r, hr⟩ := (unpack_result_range zeroUninit 0 mqtt_packet.zero [0x20, 2, 0, 0] 4).2
      (by decide) (by decide)
    have h2 : (unpack zeroUninit 0 mqtt_packet.zero [0x20, 2, 0, 0] 4).map (fun r => r.rc) =
        some 2 := by decide
    rw [hr, Option.map_some', Option.some.injEq] at h2
    exact ⟨r, hr, h2,
      (unpack_result_range zeroUninit 0 mqtt_packet.zero [0x20, 2, 0, 0] 4).1 r hr⟩
  · obtain ⟨r, hr⟩ := (unpack_result_range zeroUninit 0 mqtt_packet.zero [0x21, 2, 0, 0] 4).2
      (by decide) (by decide)
    exact ⟨r, hr, (unpack_result_range zeroUninit 0 mqtt_packet.zero [0x21, 2, 0, 0] 4).1 r hr⟩

/-! ## SUBACK -/

/-- The return code loop of `unpack_suback` on `codes`, the last bytes of the buffer: with
every code one of 0, 1, 2, `0x80` it stores them all, otherwise it returns
`MALFORMED_PACKET`. -/
theorem unpack_suback_loop_codes (mem : List Nat) (hlen : mem.length < 2 ^ 31) :
    ∀ (codes done : List Nat) (c : Cursor), At mem c codes →
      ((∀ x ∈ codes, x ∈ [0, 1, 2, 128]) →
        ∃ c1, unpack_suback_loop mem mem.length codes.length done c =
          ⟨MQTT_SUBACK, done ++ codes, c1⟩) ∧
      ((∃ x ∈ codes, x ∉ [0, 1, 2, 128]) →
        (unpack_suback_loop mem mem.length codes.length done c).rc = MALFORMED_PACKET) := by
  intro codes
  induction codes with
  | nil =>
    intro done c _
    constructor
    · intro _
      exact ⟨c, by rw [List.length_nil, unpack_suback_loop, List.append_nil]⟩
    · rintro ⟨x, hx, -⟩
      exact absurd hx (List.not_mem_nil _)
  | cons x rest ih =>
    intro done c hat
    obtain ⟨c1, e1, a1⟩ := unpack_uint8_at mem c x rest hlen hat
    obtain ⟨ihv, ihm⟩ := ih (done ++ [x]) c1 a1
    rw [List.length_cons, unpack_suback_loop]
    simp only [e1, natCast_not_neg, if_false]
    by_cases hx : x ∈ [0, 1, 2, 128]
    · have hcond : ¬ ((x : Int) ≠ QOS_0 ∧ (x : Int) ≠ QOS_1 ∧ (x : Int) ≠ QOS_2 ∧
          (x : Int) ≠ (SUBACK_FAIL : Int)) := by
        simp only [List.mem_cons, List.mem_singleton, List.mem_nil_iff, or_false] at hx
        rcases hx with rfl | rfl | rfl | rfl <;> decide
      have hu : u8 (x : Int) = x := by
        simp only [List.mem_cons, List.mem_singleton, List.mem_nil_iff, or_false] at hx
        rcases hx with rfl | rfl | rfl | rfl <;> decide
      simp only [hcond, if_false, hu]
      constructor
      · intro hall
        obtain ⟨c2, e2⟩ := ihv (fun y hy => hall y (List.mem_cons_of_mem _ hy))
        exact ⟨c2, by rw [e2, List.append_assoc]; rfl⟩
      · rintro ⟨y, hy, hbad⟩
        rcases List.mem_cons.mp hy with rfl | hy
        · exact absurd hx hbad
        · exact ihm ⟨y, hy, hbad⟩
    · have hcond : (x : Int) ≠ QOS_0 ∧ (x : Int) ≠ QOS_1 ∧ (x : Int) ≠ QOS_2 ∧
          (x : Int) ≠ (SUBACK_FAIL : Int) := by
        simp only [List.mem_cons, List.mem_singleton, List.mem_nil_iff, or_false, not_or] at hx
        obtain ⟨h0, h1, h2, h3⟩ := hx
        simp only [QOS_0, QOS_1, QOS_2, SUBACK_FAIL]
        refine ⟨?_, ?_, ?_, ?_⟩ <;> omega
      rw [if_pos hcond]
      constructor
      · intro hall
        exact absurd (hall x (List.mem_cons_self _ _)) hx
      · intro _
        rfl

/-- C function `unpack_suback` on a buffer of at most 65535 bytes that ends with a packet
identifier `a, b` and the bytes `codes`. -/
theorem unpack_suback_codes (s : mqtt_suback) (mem : List Nat) (c : Cursor) (a b : Nat)
    (codes : List Nat) (ha : a < 256) (hb : b < 256) (hlen : mem.length ≤ 65535)
    (hat : At mem c (a :: b :: codes)) :
    ((codes = [] ∨ ∃ x ∈ codes, x ∉ [0, 1, 2, 128]) →
      (unpack_suback s mem mem.length c).rc = MALFORMED_PACKET) ∧
    (codes ≠ [] → (∀ x ∈ codes, x ∈ [0, 1, 2, 128]) →
      (unpack_suback s mem mem.length c).rc = MQTT_SUBACK ∧
      (unpack_suback s mem mem.length c).val =
        { pkt_id := a * 256 + b, return_codes := codes, rc_len := codes.length }) := by
  have hl31 : mem.length < 2 ^ 31 := by omega
  obtain ⟨c1, e1, a1⟩ := unpack_uint16_at mem c a b codes hl31 hat
  have hacc := at_acc mem c1 codes a1
  have hcl : codes.length ≤ mem.length := by
    obtain ⟨-, pre, hmem, -⟩ := a1
    rw [hmem, List.length_append]
    omega
  have hrc : u16 (((mem.length % 65536 : Nat) : Int) - ((u16 c1.acc : Nat) : Int)) =
      codes.length := by
    rw [hacc]
    unfold u16
    omega
  have hid : u16 (((a * 256 + b : Nat) : Nat) : Int) = a * 256 + b := u16_natCast _ (by omega)
  obtain ⟨hv, hm⟩ := unpack_suback_loop_codes mem hl31 codes [] c1 a1
  unfold unpack_suback
  simp only [e1, natCast_not_neg, if_false, hrc, hid]
  constructor
  · rintro (h | h)
    · subst h
      simp only [List.length_nil, if_true]
    · have hne : codes.length ≠ 0 := by
        obtain ⟨x, hx, -⟩ := h
        exact fun h0 => List.not_mem_nil x (List.length_eq_zero.mp h0 ▸ hx)
      simp only [hne, if_false]
      exact hm h
  · intro hne hall
    have hne1 : codes.length ≠ 0 := fun h0 => hne (List.length_eq_zero.mp h0)
    obtain ⟨c2, e2⟩ := hv hall
    simp only [hne1, if_false, e2, List.nil_append]
    exact ⟨trivial, trivial⟩

/-- C22: for every SUBACK buffer of at most 65535 bytes that holds, after the fixed header, a
packet identifier (the bytes `a`, `b`) followed by the return-code bytes `codes`, `unpack`
returns `MALFORMED_PACKET` if there is no return code or some return code is not one of 0,
1, 2, `0x80`, and otherwise returns `MQTT_SUBACK` with that packet identifier, `rc_len`
the number of codes and `return_codes` those bytes in order. -/
theorem unpack_suback_return_codes (u : Uninit) (fuel : Nat) (packet : mqtt_packet)
    (mem : List Nat) (a b : Nat) (codes : List Nat)
    (ht : readByte mem 0 &&& TYPE_MASK = SUBACK_TYPE) (ha : a < 256) (hb : b < 256)
    (hlen : mem.length ≤ 65535) (hat : At mem (hdrCursor mem) (a :: b :: codes)) :
    ∃ r, unpack u fuel packet mem mem.length = some r ∧
      ((codes = [] ∨ ∃ x ∈ codes, x ∉ [0, 1, 2, 128]) → r.rc = MALFORMED_PACKET) ∧
      (codes ≠ [] → (∀ x ∈ codes, x ∈ [0, 1, 2, 128]) →
        r.rc = MQTT_SUBACK ∧ r.val.suback.pkt_id = a * 256 + b ∧
        r.val.suback.rc_len = codes.length ∧ r.val.suback.return_codes = codes) := by
  obtain ⟨hm, hv⟩ := unpack_suback_codes packet.suback mem (hdrCursor mem) a b codes ha hb
    hlen hat
  rw [unpack_suback_type u fuel packet mem mem.length ht]
  refine ⟨_, rfl, hm, fun hne hall => ?_⟩
  obtain ⟨h1, h2⟩ := hv hne hall
  refine ⟨h1, ?_, ?_, ?_⟩
  · show (unpack_suback packet.suback mem mem.length (hdrCursor mem)).val.pkt_id = _
    rw [h2]
  · show (unpack_suback packet.suback mem mem.length (hdrCursor mem)).val.rc_len = _
    rw [h2]
  · show (unpack_suback packet.suback mem mem.length (hdrCursor mem)).val.return_codes = _
    rw [h2]

/-- Instances of C22: the SUBACK `90 05 00 07 00 01 80` gives the packet identifier 7 and the
codes 0, 1, `0x80`; with the code 3 in place of 1 it is malformed. -/
theorem unpack_suback_return_codes_witness :
    (∃ r, unpack zeroUninit 0 mqtt_packet.zero [0x90, 5, 0, 7, 0, 1, 128] 7 = some r ∧
      r.rc = MQTT_SUBACK ∧ r.val.suback.pkt_id = 7 ∧ r.val.suback.rc_len = 3 ∧
      r.val.suback.return_codes = [0, 1, 128]) ∧
    (∃ r, unpack zeroUninit 0 mqtt_packet.zero [0x90, 5, 0, 7, 0, 3, 128] 7 = some r ∧
      r.rc = MALFORMED_PACKET) := by
  constructor
  · obtain ⟨r, hr, -, hv⟩ := unpack_suback_return_codes zeroUninit 0 mqtt_packet.zero
      [0x90, 5, 0, 7, 0, 1, 128] 0 7 [0, 1, 128] (by decide) (by decide) (by decide)
      (by decide) ⟨by decide, [0x90, 5], rfl, by decide⟩
    exact ⟨r, hr, hv (by decide) (by decide)⟩
  · obtain ⟨r, hr, hm, -⟩ := unpack_suback_return_codes zeroUninit 0 mqtt_packet.zero
      [0x90, 5, 0, 7, 0, 3, 128] 0 7 [0, 3, 128] (by decide) (by decide) (by decide)
      (by decide) ⟨by decide, [0x90, 5], rfl, by decide⟩
    exact ⟨r, hr, hm (Or.inr ⟨3, by decide, by decide⟩)⟩

/-! ## SUBSCRIBE tuples with an unsupported QoS -/

/-- C21 fails.  In `unpack_subscribe` a tuple whose requested QoS is above 1 gets
`suback_status = 0x80`, but `continue` skips `++i`: the next tuple is stored over it and
keeps the mark.  Of the SUBSCRIBE `82 0A 00 01 00 01 61 02 00 01 62 01` (topic `a` with
QoS 2, then topic `b` with QoS 1) `unpack` returns `MQTT_SUBSCRIBE` with `tuples_len = 1`,
the one tuple being `b` with QoS 1 and status `0x80`; with the two QoS bytes exchanged it
returns `tuples_len = 1` with `a` at status 1, the failed `b` lying beyond `tuples_len`;
and a SUBSCRIBE whose only tuple requests QoS 2 gives `MALFORMED_PACKET`.  (Fresh array
elements are taken to be zero.) -/
theorem unpack_subscribe_bad_qos_not_counted :
    (unpack zeroUninit 5 mqtt_packet.zero [0x82, 10, 0, 1, 0, 1, 97, 2, 0, 1, 98, 1] 12).map
        (fun r => (r.rc, r.val.subscribe)) =
      some (MQTT_SUBSCRIBE,
        { pkt_id := 1, tuples_len := 1
          tuples :=
            [{ topic := some [98, 0], topic_len := 1, qos := 1, suback_status := 128 }] }) ∧
    (unpack zeroUninit 5 mqtt_packet.zero [0x82, 10, 0, 1, 0, 1, 97, 1, 0, 1, 98, 2] 12).map
        (fun r => (r.rc, r.val.subscribe)) =
      some (MQTT_SUBSCRIBE,
        { pkt_id := 1, tuples_len := 1
          tuples := [{ topic := some [97, 0], topic_len := 1, qos := 1, suback_status := 1 },
            { topic := some [98, 0], topic_len := 1, qos := 0, suback_status := 128 }] }) ∧
    (unpack zeroUninit 5 mqtt_packet.zero [0x82, 6, 0, 1, 0, 1, 97, 2] 8).map
        (fun r => (r.rc, r.val.subscribe)) =
      some (MALFORMED_PACKET,
        { pkt_id := 1, tuples_len := 0
          tuples :=
            [{ topic := some [97, 0], topic_len := 1, qos := 0, suback_status := 128 }] }) := by
  refine ⟨?_, ?_, ?_⟩ <;> decide

/-- C23 fails.  The PUBACK and SUBACK cases of `unpack` do not look at the flag nibble: the
PUBACK `41 02 00 01` (flag nibble 1) gives `MQTT_PUBACK` with packet identifier 1, and the
SUBACK `9F 03 00 01 00` (flag nibble 15) gives `MQTT_SUBACK`. -/
theorem unpack_puback_suback_flags_unchecked :
    (unpack zeroUninit 0 mqtt_packet.zero [0x41, 2, 0, 1] 4).map
        (fun r => (r.rc, r.val.puback.pkt_id)) = some (MQTT_PUBACK, 1) ∧
    (unpack zeroUninit 0 mqtt_packet.zero [0x9F, 3, 0, 1, 0] 5).map
        (fun r => (r.rc, r.val.suback.pkt_id, r.val.suback.return_codes)) =
      some (MQTT_SUBACK, 1, [0]) := by
  constructor <;> decide

/-- C26 fails.  `unpack` stores the value `0xFFFFFFFF`, which `decode_remaining_length`
returns for a Remaining Length field of more than four bytes, without testing it: the
SUBACK `90 83 80 80 80 00 00 01 00` gives `MQTT_SUBACK` and the DISCONNECT
`E0 FF FF FF FF 7F` gives `MQTT_DISCONNECT`, both with `remaining_length = 0xFFFFFFFF`. -/
theorem unpack_accepts_sentinel_length :
    (unpack zeroUninit 0 mqtt_packet.zero [0x90, 0x83, 0x80, 0x80, 0x80, 0x00, 0, 1, 0] 9).map
        (fun r => (r.rc, r.val.header.remaining_length)) = some (MQTT_SUBACK, 0xFFFFFFFF) ∧
    (unpack zeroUninit 0 mqtt_packet.zero [0xE0, 0xFF, 0xFF, 0xFF, 0xFF, 0x7F] 6).map
        (fun r => (r.rc, r.val.header.remaining_length)) = some (MQTT_DISCONNECT, 0xFFFFFFFF) := by
  constructor <;> decide

/-- C27 fails.  With the will flag set and no will topic, `pack_connect` sets
`MALFORMED_PACKET` in the will branch and goes on packing; `finalize_packet` then returns
the reallocated buffer with that code: 19 bytes (the 17 bytes packed and the two bytes
added by the reallocation, shown as 0) together with `return_code = MALFORMED_PACKET`. -/
theorem pack_connect_error_with_buffer :
    pack_connect willNoTopic =
      { buf := some [0, 4, 77, 81, 84, 84, 4, 4, 0, 0, 0, 1, 97, 0, 0, 0, 0, 0, 0]
        buf_len := 19
        return_code := MALFORMED_PACKET } := by
  decide

/-- C29 fails.  The sanity loop of `pack_subscribe` tests `sub->tuples->...`, the first
tuple, in every iteration: with a valid first tuple, a second tuple with QoS 0 and a second
tuple without a topic are both packed with return code 0. -/
theorem pack_subscribe_checks_first_tuple_only :
    pack_subscribe { pkt_id := 1, tuples_len := 2, tuples := [tupleA 1, tupleB 0] } =
      { buf := some [0x82, 10, 0, 1, 0, 1, 97, 1, 0, 1, 98, 0], buf_len := 12,
        return_code := 0 } ∧
    pack_subscribe { pkt_id := 1, tuples_len := 2, tuples := [tupleA 1, tupleNoTopic] } =
      { buf := some [0x82, 9, 0, 1, 0, 1, 97, 1, 0, 0, 1], buf_len := 11, return_code := 0 } := by
  constructor <;> decide

/-- C30 fails.  The sanity loop of `pack_unsubscribe` tests QoS, topic and topic length of
the first tuple in every iteration: the one-tuple input of topic `a` is rejected with QoS 0
and packed as `A2 05 00 01 00 01 61` with QoS 1, and a second tuple without a topic is
packed with return code 0. -/
theorem pack_unsubscribe_checks_first_qos :
    pack_unsubscribe { pkt_id := 1, tuples_len := 1, tuples := [tupleA 0] } =
      { buf := none, buf_len := 0, return_code := MALFORMED_PACKET } ∧
    pack_unsubscribe { pkt_id := 1, tuples_len := 1, tuples := [tupleA 1] } =
      { buf := some [0xA2, 5, 0, 1, 0, 1, 97], buf_len := 7, return_code := 0 } ∧
    pack_unsubscribe { pkt_id := 1, tuples_len := 2, tuples := [tupleA 1, tupleNoTopic] } =
      { buf := some [0xA2, 7, 0, 1, 0, 1, 97, 0, 0], buf_len := 9, return_code := 0 } := by
  refine ⟨?_, ?_, ?_⟩ <;> decide

/-! ## Return codes of the encoders -/

/-- C31: for every buffer holding a body of `n ≤ 268435455` bytes (no error recorded) and every
header byte `h`, `finalize_packet` called with `n` returns return code 0 and the buffer
`[h] ++ encode_remaining_length(n) ++ body`, of length `1 + count + n` where `count` is the
value `encode_remaining_length` returns; the body is what follows the first `1 + count`
bytes, and decoding the Remaining Length behind the header byte gives back `n`, the number of
bytes that follow it, and leaves the cursor at the start of the body. -/
theorem finalize_packet_layout (st : packing_status) (body : List Nat) (h : Nat)
    (hst : Holds st body) (hn : body.length ≤ 268435455) :
    (finalize_packet st body.length h).return_code = 0 ∧
    (finalize_packet st body.length h).buf =
      some ([h % 256] ++ (encode_remaining_length body.length).2 ++ body) ∧
    ((finalize_packet st body.length h).buf_len : Int) =
      1 + (encode_remaining_length body.length).1 + (body.length : Int) ∧
    (((finalize_packet st body.length h).buf.getD []).drop
        (1 + (encode_remaining_length body.length).2.length)) = body ∧
    (decode_remaining_length ((finalize_packet st body.length h).buf.getD [])
        { pos := 1, acc := 1, reads := [0] }).1 = body.length ∧
    At ((finalize_packet st body.length h).buf.getD [])
      (hdrCursor ((finalize_packet st body.length h).buf.getD [])) body := by
  have hf := finalize_packet_holds st body h hst
  rw [hst.2.1] at hf
  have hd := hdr_at (h % 256) body.length hn body
  rw [hf]
  refine ⟨rfl, by simp, ?_, ?_, ?_, ?_⟩
  · rw [encode_remaining_length_count]; push_cast; ring
  · simp only [Option.getD_some]
    rw [Nat.add_comm, List.drop_succ_cons]
    exact List.drop_left' rfl
  · exact hd.1
  · exact hd.2

/-- Instance of C31: the body `00 07` (a packet identifier) behind the PUBACK header byte. -/
theorem finalize_packet_layout_witness :
    (finalize_packet { buf := some [0, 7], buf_len := 2, return_code := 0 } 2 0x40).buf =
      some [0x40, 2, 0, 7] :=
  (finalize_packet_layout { buf := some [0, 7], buf_len := 2, return_code := 0 } [0, 7] 0x40
    ⟨rfl, rfl, rfl⟩ (by decide)).2.1

/-! ## The reader `unpack_uint16` -/

/-- The buffer after `pack16` has appended `v` to the bytes `b`. -/
theorem pack16_buf (st : packing_status) (b : List Nat) (v : Nat) (h : Holds st b) :
    (pack16 st v).2.buf.getD [] = b ++ [v % 65536 / 256, v % 65536 % 256] := by
  have := (pack16_holds st b v FAILED_MEM_ALLOC h).1
  simpa [CHECK_call, CHECK, pack16, pack_bytes] using this

/-- C39: for a cursor whose `accumulated_size` is a non-negative `int`, `unpack_uint16`
succeeds (returns a value other than `-1`) if and only if `accumulated_size + 2 ≤ buf_len`.
On success the value is `256 * b0 + b1` for the bytes `b0`, `b1` at the cursor, and the
position and `accumulated_size` both advance by exactly 2; on failure the value is `-1` and
the cursor is unchanged.  Read at the place where `pack16` wrote a 16-bit value `v`, it
returns `v`. -/
theorem unpack_uint16_spec (mem : List Nat) (buf_len : Nat) (c : Cursor) (h0 : 0 ≤ c.acc)
    (h1 : c.acc < 2 ^ 31) :
    ((unpack_uint16 mem buf_len c).1 ≠ -1 ↔ c.acc + 2 ≤ (buf_len : Int)) ∧
    (c.acc + 2 ≤ (buf_len : Int) →
      (unpack_uint16 mem buf_len c).1 =
        ((256 * readByte mem c.pos + readByte mem (c.pos + 1) : Nat) : Int) ∧
      (unpack_uint16 mem buf_len c).2.pos = c.pos + 2 ∧
      (unpack_uint16 mem buf_len c).2.acc = c.acc + 2 ∧
      (unpack_uint16 mem buf_len c).2.reads = c.reads ++ [c.pos, c.pos + 1]) ∧
    (¬ c.acc + 2 ≤ (buf_len : Int) → unpack_uint16 mem buf_len c = (-1, c)) ∧
    (∀ (st : packing_status) (b : List Nat) (v : Nat), Holds st b → v < 65536 →
      c.pos = b.length → mem = (pack16 st v).2.buf.getD [] → c.acc + 2 ≤ (buf_len : Int) →
      (unpack_uint16 mem buf_len c).1 = (v : Int)) := by
  have hs : to_size (c.acc + 2) = c.acc + 2 := to_size_of_nonneg _ (by omega) (by omega)
  have hok : c.acc + 2 ≤ (buf_len : Int) → unpack_uint16 mem buf_len c =
      (((readByte mem c.pos * 256 + readByte mem (c.pos + 1) : Nat) : Int),
        { pos := c.pos + 2, acc := c.acc + 2, reads := c.reads ++ [c.pos, c.pos + 1] }) := by
    intro h
    unfold unpack_uint16
    rw [hs, if_neg (by omega)]
  have hfail : ¬ c.acc + 2 ≤ (buf_len : Int) → unpack_uint16 mem buf_len c = (-1, c) := by
    intro h
    unfold unpack_uint16
    rw [hs, if_pos (by omega)]
  refine ⟨?_, ?_, hfail, ?_⟩
  · constructor
    · intro hne
      by_contra hc
      exact hne (by rw [hfail hc])
    · intro h
      rw [hok h]
      simp only
      omega
  · intro h
    rw [hok h]
    refine ⟨?_, rfl, rfl, rfl⟩
    simp only
    push_cast
    ring
  · intro st b v hst hv hpos hmem h
    rw [hok h]
    have hb := pack16_buf st b v hst
    rw [Nat.mod_eq_of_lt hv] at hb
    have r0 : readByte mem c.pos = v / 256 := by
      rw [hmem, hb, hpos]
      simpa using readByte_append_right b [v / 256, v % 256] 0
    have r1 : readByte mem (c.pos + 1) = v % 256 := by
      rw [hmem, hb, hpos]
      simpa using readByte_append_right b [v / 256, v % 256] 1
    simp only [r0, r1]
    congr 1
    omega

/-- Instance of C39: the bytes `01 02` read with two bytes available give 258, and with one
byte available the read fails. -/
theorem unpack_uint16_spec_witness :
    (unpack_uint16 [1, 2] 2 Cursor.start).1 = 258 ∧
    unpack_uint16 [1, 2] 1 Cursor.start = (-1, Cursor.start) :=
  ⟨((unpack_uint16_spec [1, 2] 2 Cursor.start (by decide) (by decide)).2.1 (by decide)).1,
   (unpack_uint16_spec [1, 2] 1 Cursor.start (by decide) (by decide)).2.2.1 (by decide)⟩

/-! ## The first byte of a PUBLISH packet -/

/-- When the cursor stands before the size passed but fewer than two bytes are left, an
iteration of the tuple loop fails at the topic length and `continue`s with the index and the
cursor unchanged: the loop does not finish within any bound. -/
theorem subscribe_loop_stuck (u : Uninit) (mem : List Nat) (n : Nat) (c : Cursor) (i : Nat)
    (h0 : 0 ≤ c.acc) (hn : n < 2 ^ 31) (h1 : c.acc < (n : Int)) (h2 : (n : Int) < c.acc + 2) :
    ∀ (fuel : Nat) (tuples : List subscribe_tuples),
      unpack_subscribe_loop u mem n false fuel tuples i c = none := by
  intro fuel
  induction fuel with
  | zero => intro tuples; rfl
  | succ f ih =>
    intro tuples
    have e1 := unpack_uint16_fail mem n c h0 h2 (by omega)
    have hc : c.acc < to_int n := by rw [to_int_of_lt _ hn]; exact h1
    rw [unpack_subscribe_loop, if_pos hc]
    simp only [Bool.false_eq_true, if_false, e1]
    rw [if_pos (by decide)]
    exact ih _

/-- After a packet identifier that is zero or could not be read, an iteration of the tuple
loop only marks the tuple and `continue`s: the loop does not finish within any bound while
the cursor stands before the size passed. -/
theorem subscribe_loop_stuck_global (u : Uninit) (mem : List Nat) (n : Nat) (c : Cursor)
    (i : Nat) (h : c.acc < to_int n) :
    ∀ (fuel : Nat) (tuples : List subscribe_tuples),
      unpack_subscribe_loop u mem n true fuel tuples i c = none := by
  intro fuel
  induction fuel with
  | zero => intro tuples; rfl
  | succ f ih =>
    intro tuples
    rw [unpack_subscribe_loop, if_pos h]
    simp only [if_true]
    exact ih _

/-- C40 fails. On the SUBSCRIBE buffer `82 03 00 01 00` (packet identifier 1 followed by one
byte) with `buf_size = 5`, the tuple loop of `unpack_subscribe` fails to read the topic length
and repeats at the same position: `unpack` returns no result, whatever bound is put on the
number of iterations.  The same holds for `82 03 00 00 00`, where the packet identifier is
zero and every iteration `continue`s before anything is read. -/
theorem unpack_subscribe_never_returns (u : Uninit) (fuel : Nat) (packet : mqtt_packet) :
    unpack u fuel packet [0x82, 3, 0, 1, 0] 5 = none ∧
    unpack u fuel packet [0x82, 3, 0, 0, 0] 5 = none := by
  constructor
  · rw [unpack_subscribe_type u fuel packet _ 5 (by decide), if_neg (by decide)]
    have hc : hdrCursor [0x82, 3, 0, 1, 0] = { pos := 2, acc := 2, reads := [0, 1] } := by
      unfold hdrCursor
      rw [decode_one_byte 0x82 3 [0, 1, 0] (by decide)]
    have e1 : unpack_uint16 [0x82, 3, 0, 1, 0] 5 { pos := 2, acc := 2, reads := [0, 1] } =
        (1, { pos := 4, acc := 4, reads := [0, 1, 2, 3] }) := by decide
    have hs := subscribe_loop_stuck u [0x82, 3, 0, 1, 0] 5
      { pos := 4, acc := 4, reads := [0, 1, 2, 3] } 0 (by decide) (by decide) (by decide)
      (by decide) fuel packet.subscribe.tuples
    simp only [unpack_subscribe, hc, e1]
    rw [show decide ((1 : Int) ≤ 0) = false by decide, hs]
  · rw [unpack_subscribe_type u fuel packet _ 5 (by decide), if_neg (by decide)]
    have hc : hdrCursor [0x82, 3, 0, 0, 0] = { pos := 2, acc := 2, reads := [0, 1] } := by
      unfold hdrCursor
      rw [decode_one_byte 0x82 3 [0, 0, 0] (by decide)]
    have e1 : unpack_uint16 [0x82, 3, 0, 0, 0] 5 { pos := 2, acc := 2, reads := [0, 1] } =
        (0, { pos := 4, acc := 4, reads := [0, 1, 2, 3] }) := by decide
    have hs := subscribe_loop_stuck_global u [0x82, 3, 0, 0, 0] 5
      { pos := 4, acc := 4, reads := [0, 1, 2, 3] } 0 (by decide) fuel packet.subscribe.tuples
    simp only [unpack_subscribe, hc, e1]
    rw [show decide ((0 : Int) ≤ 0) = true by decide, hs]

/-! ## The subscription registry -/

/-- C library function `strcmp` returns 0 exactly when the two blocks hold the same string. -/
theorem strcmp_eq_zero_iff (a b : List Nat) : strcmp a b = 0 ↔ cstr a = cstr b := by
  induction a generalizing b with
  | nil =>
    cases b with
    | nil => simp [strcmp, cstr]
    | cons y b =>
      by_cases hy : y = 0
      · simp [strcmp, cstr, hy]
      · simp [strcmp, cstr, hy]
  | cons x a ih =>
    cases b with
    | nil =>
      by_cases hx : x = 0
      · simp [strcmp, cstr, hx]
      · simp [strcmp, cstr, hx]
    | cons y b =>
      by_cases hxy : x = y
      · subst hxy
        by_cases hx : x = 0
        · simp [strcmp, cstr, hx]
        · have := ih b
          simp only [strcmp, cstr, ne_eq, not_true_eq_false, if_false, hx] at this ⊢
          simp [List.takeWhile_cons, hx, this]
      · by_cases hx : x = 0
        · have hy : y ≠ 0 := fun h => hxy (by rw [hx, h])
          simp only [strcmp, cstr, ne_eq, hxy, not_false_eq_true, if_true]
          subst hx
          simp [List.takeWhile_cons, hy]
          split_ifs <;> decide
        · simp only [strcmp, cstr, ne_eq, hxy, not_false_eq_true, if_true]
          have hne : ¬ (List.takeWhile (fun b => decide (b ≠ 0)) (x :: a) =
              List.takeWhile (fun b => decide (b ≠ 0)) (y :: b)) := by
            rw [List.takeWhile_cons, List.takeWhile_cons]
            simp only [ne_eq, hx, not_false_eq_true, decide_True, if_true]
            by_cases hy : y = 0
            · simp [hy]
            · simp [hy, hxy]
          simp only [hne, iff_false]
          split_ifs <;> decide

/-- The scan of `match_topic` from index `pre.length` on returns the first of the remaining
entries whose topic is the filter string, and `fail_ret` when there is none. -/
theorem match_topic_loop_find (filter : CStr) (l : vector) (rest pre : List app_subscription_entry)
    (h : l.data = pre ++ rest) :
    match_topic_loop filter l rest.length pre.length =
      (rest.find? (fun e => decide (strOf e.sub_properties.topic = strOf filter))).getD
        fail_ret := by
  induction rest generalizing pre with
  | nil => rfl
  | cons e rest ih =>
    have hget : l.data.getD pre.length default = e := by
      rw [h, List.getD_append_right _ _ _ _ (le_refl _)]
      simp
    simp only [List.length_cons, match_topic_loop, hget, strcmp_eq_zero_iff, List.find?_cons]
    by_cases hm : strOf e.sub_properties.topic = strOf filter
    · have hm1 : cstr (e.sub_properties.topic.getD []) = cstr (filter.getD []) := hm
      simp [hm, hm1]
    · have hm1 : ¬ cstr (e.sub_properties.topic.getD []) = cstr (filter.getD []) := hm
      simp only [hm, hm1, if_false, decide_False]
      have := ih (pre ++ [e]) (by rw [h]; simp)
      simpa using this

/-- C function `match_topic` as a search of the stored entries. -/
theorem match_topic_find (filter : CStr) (l : vector) (hsize : l.size = l.data.length) :
    match_topic filter l =
      (l.data.find? (fun e => decide (strOf e.sub_properties.topic = strOf filter))).getD
        fail_ret := by
  unfold match_topic
  rw [hsize]
  exact match_topic_loop_find filter l l.data [] rfl

/-- C function `push` appends the item to the stored entries. -/
theorem push_data (l : vector) (e : app_subscription_entry) (hsize : l.size = l.data.length) :
    (push l e).data = l.data ++ [e] ∧ (push l e).size = (push l e).data.length := by
  unfold push
  split_ifs <;> simp [hsize]

/-- The result of `match_topic` when the entry `e` is the first whose topic is the filter. -/
theorem match_topic_at (filter : CStr) (l : vector) (hsize : l.size = l.data.length)
    (pre post : List app_subscription_entry) (e : app_subscription_entry)
    (hdata : l.data = pre ++ e :: post)
    (hpre : ∀ x ∈ pre, strOf x.sub_properties.topic ≠ strOf filter)
    (he : strOf e.sub_properties.topic = strOf filter) : match_topic filter l = e := by
  rw [match_topic_find filter l hsize, hdata, List.find?_append]
  have h1 : List.find? (fun e => decide (strOf e.sub_properties.topic = strOf filter)) pre
      = none := by
    rw [List.find?_eq_none]
    intro x hx
    simpa using hpre x hx
  rw [h1]
  simp [List.find?_cons, he]

/-- The result of `match_topic` when no entry has the filter as its topic. -/
theorem match_topic_none (filter : CStr) (l : vector) (hsize : l.size = l.data.length)
    (h : ∀ x ∈ l.data, strOf x.sub_properties.topic ≠ strOf filter) :
    match_topic filter l = fail_ret := by
  rw [match_topic_find filter l hsize]
  have h1 : List.find? (fun e => decide (strOf e.sub_properties.topic = strOf filter)) l.data
      = none := by
    rw [List.find?_eq_none]
    intro x hx
    simpa using h x hx
  rw [h1]
  rfl

/-- C32: for every registry (a vector whose `size` counts its stored entries) and every
filter, `match_topic` returns the first stored entry, in the order of storage, whose topic is
the same string as the filter: an entry preceded only by entries with other topics is
returned as it is.  It returns the empty entry `fail_ret` (null topic, no commands) when no
entry has that topic, and, the topics of the entries being non-null, only then.  Entries
are stored in the order in which `push` is called. -/
theorem match_topic_first_match (filter : CStr) (l : vector) (hsize : l.size = l.data.length) :
    (∀ (pre post : List app_subscription_entry) (e : app_subscription_entry),
      l.data = pre ++ e :: post →
      (∀ x ∈ pre, strOf x.sub_properties.topic ≠ strOf filter) →
      strOf e.sub_properties.topic = strOf filter → match_topic filter l = e) ∧
    ((∀ x ∈ l.data, strOf x.sub_properties.topic ≠ strOf filter) →
      match_topic filter l = fail_ret) ∧
    ((∀ x ∈ l.data, x.sub_properties.topic ≠ none) → match_topic filter l = fail_ret →
      ∀ x ∈ l.data, strOf x.sub_properties.topic ≠ strOf filter) ∧
    (fail_ret.sub_properties.topic = none ∧ fail_ret.command_count = 0) ∧
    (∀ e, (push l e).data = l.data ++ [e] ∧ (push l e).size = (push l e).data.length) := by
  refine ⟨fun pre post e hd hp he => match_topic_at filter l hsize pre post e hd hp he,
    match_topic_none filter l hsize, ?_, ⟨rfl, rfl⟩, fun e => push_data l e hsize⟩
  intro hnn hfail x hx hm
  rw [match_topic_find filter l hsize] at hfail
  cases hf : List.find? (fun e => decide (strOf e.sub_properties.topic = strOf filter)) l.data with
  | none =>
    rw [List.find?_eq_none] at hf
    exact hf x hx (by simpa using hm)
  | some y =>
    rw [hf] at hfail
    have hy : y ∈ l.data := List.mem_of_find?_eq_some hf
    have : y = fail_ret := hfail
    exact hnn y hy (by rw [this]; rfl)

/-- Instance of C32: in the registry that holds the entries for `"home/#"` and
`"home/chris/smart_led"`, stored in this order, the filter `"home/chris/smart_led"` yields
the second entry (the first is no match: no wildcard is expanded), and the filter `"on"`
yields the empty entry. -/
theorem match_topic_first_match_witness :
    match_topic ledTopic (push (push emptyRegistry hashEntry) ledEntry) = ledEntry ∧
    match_topic (some [111, 110, 0]) (push (push emptyRegistry hashEntry) ledEntry)
      = fail_ret :=
  ⟨(match_topic_first_match ledTopic (push (push emptyRegistry hashEntry) ledEntry)
      (by decide)).1 [hashEntry] [] ledEntry (by decide) (by decide) (by decide),
   (match_topic_first_match (some [111, 110, 0]) (push (push emptyRegistry hashEntry) ledEntry)
      (by decide)).2.1 (by decide)⟩

/-! ## Inbound PUBLISH packets -/

/-- C34: for every registry and every publish struct whose topic is the topic of no stored
entry, `mqtt_client_handle_publish` returns `-1` and leaves the world as it was: no callback
is invoked and `send` is not called. -/
theorem handle_publish_unknown_topic (pub : mqtt_publish) (l : vector) (w : World)
    (hsize : l.size = l.data.length)
    (hno : ∀ x ∈ l.data, strOf x.sub_properties.topic ≠ strOf pub.topic) :
    mqtt_client_handle_publish pub l w = (-1, w) := by
  have hm := match_topic_none pub.topic l hsize hno
  simp only [mqtt_client_handle_publish, hm]
  rfl

/-- Instance of C34: a PUBLISH to `"home/chris/smart_led"` when the registry holds only the
entry for `"home/#"`. -/
theorem handle_publish_unknown_topic_witness :
    mqtt_client_handle_publish (pubOn 5) (push emptyRegistry hashEntry) quietWorld
      = (-1, quietWorld) :=
  handle_publish_unknown_topic (pubOn 5) (push emptyRegistry hashEntry) quietWorld (by decide)
    (by decide)

/-! ## Outbound SUBSCRIBE packets -/

/-- C function `pack_subscribe` on a struct with the single tuple `t`: a zero packet
identifier, a zero QoS, a null topic or an empty topic give `MALFORMED_PACKET` and no buffer;
otherwise the buffer is the header byte `0x82`, the Remaining Length and a body that starts
with the two bytes of the packet identifier. -/
theorem pack_subscribe_single (t : subscribe_tuples) (id : Nat) :
    (id = 0 ∨ t.qos = 0 ∨ t.topic = none ∨ t.topic_len = 0 →
      pack_subscribe { pkt_id := id, tuples_len := 1, tuples := [t] } =
        { buf := none, buf_len := 0, return_code := MALFORMED_PACKET }) ∧
    (¬ (id = 0 ∨ t.qos = 0 ∨ t.topic = none ∨ t.topic_len = 0) →
      ∃ rest,
        pack_subscribe { pkt_id := id, tuples_len := 1, tuples := [t] } =
          { buf := some (0x82 :: ((encode_remaining_length (2 + rest.length)).2 ++
              (id % 65536 / 256 :: id % 65536 % 256 :: rest)))
            buf_len := 1 + (encode_remaining_length (2 + rest.length)).2.length +
              (2 + rest.length)
            return_code := 0 }) := by
  have hr : List.range 1 = [0] := rfl
  constructor
  · intro h
    simp only [pack_subscribe, CHECK, hr, List.foldl_cons, List.foldl_nil, List.getD_cons_zero,
      one_ne_zero, if_false]
    by_cases h1 : id = 0 <;> by_cases h2 : t.qos = 0 <;> by_cases h3 : t.topic = none <;>
      by_cases h4 : t.topic_len = 0 <;>
      simp only [h1, h2, h3, h4, if_true, if_false, or_self, or_true, true_or] at h ⊢ <;>
      rfl
  · intro h
    have h1 : ¬ id = 0 := fun x => h (Or.inl x)
    have h2 : ¬ t.qos = 0 := fun x => h (Or.inr (Or.inl x))
    have h3 : ¬ t.topic = none := fun x => h (Or.inr (Or.inr (Or.inl x)))
    have h4 : ¬ t.topic_len = 0 := fun x => h (Or.inr (Or.inr (Or.inr x)))
    have s1 := pack16_holds _ [] id FAILED_MEM_ALLOC holds_init
    have s2 := pack16_holds _ _ t.topic_len FAILED_MEM_ALLOC s1
    have s3 := pack_str_holds _ _ t.topic t.topic_len FAILED_MEM_ALLOC s2
    have s4 := pack8_holds _ _ t.qos FAILED_MEM_ALLOC s3
    refine ⟨[t.topic_len % 65536 / 256, t.topic_len % 65536 % 256] ++
      memRead (t.topic.getD []) 0 (t.topic_len % 65536) ++ [t.qos % 256], ?_⟩
    have s5 := holds_congr s4 (show _ = id % 65536 / 256 :: id % 65536 % 256 ::
      ([t.topic_len % 65536 / 256, t.topic_len % 65536 % 256] ++
        memRead (t.topic.getD []) 0 (t.topic_len % 65536) ++ [t.qos % 256]) by simp)
    have hlen : (id % 65536 / 256 :: id % 65536 % 256 ::
      ([t.topic_len % 65536 / 256, t.topic_len % 65536 % 256] ++
        memRead (t.topic.getD []) 0 (t.topic_len % 65536) ++ [t.qos % 256])).length =
      2 + ([t.topic_len % 65536 / 256, t.topic_len % 65536 % 256] ++
        memRead (t.topic.getD []) 0 (t.topic_len % 65536) ++ [t.qos % 256]).length := by
      simp only [List.length_cons]; omega
    simp only [pack_subscribe, CHECK, hr, List.foldl_cons, List.foldl_nil, List.getD_cons_zero,
      one_ne_zero, if_false, h1, h2, h3, h4, ne_eq, not_true_eq_false]
    rw [finalize_packet_holds _ _ _ s5, hlen]
    rfl

/-- C function `mqtt_client_subscribe_to_topic`: what is sent and returned, by the outcome of
`pack_subscribe`. -/
theorem subscribe_to_topic_cases (t : subscribe_tuples) (id : Nat) (w : World) :
    (id = 0 ∨ t.qos = 0 ∨ t.topic = none ∨ t.topic_len = 0 →
      mqtt_client_subscribe_to_topic t id w = (-1, (id + 1) % 65536, w)) ∧
    (¬ (id = 0 ∨ t.qos = 0 ∨ t.topic = none ∨ t.topic_len = 0) →
      ∃ rest,
        mqtt_client_subscribe_to_topic t id w =
          (if w.send_fails w.sent.length then -1 else 0, (id + 1) % 65536,
            { w with
                sent := w.sent ++ [0x82 :: ((encode_remaining_length (2 + rest.length)).2 ++
                  (id % 65536 / 256 :: id % 65536 % 256 :: rest))] })) := by
  obtain ⟨hbad, hgood⟩ := pack_subscribe_single t id
  constructor
  · intro h
    simp only [mqtt_client_subscribe_to_topic, hbad h]
    rw [if_pos (by decide)]
  · intro h
    obtain ⟨rest, hp⟩ := hgood h
    refine ⟨rest, ?_⟩
    simp only [mqtt_client_subscribe_to_topic, hp, send]
    rw [if_neg (by decide)]
    have hr : memRead ((some (0x82 :: ((encode_remaining_length (2 + rest.length)).2 ++
        (id % 65536 / 256 :: id % 65536 % 256 :: rest))) : Option (List Nat)).getD []) 0
        (1 + (encode_remaining_length (2 + rest.length)).2.length + (2 + rest.length)) =
        0x82 :: ((encode_remaining_length (2 + rest.length)).2 ++
          (id % 65536 / 256 :: id % 65536 % 256 :: rest)) := by
      rw [Option.getD_some, memRead_take _ _ (by simp; omega)]
      apply List.take_of_length_le
      simp; omega
    rw [hr]
    by_cases hf : w.send_fails w.sent.length = true
    · simp [hf]
    · simp only [hf, Bool.false_eq_true, if_false]
      rw [if_neg (by omega)]

/-- C35: for every value of the counter (a `uint16_t`) and every subscription,
`mqtt_client_subscribe_to_topic` either does not call `send` (and returns `-1`), or the counter
is not 0 and it passes to `send` exactly one buffer, which consists of the SUBSCRIBE header byte
`0x82`, the Remaining Length, and a body that starts with the two bytes of the counter as
packet identifier (which are therefore not both 0).  With the counter at 0 nothing is
sent. -/
theorem subscribe_to_topic_never_sends_zero_id (t : subscribe_tuples) (id : Nat) (w : World)
    (h16 : id < 65536) :
    (((mqtt_client_subscribe_to_topic t id w).2.2.sent = w.sent ∧
        (mqtt_client_subscribe_to_topic t id w).1 = -1) ∨
      (id ≠ 0 ∧ ∃ rest,
        (mqtt_client_subscribe_to_topic t id w).2.2.sent =
          w.sent ++ [0x82 :: ((encode_remaining_length (2 + rest.length)).2 ++
            (id / 256 :: id % 256 :: rest))] ∧
        (id / 256 ≠ 0 ∨ id % 256 ≠ 0))) ∧
    (id = 0 → (mqtt_client_subscribe_to_topic t id w).2.2.sent = w.sent ∧
      (mqtt_client_subscribe_to_topic t id w).1 = -1) ∧
    (id ≠ 0 → t.qos ≠ 0 → t.topic ≠ none → t.topic_len ≠ 0 →
      (mqtt_client_subscribe_to_topic t id w).2.2.sent ≠ w.sent) := by
  obtain ⟨hbad, hgood⟩ := subscribe_to_topic_cases t id w
  have hm : id % 65536 = id := Nat.mod_eq_of_lt h16
  refine ⟨?_, ?_, ?_⟩
  · by_cases h : id = 0 ∨ t.qos = 0 ∨ t.topic = none ∨ t.topic_len = 0
    · rw [hbad h]
      exact Or.inl ⟨rfl, rfl⟩
    · obtain ⟨rest, hp⟩ := hgood h
      have h1 : id ≠ 0 := fun x => h (Or.inl x)
      rw [hp, hm]
      exact Or.inr ⟨h1, rest, rfl, by omega⟩
  · intro h0
    rw [hbad (Or.inl h0)]
    exact ⟨rfl, rfl⟩
  · intro h1 h2 h3 h4
    obtain ⟨rest, hp⟩ := hgood (by
      intro h
      rcases h with h | h | h | h
      · exact h1 h
      · exact h2 h
      · exact h3 h
      · exact h4 h)
    rw [hp]
    simp

/-- Instance of C35: the call made by `process_broker_messages` (counter 1, the subscription
to `"home/chris/smart_led"`) sends a buffer, and the same call with the counter at 0 sends
nothing. -/
theorem subscribe_to_topic_never_sends_zero_id_witness :
    (mqtt_client_subscribe_to_topic ledTuple 1 quietWorld).2.2.sent ≠ quietWorld.sent ∧
    (mqtt_client_subscribe_to_topic ledTuple 0 quietWorld).2.2.sent = quietWorld.sent :=
  ⟨(subscribe_to_topic_never_sends_zero_id ledTuple 1 quietWorld (by decide)).2.2
      (by decide) (by decide) (by decide) (by decide),
   ((subscribe_to_topic_never_sends_zero_id ledTuple 0 quietWorld (by decide)).2.1 rfl).1⟩

/-- C36 fails at the largest counter value. Called with the counter at 65535,
`mqtt_client_subscribe_to_topic` sends a SUBSCRIBE with the packet identifier `FF FF` and
leaves the counter at 0, which is not one greater; the next call, with the counter at 0, sends
nothing and returns `-1`. -/
theorem packet_id_counter_wraps :
    (mqtt_client_subscribe_to_topic ledTuple 65535 quietWorld).2.1 = 0 ∧
    ((mqtt_client_subscribe_to_topic ledTuple 65535 quietWorld).2.2.sent.map
      (fun b => b.take 4)) = [[0x82, 25, 0xFF, 0xFF]] ∧
    (mqtt_client_subscribe_to_topic ledTuple 0
      (mqtt_client_subscribe_to_topic ledTuple 65535 quietWorld).2.2).1 = -1 ∧
    (mqtt_client_subscribe_to_topic ledTuple 0
      (mqtt_client_subscribe_to_topic ledTuple 65535 quietWorld).2.2).2.2.sent.length = 1 := by
  decide

/-- C36, amended: for every value of the counter (a `uint16_t`) and every subscription,
`mqtt_client_subscribe_to_topic` leaves the counter at the value before the call plus one
modulo 65536: one greater when the value was below 65535, and 0 when it was 65535.  Whatever is
passed to `send` during the call is a SUBSCRIBE whose packet identifier is the value of the
counter before the call. -/
theorem subscribe_to_topic_counter (t : subscribe_tuples) (id : Nat) (w : World)
    (h16 : id < 65536) :
    (mqtt_client_subscribe_to_topic t id w).2.1 = (id + 1) % 65536 ∧
    (id < 65535 → (mqtt_client_subscribe_to_topic t id w).2.1 = id + 1) ∧
    (id = 65535 → (mqtt_client_subscribe_to_topic t id w).2.1 = 0) ∧
    ((mqtt_client_subscribe_to_topic t id w).2.2.sent = w.sent ∨
      ∃ rest, (mqtt_client_subscribe_to_topic t id w).2.2.sent =
        w.sent ++ [0x82 :: ((encode_remaining_length (2 + rest.length)).2 ++
          (id / 256 :: id % 256 :: rest))]) := by
  obtain ⟨hbad, hgood⟩ := subscribe_to_topic_cases t id w
  have hm : id % 65536 = id := Nat.mod_eq_of_lt h16
  have hc : (mqtt_client_subscribe_to_topic t id w).2.1 = (id + 1) % 65536 := by
    by_cases h : id = 0 ∨ t.qos = 0 ∨ t.topic = none ∨ t.topic_len = 0
    · rw [hbad h]
    · obtain ⟨rest, hp⟩ := hgood h
      rw [hp]
  refine ⟨hc, ?_, ?_, ?_⟩
  · intro h; rw [hc]; omega
  · intro h; rw [hc, h]
  · by_cases h : id = 0 ∨ t.qos = 0 ∨ t.topic = none ∨ t.topic_len = 0
    · rw [hbad h]; exact Or.inl rfl
    · obtain ⟨rest, hp⟩ := hgood h
      rw [hp, hm]
      exact Or.inr ⟨rest, rfl⟩

/-- Instance of the amended C36: starting from 1, as `process_broker_messages` does, the
call leaves the counter at 2; starting from 65535 it leaves it at 0. -/
theorem subscribe_to_topic_counter_witness :
    (mqtt_client_subscribe_to_topic ledTuple 1 quietWorld).2.1 = 2 ∧
    (mqtt_client_subscribe_to_topic ledTuple 65535 quietWorld).2.1 = 0 :=
  ⟨(subscribe_to_topic_counter ledTuple 1 quietWorld (by decide)).2.1 (by decide),
   (subscribe_to_topic_counter ledTuple 65535 quietWorld (by decide)).2.2.1 rfl⟩

/-! ## The session loop -/

/-- The first packet of a connection, when `unpack` returns anything but `MQTT_CONNACK`: the
task deletes itself in the state in which the iteration began. -/
theorem process_packet_first (s : Session) (packet_type : Int) (packet : mqtt_packet)
    (h0 : s.msg_number = 0) (ht : packet_type ≠ MQTT_CONNACK) :
    process_packet s packet_type packet = .deleted s := by
  unfold process_packet
  rw [if_pos ⟨h0, ht⟩]

/-- A later packet for which `unpack` returns `MQTT_CONNACK`: the task deletes itself in the
state in which the iteration began. -/
theorem process_packet_duplicate (s : Session) (packet : mqtt_packet) (h0 : 0 < s.msg_number) :
    process_packet s MQTT_CONNACK packet = .deleted s := by
  unfold process_packet
  rw [if_neg (by simp), if_pos ⟨h0, rfl⟩]

/-- An iteration after which the loop goes on has counted one more message. -/
theorem process_packet_next (s s1 : Session) (packet_type : Int) (packet : mqtt_packet)
    (h : process_packet s packet_type packet = .next s1) :
    s1.msg_number = s.msg_number + 1 := by
  simp only [process_packet] at h
  split_ifs at h <;> (injection h with h; rw [← h])

/-- The same for a whole iteration. -/
theorem process_iteration_next (u : Uninit) (fuel : Nat) (s s1 : Session) (mem : List Nat)
    (n : Int) (h : process_iteration u fuel s mem n = .next s1) :
    s1.msg_number = s.msg_number + 1 := by
  unfold process_iteration at h
  split_ifs at h
  cases hu : unpack u fuel mqtt_packet.zero mem n.toNat with
  | none => rw [hu] at h; exact absurd h (by simp)
  | some r =>
    rw [hu] at h
    exact process_packet_next s s1 r.rc r.val h

/-- The loop on a sequence of reads in two parts. -/
theorem process_broker_messages_append (u : Uninit) (fuel : Nat) (a b : List (List Nat × Int)) :
    ∀ s, process_broker_messages u fuel s (a ++ b) =
      match process_broker_messages u fuel s a with
      | .next s1 => process_broker_messages u fuel s1 b
      | o => o := by
  induction a with
  | nil => intro s; rfl
  | cons x a ih =>
    intro s
    obtain ⟨mem, n⟩ := x
    simp only [List.cons_append, process_broker_messages]
    cases process_iteration u fuel s mem n with
    | next s1 => exact ih s1
    | deleted s1 => rfl
    | stuck s1 => rfl

/-- While the loop goes on, `msg_number` counts the reads. -/
theorem process_broker_messages_count (u : Uninit) (fuel : Nat) (a : List (List Nat × Int)) :
    ∀ s s1, process_broker_messages u fuel s a = .next s1 →
      s1.msg_number = s.msg_number + (a.length : Int) := by
  induction a with
  | nil =>
    intro s s1 h
    simp only [process_broker_messages] at h
    injection h with h
    rw [h]; simp
  | cons x a ih =>
    intro s s1 h
    obtain ⟨mem, n⟩ := x
    simp only [process_broker_messages] at h
    cases hi : process_iteration u fuel s mem n with
    | next s2 =>
      rw [hi] at h
      have h1 := process_iteration_next u fuel s s2 mem n hi
      have h2 := ih s2 s1 h
      rw [h2, h1]
      simp only [List.length_cons]
      push_cast
      ring
    | deleted s2 => rw [hi] at h; exact absurd h (by simp)
    | stuck s2 => rw [hi] at h; exact absurd h (by simp)

/-- C37: in the loop of `process_broker_messages`, (1) an iteration with `msg_number = 0` in
which `unpack` returns anything but `MQTT_CONNACK`, and (2) an iteration with
`msg_number > 0` in which it returns `MQTT_CONNACK`, end with the task deleting itself in the
state in which the iteration began: nothing is sent, no callback runs, nothing is dispatched.
On a sequence of reads, from the start of the loop: (3) when the first read does not decode
to `MQTT_CONNACK` the task is deleted at once; (4) when a later read decodes to
`MQTT_CONNACK`, the loop, if it gets there, deletes the task in the state reached before
that read (the reads before it being fewer than the largest `int`, so that `msg_number` has
not overflowed); (5) if `mqtt_client_handle_publish` has been invoked at all, then the first read
returned bytes that `unpack` decoded with the result `MQTT_CONNACK` and the connack return
code 0. -/
theorem process_broker_messages_connack_first (u : Uninit) (fuel : Nat) :
    (∀ (s : Session) (packet_type : Int) (packet : mqtt_packet),
      s.msg_number = 0 → packet_type ≠ MQTT_CONNACK →
      process_packet s packet_type packet = .deleted s) ∧
    (∀ (s : Session) (packet : mqtt_packet),
      0 < s.msg_number → process_packet s MQTT_CONNACK packet = .deleted s) ∧
    (∀ (l : vector) (w : World) (mem : List Nat) (n : Int) (rest : List (List Nat × Int))
        (r : Res mqtt_packet),
      unpack u fuel mqtt_packet.zero mem n.toNat = some r → r.rc ≠ MQTT_CONNACK →
      process_broker_messages u fuel (Session.start l w) ((mem, n) :: rest) =
        .deleted (Session.start l w)) ∧
    (∀ (l : vector) (w : World) (pre : List (List Nat × Int)) (mem : List Nat) (n : Int)
        (post : List (List Nat × Int)) (r : Res mqtt_packet),
      pre ≠ [] → (pre.length : Int) < 2 ^ 31 - 1 →
      unpack u fuel mqtt_packet.zero mem n.toNat = some r → r.rc = MQTT_CONNACK →
      (∃ s1, process_broker_messages u fuel (Session.start l w) pre = .next s1 ∧
        process_broker_messages u fuel (Session.start l w) (pre ++ (mem, n) :: post) =
          .deleted s1) ∨
      ((∀ s1, process_broker_messages u fuel (Session.start l w) pre ≠ .next s1) ∧
        process_broker_messages u fuel (Session.start l w) (pre ++ (mem, n) :: post) =
          process_broker_messages u fuel (Session.start l w) pre)) ∧
    (∀ (l : vector) (w : World) (inputs : List (List Nat × Int)),
      (process_broker_messages u fuel (Session.start l w) inputs).session.handled ≠ [] →
      ∃ mem n rest r, inputs = (mem, n) :: rest ∧ 0 < n ∧
        unpack u fuel mqtt_packet.zero mem n.toNat = some r ∧ r.rc = MQTT_CONNACK ∧
        r.val.connack.return_code = 0) := by
  refine ⟨process_packet_first, process_packet_duplicate, ?_, ?_, ?_⟩
  · intro l w mem n rest r hu hr
    simp only [process_broker_messages, process_iteration, hu]
    by_cases hn : n ≤ 0
    · simp [hn]
    · simp only [hn, if_false]
      rw [process_packet_first _ _ _ rfl hr]
  · intro l w pre mem n post r hpre _ hu hr
    rw [process_broker_messages_append]
    cases hp : process_broker_messages u fuel (Session.start l w) pre with
    | next s1 =>
      left
      refine ⟨s1, rfl, ?_⟩
      have hc := process_broker_messages_count u fuel pre _ _ hp
      have hpos : 0 < s1.msg_number := by
        rw [hc]
        have : 0 < pre.length := List.length_pos.mpr hpre
        simp only [Session.start]
        omega
      simp only [process_broker_messages, process_iteration, hu]
      by_cases hn : n ≤ 0
      · simp [hn]
      · simp only [hn, if_false]
        rw [hr, process_packet_duplicate _ _ hpos]
    | deleted s1 =>
      right
      exact ⟨fun s2 h => by simp at h, rfl⟩
    | stuck s1 =>
      right
      exact ⟨fun s2 h => by simp at h, rfl⟩
  · intro l w inputs hh
    cases inputs with
    | nil => exact absurd rfl hh
    | cons x rest =>
      obtain ⟨mem, n⟩ := x
      by_cases hn : n ≤ 0
      · simp only [process_broker_messages, process_iteration, hn, if_true] at hh
        exact absurd rfl hh
      · cases hu : unpack u fuel mqtt_packet.zero mem n.toNat with
        | none =>
          simp only [process_broker_messages, process_iteration, hn, if_false, hu] at hh
          exact absurd rfl hh
        | some r =>
          by_cases hr : r.rc = MQTT_CONNACK
          · by_cases hc : r.val.connack.return_code = 0
            · exact ⟨mem, n, rest, r, rfl, by omega, hu, hr, hc⟩
            · simp only [process_broker_messages, process_iteration, hn, if_false, hu,
                process_packet, hr, Session.start, hc, ne_eq, not_true_eq_false, and_false,
                not_false_eq_true, if_true, lt_self_iff_false, false_and] at hh
              exact absurd rfl hh
          · simp only [process_broker_messages, process_iteration, hn, if_false, hu] at hh
            rw [process_packet_first _ _ _ rfl hr] at hh
            exact absurd rfl hh

/-- Instance of C37: a PUBLISH as the first packet deletes the task; after a CONNACK with
return code 0 a PUBLISH reaches `mqtt_client_handle_publish`, and the first read of that run
is the CONNACK. -/
theorem process_broker_messages_connack_first_witness :
    process_broker_messages zeroUninit 1 (Session.start emptyRegistry quietWorld)
      [(publishOnWire, 28)] = .deleted (Session.start emptyRegistry quietWorld) ∧
    ∃ mem n rest r, [(connackWire, (4 : Int)), (publishOnWire, (28 : Int))] = (mem, n) :: rest ∧
      0 < n ∧ unpack zeroUninit 1 mqtt_packet.zero mem n.toNat = some r ∧
      r.rc = MQTT_CONNACK ∧ r.val.connack.return_code = 0 :=
  ⟨(process_broker_messages_connack_first zeroUninit 1).2.2.1 emptyRegistry quietWorld
      publishOnWire 28 [] _ rfl (by decide),
   (process_broker_messages_connack_first zeroUninit 1).2.2.2.2 emptyRegistry quietWorld
      [(connackWire, 4), (publishOnWire, 28)] (by decide)⟩

end SmartLED
